import Mathlib

/-! # Trainer party generation (`src/rogue_trainers.c`)

A shallow embedding of the trainer party generator: the difficulty policy
functions, the species sampling state machine, the rival roster lifecycle and
the preset selector.

Conventions of the embedding

* C globals that the generator mutates live in `World`; the scratch structure
  of one generation call is `TrainerPartyScratch` and is passed explicitly.
* Everything the file only reads (configuration, static tables, header
  constants) and every routine it calls in other translation units (query
  engine, species database, random source) is a field of `Env`.
* 8-bit counters are `Nat` with an explicit `% 256` wherever the C code
  increments or subtracts.
* `AGB_ASSERT` and `DebugPrint` compile to nothing in a release build and are
  not modelled.
* Loops whose termination depends on run-time data take a fuel argument and
  return `none` when it runs out; a read of an uninitialised local is `none`
  as well.
-/

namespace Rogue

/-! ## Header constants -/

def SPECIES_NONE : Nat := 0
def SPECIES_MAGIKARP : Nat := 129
def ITEM_NONE : Nat := 0
def MOVE_NONE : Nat := 0
def MAX_LEVEL : Nat := 100
def PARTY_SIZE : Nat := 6
def MAX_MON_MOVES : Nat := 4

def ROGUE_GYM_START_DIFFICULTY : Nat := 0
def ROGUE_GYM_MID_DIFFICULTY : Nat := 4
def ROGUE_ELITE_START_DIFFICULTY : Nat := 8
def ROGUE_CHAMP_START_DIFFICULTY : Nat := 12
def ROGUE_FINAL_CHAMP_DIFFICULTY : Nat := 13
def ROGUE_MAX_BOSS_COUNT : Nat := 14
def ROGUE_RIVAL_TOTAL_MON_COUNT : Nat := 9

def DIFFICULTY_LEVEL_EASY : Nat := 0
def DIFFICULTY_LEVEL_MEDIUM : Nat := 1
def DIFFICULTY_LEVEL_HARD : Nat := 2
def DIFFICULTY_LEVEL_BRUTAL : Nat := 3

def ADVPATH_SUBROOM_ROUTE_CALM : Nat := 0
def ADVPATH_SUBROOM_ROUTE_AVERAGE : Nat := 1
def ADVPATH_SUBROOM_ROUTE_TOUGH : Nat := 2

def QUERY_FUNC_INCLUDE : Nat := 0
def QUERY_FUNC_EXCLUDE : Nat := 1

def TRAINER_SHINY_PERC : Nat := 25
def RIVAL_STARTER_INDEX : Nat := 1
def RIVAL_BASE_PARTY_SIZE : Nat := 5

/-- Truncation of a C `int` result to `u8`. -/
def toU8 (x : Int) : Nat := (x % 256).toNat

/-- The macro `MON_TYPE_VAL_TO_FLAGS(type)`, a one-bit `u32` mask. -/
def MON_TYPE_VAL_TO_FLAGS (type : Nat) : Nat := (2 ^ type) % 2 ^ 32

/-! ## Data model -/

/-- One entry of a trainer's team generator: `struct RogueTeamGeneratorSubset`. -/
structure RogueTeamGeneratorSubset where
  includedTypeMask : Nat := 0
  excludedTypeMask : Nat := 0
  maxSamples : Nat := 0
deriving DecidableEq, Repr

/-- The team generator of a trainer: `struct RogueTeamGenerator`. A script
pointer is `none` for `NULL`; `subsetCount` is the length of `subsets`. -/
structure RogueTeamGenerator where
  queryScriptOverride : Option Nat := none
  queryScriptPost : Option Nat := none
  weightScript : Option Nat := none
  subsets : List RogueTeamGeneratorSubset := []
deriving DecidableEq, Repr

def RogueTeamGenerator.subsetCount (g : RogueTeamGenerator) : Nat := g.subsets.length

/-- The static trainer definition: the fields of `struct RogueTrainer` this
file reads. -/
structure RogueTrainer where
  trainerFlags : Nat := 0
  typeAssignment : Nat := 0
  levelOverride : Nat := 0
  potentialShinySpecies : Nat := 0
  teamGenerator : RogueTeamGenerator := {}
deriving DecidableEq, Repr

/-- A competitive preset: `struct RoguePokemonCompetitiveSet`. -/
structure RoguePokemonCompetitiveSet where
  heldItem : Nat := 0
  flags : Nat := 0
  moves : List Nat := [0, 0, 0, 0]
deriving DecidableEq, Repr

/-- The rules produced next to a preset: `struct RoguePokemonCompetitiveSetRules`. -/
structure RoguePokemonCompetitiveSetRules where
  allowMissingMoves : Bool := false
  skipNature : Bool := false
deriving DecidableEq, Repr

/-- The fields of `struct Pokemon` the generator reads back through
`GetMonData` or sets through `SetMonData`. -/
structure Pokemon where
  species : Nat := 0
  level : Nat := 0
  fixedIV : Nat := 0
  heldItem : Nat := 0
  moves : List Nat := [0, 0, 0, 0]
  isShiny : Bool := false
deriving DecidableEq, Repr

/-- The held item categories seen so far: `struct TrainerHeldItemScratch`. -/
structure TrainerHeldItemScratch where
  hasLeftovers : Bool := false
  hasShellbell : Bool := false
  hasChoiceItem : Bool := false
  hasMegaStone : Bool := false
  hasZCrystal : Bool := false
deriving DecidableEq, Repr

/-- The per-call scratch: `struct TrainerPartyScratch`. The C field `party` is a
pointer to the buffer being filled; here it is the buffer itself. -/
structure TrainerPartyScratch where
  heldItems : TrainerHeldItemScratch := {}
  party : List Pokemon := []
  trainerNum : Nat := 0
  shouldRegenerateQuery : Bool := false
  allowItemEvos : Bool := false
  allowWeakLegends : Bool := false
  allowStrongLegends : Bool := false
  forceLegends : Bool := false
  preferStrongSpecies : Bool := false
  evoLevel : Nat := 0
  partyCapacity : Nat := 0
  partyCount : Nat := 0
  subsetIndex : Nat := 0
  subsetSampleCount : Nat := 0
  fallbackCount : Nat := 0
deriving DecidableEq, Repr

/-- The two random streams: `gRngRogueValue` is the stream of `RogueRandom`,
`gRngValue` the stream of the engine's `Random`. -/
structure RngState where
  gRngRogueValue : Nat := 0
  gRngValue : Nat := 0
deriving DecidableEq, Repr

/-- The fields of `gRogueRun` this file uses. -/
structure RogueRunData where
  baseSeed : Nat := 0
  rivalTrainerNum : Nat := 0
  rivalHasShiny : Bool := false
  rivalSpecies : List Nat := List.replicate 9 0
  legendarySpecies : List Nat := []
  currentLevelOffset : Nat := 0
deriving DecidableEq, Repr

/-- The mutable globals: the run, the difficulty tier behind
`Rogue_GetCurrentDifficulty`, the random streams, `gEnemyParty` and the
candidate set of the species query. -/
structure World where
  gRogueRun : RogueRunData := {}
  currentDifficulty : Nat := 0
  rng : RngState := {}
  gEnemyParty : List Pokemon := List.replicate 6 {}
  monQuery : List Nat := []
deriving DecidableEq, Repr

/-- Everything the generator reads but does not own: build options,
configuration, static tables, header constants whose value the file does not
fix, and the routines of other translation units. -/
structure Env where
  ROGUE_EXPANSION : Bool := false
  ROGUE_FEATURE_AUTOMATION : Bool := false
  TRAINER_FLAG_CLASS_ANY_MAIN_BOSS : Nat := 1
  TRAINER_FLAG_CLASS_RIVAL : Nat := 2
  MON_FLAG_SINGLES_STRONG : Nat := 1
  MON_FLAG_DOUBLES_STRONG : Nat := 2
  BATTLE_TYPE_DOUBLE : Nat := 1
  ADVPATH_ROOM_LEGENDARY : Nat := 7
  NUMBER_OF_MON_TYPES : Nat := 18
  TYPE_NORMAL : Nat := 0
  TYPE_FIGHTING : Nat := 1
  TYPE_FLYING : Nat := 2
  TYPE_POISON : Nat := 3
  TYPE_GROUND : Nat := 4
  TYPE_ROCK : Nat := 5
  TYPE_BUG : Nat := 6
  TYPE_GHOST : Nat := 7
  TYPE_STEEL : Nat := 8
  TYPE_MYSTERY : Nat := 9
  TYPE_FIRE : Nat := 10
  TYPE_WATER : Nat := 11
  TYPE_GRASS : Nat := 12
  TYPE_ELECTRIC : Nat := 13
  TYPE_PSYCHIC : Nat := 14
  TYPE_ICE : Nat := 15
  TYPE_DRAGON : Nat := 16
  TYPE_DARK : Nat := 17
  TYPE_NONE : Nat := 255
  ITEM_LEFTOVERS : Nat := 200
  ITEM_SHELL_BELL : Nat := 219
  ITEM_CHOICE_BAND : Nat := 186
  ITEM_CHOICE_SPECS : Nat := 1001
  ITEM_CHOICE_SCARF : Nat := 1002
  ITEM_MUSCLE_BAND : Nat := 1003
  ITEM_WISE_GLASSES : Nat := 1004
  ITEM_QUICK_CLAW : Nat := 187
  ITEM_LUM_BERRY : Nat := 141
  ITEM_SITRUS_BERRY : Nat := 142
  ITEM_RED_ORB : Nat := 1005
  ITEM_BLUE_ORB : Nat := 1006
  ITEM_VENUSAURITE : Nat := 1100
  ITEM_DIANCITE : Nat := 1147
  ITEM_NORMALIUM_Z : Nat := 1200
  ITEM_ULTRANECROZIUM_Z : Nat := 1234
  FLAG_SET_SEED_TRAINERS : Nat := 0
  gRogueTrainers : Nat → RogueTrainer := fun _ => {}
  competitiveSets : Nat → List RoguePokemonCompetitiveSet := fun _ => []
  movePower : Nat → Nat := fun _ => 0
  configRangeTrainer : Nat := 0
  FLAG_ROGUE_GAUNTLET_MODE : Bool := false
  DEBUG_TOGGLE_TRAINER_LVL_5 : Bool := false
  AUTO_FLAG_TRAINER_FORCE_COMP_MOVESETS : Bool := false
  RogueMP_IsActive : Bool := false
  RogueAdv_GetTileNum : Nat := 0
  Rogue_GetEncounterDifficultyModifier : Nat := 0
  currentRoomType : Nat := 0
  gBattleTypeFlags : Nat := 0
  RoguePokedex_GetCurrentDexLimit : Nat := 0
  IsMegaEvolutionEnabled : Bool := true
  IsZMovesEnabled : Bool := true
  RoguePokedex_GetSpeciesBST : Nat → Nat := fun _ => 0
  Rogue_GetActiveEvolutionCount : Nat → Nat := fun _ => 0
  Rogue_GetEggSpecies : Nat → Nat := fun s => s
  GET_BASE_SPECIES_ID : Nat → Nat := fun s => s
  RogueRandom : RngState → Nat × RngState := fun r => (0, r)
  RogueRandomRange : Nat → Nat → RngState → Nat × RngState := fun _ _ r => (0, r)
  RogueRandomChance : Nat → Nat → RngState → Bool × RngState := fun _ _ r => (false, r)
  SeedRogueRng : Nat → RngState → RngState := fun _ r => r
  CreateMon_rng : RngState → RngState := fun r => r
  RogueMonQuery_Begin : List Nat → List Nat := fun q => q
  RogueMonQuery_End : List Nat → List Nat := fun q => q
  RogueMonQuery_Reset : Nat → List Nat → List Nat := fun _ q => q
  RogueMonQuery_IsSpeciesActive : List Nat → List Nat := fun q => q
  RogueMiscQuery_EditElement : Nat → Nat → List Nat → List Nat := fun _ _ q => q
  RogueMonQuery_EvosContainType : Nat → Nat → List Nat → List Nat := fun _ _ q => q
  RogueMonQuery_TransformIntoEggSpecies : List Nat → List Nat := fun q => q
  RogueMonQuery_TransformIntoEvos : Nat → Bool → Bool → List Nat → List Nat := fun _ _ _ q => q
  RogueMonQuery_ContainsPresetFlags : Nat → Nat → List Nat → List Nat := fun _ _ q => q
  RogueMonQuery_IsLegendary : Nat → List Nat → List Nat := fun _ q => q
  RogueMonQuery_IsLegendaryWithPresetFlags : Nat → Nat → List Nat → List Nat := fun _ _ q => q
  RogueMonQuery_IsOfType : Nat → Nat → List Nat → List Nat := fun _ _ q => q
  RogueQueryScript_Execute : Nat → List Pokemon → List Nat → List Nat := fun _ _ q => q
  RogueQueryScript_CalculateWeightsCallback : Nat → List Pokemon → Nat → Nat → Nat :=
    fun _ _ _ _ => 1
  similarCheckSpecies : List Nat := []
  MOVE_TRICK : Nat := 271
  MonPresetReplaceMove_result : RoguePokemonCompetitiveSet → Nat → Nat → Bool :=
    fun _ _ _ => false
  MOVE_FAKE_OUT : Nat := 252
  MOVE_LIGHT_SCREEN : Nat := 113
  MOVE_REFLECT : Nat := 115
  MOVE_SPIKES : Nat := 191
  MOVE_TAUNT : Nat := 269
  MOVE_TOXIC : Nat := 92
  MOVE_BATON_PASS : Nat := 226
  MOVE_SUBSTITUTE : Nat := 164
  MOVE_U_TURN : Nat := 369
  MOVE_FLIP_TURN : Nat := 812
  MOVE_PARTING_SHOT : Nat := 575
  MOVE_VOLT_SWITCH : Nat := 521
  MOVE_TOXIC_SPIKES : Nat := 390
  MOVE_STEALTH_ROCK : Nat := 446
  MOVE_STICKY_WEB : Nat := 564
  MOVE_TRICK_ROOM : Nat := 433
  RoguePokedex_IsSpeciesLegendary : Nat → Bool := fun _ => false
  MonKnowsMove : Pokemon → Nat → Bool :=
    fun mon move => (mon.moves.take MAX_MON_MOVES).contains move

/-! ## Trainer classification and the level and IV policy -/

def Rogue_GetTrainer (env : Env) (trainerNum : Nat) : RogueTrainer :=
  env.gRogueTrainers trainerNum

def Rogue_IsBossTrainer (env : Env) (trainerNum : Nat) : Bool :=
  (Rogue_GetTrainer env trainerNum).trainerFlags &&& env.TRAINER_FLAG_CLASS_ANY_MAIN_BOSS != 0

def Rogue_IsRivalTrainer (env : Env) (trainerNum : Nat) : Bool :=
  (Rogue_GetTrainer env trainerNum).trainerFlags &&& env.TRAINER_FLAG_CLASS_RIVAL != 0

def Rogue_IsAnyBossTrainer (env : Env) (trainerNum : Nat) : Bool :=
  Rogue_IsBossTrainer env trainerNum || Rogue_IsRivalTrainer env trainerNum

def Rogue_IsKeyTrainer (env : Env) (trainerNum : Nat) : Bool :=
  Rogue_IsBossTrainer env trainerNum || Rogue_IsRivalTrainer env trainerNum

def Rogue_GetCurrentDifficulty (w : World) : Nat := w.currentDifficulty

def Rogue_SetCurrentDifficulty (difficulty : Nat) (w : World) : World :=
  { w with currentDifficulty := difficulty }

def CalculateLvlFor (env : Env) (difficulty : Nat) : Nat :=
  if env.FLAG_ROGUE_GAUNTLET_MODE then MAX_LEVEL
  else if difficulty < ROGUE_ELITE_START_DIFFICULTY then
    toU8 (10 * (difficulty + 1))
  else if difficulty < ROGUE_CHAMP_START_DIFFICULTY then
    toU8 (80 + 4 * (toU8 ((difficulty : Int) - ROGUE_ELITE_START_DIFFICULTY) + 1))
  else MAX_LEVEL

def Rogue_CalculateBossMonLvl (env : Env) (w : World) : Nat :=
  CalculateLvlFor env (Rogue_GetCurrentDifficulty w)

def Rogue_CalculatePlayerMonLvl (env : Env) (w : World) : Nat :=
  toU8 ((Rogue_CalculateBossMonLvl env w : Int) - w.gRogueRun.currentLevelOffset)

def Rogue_CalculateTrainerLvlCap (env : Env) (w : World) (keyBattle : Bool) : Nat :=
  if env.RogueMP_IsActive then
    let levelOffset : Nat :=
      if !keyBattle then
        (if env.RogueAdv_GetTileNum = 0 then 10
         else if env.RogueAdv_GetTileNum = 1 then 5
         else 0)
      else 0
    toU8 ((Rogue_CalculateBossMonLvl env w : Int) - levelOffset)
  else
    Rogue_CalculatePlayerMonLvl env w

/-- The local `startLvl` of `Rogue_CalculateTrainerMonLvl`: the tier-anchored
floor. -/
def Rogue_CalculateTrainerMonLvl_startLvl (env : Env) (w : World) : Nat :=
  if Rogue_GetCurrentDifficulty w = 0 then 5
  else CalculateLvlFor env (toU8 ((Rogue_GetCurrentDifficulty w : Int) - 1))

/-- The local `playerLvl` of `Rogue_CalculateTrainerMonLvl`: the level cap,
halved with a minimum of 5 at tier 0. -/
def Rogue_CalculateTrainerMonLvl_playerLvl (env : Env) (w : World) : Nat :=
  if Rogue_GetCurrentDifficulty w = 0 then
    max 5 (Rogue_CalculateTrainerLvlCap env w false / 2)
  else Rogue_CalculateTrainerLvlCap env w false

def Rogue_CalculateTrainerMonLvl (env : Env) (w : World) : Nat :=
  let difficultyModifier := env.Rogue_GetEncounterDifficultyModifier
  let startLvl := Rogue_CalculateTrainerMonLvl_startLvl env w
  let playerLvl := Rogue_CalculateTrainerMonLvl_playerLvl env w
  if difficultyModifier = ADVPATH_SUBROOM_ROUTE_CALM then startLvl
  else if difficultyModifier = ADVPATH_SUBROOM_ROUTE_AVERAGE then
    toU8 (((startLvl + playerLvl) / 2 : Nat))
  else if difficultyModifier = ADVPATH_SUBROOM_ROUTE_TOUGH then
    max startLvl (if playerLvl > 5 then playerLvl - 5 else 5)
  else playerLvl

def Rogue_CalculateRivalMonLvl (env : Env) (w : World) : Nat :=
  Rogue_CalculateTrainerLvlCap env w true

def GetTrainerLevel (env : Env) (w : World) (trainerNum : Nat) : Nat :=
  if Rogue_IsBossTrainer env trainerNum then Rogue_CalculateBossMonLvl env w
  else if Rogue_IsRivalTrainer env trainerNum then Rogue_CalculateRivalMonLvl env w
  else if (Rogue_GetTrainer env trainerNum).levelOverride ≠ 0 then
    (Rogue_GetTrainer env trainerNum).levelOverride
  else Rogue_CalculateTrainerMonLvl env w

/-- The `switch` on the trainer slider has no `default`: for a slider value
outside the four levels `fixedIV` is returned uninitialised (`none`). -/
def CalculateMonFixedIV (env : Env) (w : World) (trainerNum : Nat) : Option Nat :=
  let d := Rogue_GetCurrentDifficulty w
  if env.configRangeTrainer = DIFFICULTY_LEVEL_EASY then some 0
  else if env.configRangeTrainer = DIFFICULTY_LEVEL_MEDIUM then
    if Rogue_IsKeyTrainer env trainerNum then
      if d ≥ ROGUE_CHAMP_START_DIFFICULTY then some 16
      else if d ≥ ROGUE_ELITE_START_DIFFICULTY then some 10
      else if d ≥ ROGUE_GYM_MID_DIFFICULTY then some 8
      else if d ≥ ROGUE_GYM_MID_DIFFICULTY - 1 then some 6
      else some 0
    else some 0
  else if env.configRangeTrainer = DIFFICULTY_LEVEL_HARD then
    if Rogue_IsKeyTrainer env trainerNum then
      if d ≥ ROGUE_CHAMP_START_DIFFICULTY then some 31
      else if d ≥ ROGUE_ELITE_START_DIFFICULTY then some 21
      else if d ≥ ROGUE_GYM_MID_DIFFICULTY + 2 then some 19
      else if d ≥ ROGUE_GYM_MID_DIFFICULTY - 1 then some 15
      else if d ≥ 1 then some 11
      else some 5
    else
      some (if d > 8 then 13 else 5)
  else if env.configRangeTrainer = DIFFICULTY_LEVEL_BRUTAL then
    if Rogue_IsKeyTrainer env trainerNum then
      if d ≥ ROGUE_GYM_MID_DIFFICULTY + 1 then some 31
      else if d ≥ ROGUE_GYM_MID_DIFFICULTY - 1 then some 21
      else if d ≥ 1 then some 19
      else some 15
    else
      if d ≥ ROGUE_CHAMP_START_DIFFICULTY then some 31
      else if d ≥ ROGUE_ELITE_START_DIFFICULTY then some 21
      else if d ≥ ROGUE_GYM_MID_DIFFICULTY + 2 then some 19
      else if d ≥ ROGUE_GYM_MID_DIFFICULTY - 1 then some 15
      else if d ≥ 1 then some 11
      else some 5
  else none

/-! ## Scratch configuration and party size -/

def ConfigurePartyScratchSettings (env : Env) (w : World) (scratch : TrainerPartyScratch) :
    TrainerPartyScratch :=
  let d := Rogue_GetCurrentDifficulty w
  if env.configRangeTrainer = DIFFICULTY_LEVEL_EASY then
    if d ≥ 8 then { scratch with allowItemEvos := true, allowWeakLegends := true }
    else scratch
  else if env.configRangeTrainer = DIFFICULTY_LEVEL_MEDIUM then
    let scratch :=
      if d ≥ 8 then { scratch with allowStrongLegends := true, preferStrongSpecies := true }
      else if d ≥ 7 then { scratch with allowWeakLegends := true }
      else scratch
    if d ≥ 4 then { scratch with allowItemEvos := true } else scratch
  else if env.configRangeTrainer = DIFFICULTY_LEVEL_HARD then
    if d ≥ 5 then { scratch with allowStrongLegends := true, preferStrongSpecies := true }
    else if d ≥ 2 then { scratch with allowWeakLegends := true, allowItemEvos := true }
    else scratch
  else if env.configRangeTrainer = DIFFICULTY_LEVEL_BRUTAL then
    if d ≥ 2 then { scratch with allowStrongLegends := true, preferStrongSpecies := true }
    else if d ≥ 1 then { scratch with allowWeakLegends := true, allowItemEvos := true }
    else scratch
  else scratch

def ShouldTrainerOptimizeCoverage (env : Env) (w : World) (trainerNum : Nat) : Bool :=
  let d := Rogue_GetCurrentDifficulty w
  if env.configRangeTrainer = DIFFICULTY_LEVEL_EASY then false
  else if env.configRangeTrainer = DIFFICULTY_LEVEL_MEDIUM then
    if Rogue_IsRivalTrainer env trainerNum then true
    else if Rogue_IsKeyTrainer env trainerNum then
      decide (d ≥ ROGUE_ELITE_START_DIFFICULTY - 2)
    else false
  else if env.configRangeTrainer = DIFFICULTY_LEVEL_HARD then
    if Rogue_IsRivalTrainer env trainerNum then true
    else if Rogue_IsKeyTrainer env trainerNum then
      decide (d ≥ ROGUE_GYM_MID_DIFFICULTY)
    else decide (d ≥ ROGUE_ELITE_START_DIFFICULTY)
  else if env.configRangeTrainer = DIFFICULTY_LEVEL_BRUTAL then true
  else false

/-- The party size and the world after the call (the generic branch draws from
the random source). In the boss branch the `switch` on the slider has no
`default`, so `monCount` is read uninitialised (`none`) for a slider value
outside the four levels. -/
def CalculatePartyMonCount (env : Env) (w : World) (trainerNum monCapacity monLevel : Nat) :
    Option (Nat × World) :=
  let d := Rogue_GetCurrentDifficulty w
  if monLevel = 1 then some (1, w)
  else if Rogue_IsKeyTrainer env trainerNum then
    let monCount : Option Nat :=
      if env.FLAG_ROGUE_GAUNTLET_MODE then some 6
      else if env.configRangeTrainer = DIFFICULTY_LEVEL_EASY
          ∨ env.configRangeTrainer = DIFFICULTY_LEVEL_MEDIUM then
        if d = 0 then some (if Rogue_IsRivalTrainer env trainerNum then 2 else 3)
        else if d ≤ 1 then some 3
        else if d ≤ ROGUE_GYM_MID_DIFFICULTY then some 4
        else if d ≤ ROGUE_GYM_MID_DIFFICULTY + 2 then some 5
        else some 6
      else if env.configRangeTrainer = DIFFICULTY_LEVEL_HARD then
        if d = 0 then some (if Rogue_IsRivalTrainer env trainerNum then 3 else 4)
        else if d = 1 then some 5
        else some 6
      else if env.configRangeTrainer = DIFFICULTY_LEVEL_BRUTAL then
        if d = 0 then
          some (if Rogue_IsRivalTrainer env trainerNum then RIVAL_BASE_PARTY_SIZE else 6)
        else some 6
      else none
    monCount.map (fun monCount => (min monCount monCapacity, w))
  else
    let band : Nat × Nat :=
      if d ≤ 1 then (1, 2)
      else if d ≤ 2 then (1, 3)
      else if d ≤ ROGUE_CHAMP_START_DIFFICULTY - 1 then (2, 4)
      else (3, 4)
    let minMonCount := band.1
    let maxMonCount := band.2
    let r := env.RogueRandomRange (maxMonCount - minMonCount) env.FLAG_SET_SEED_TRAINERS w.rng
    let monCount := toU8 (minMonCount + r.1)
    some (min monCount monCapacity, { w with rng := r.2 })

def UseCompetitiveMoveset (env : Env) (w : World) (scratch : TrainerPartyScratch)
    (monIdx totalMonCount : Nat) : Bool :=
  let difficultyLevel := Rogue_GetCurrentDifficulty w
  let difficultyModifier := env.Rogue_GetEncounterDifficultyModifier
  let isLast : Bool := decide ((monIdx : Int) = (totalMonCount : Int) - 1)
  let preferCompetitive : Bool :=
    if env.currentRoomType = env.ADVPATH_ROOM_LEGENDARY
        ∨ difficultyModifier = ADVPATH_SUBROOM_ROUTE_TOUGH then
      (monIdx == 0 || isLast)
    else false
  if env.ROGUE_FEATURE_AUTOMATION && env.AUTO_FLAG_TRAINER_FORCE_COMP_MOVESETS then true
  else if env.FLAG_ROGUE_GAUNTLET_MODE then Rogue_IsAnyBossTrainer env scratch.trainerNum
  else if env.configRangeTrainer = DIFFICULTY_LEVEL_EASY then false
  else if env.configRangeTrainer = DIFFICULTY_LEVEL_MEDIUM then
    if difficultyLevel = 0 then false
    else if difficultyLevel = 1 then
      (preferCompetitive || Rogue_IsAnyBossTrainer env scratch.trainerNum) && isLast
    else (preferCompetitive || Rogue_IsAnyBossTrainer env scratch.trainerNum)
  else if env.configRangeTrainer = DIFFICULTY_LEVEL_HARD then
    if difficultyLevel = 0 then
      (preferCompetitive || Rogue_IsAnyBossTrainer env scratch.trainerNum) && isLast
    else if difficultyLevel = 1 then
      (preferCompetitive || Rogue_IsAnyBossTrainer env scratch.trainerNum)
    else true
  else if env.configRangeTrainer = DIFFICULTY_LEVEL_BRUTAL then true
  else false

def Rogue_IsValidTrainerShinySpecies (env : Env) (trainerNum species : Nat) : Bool :=
  let species := if env.ROGUE_EXPANSION then env.GET_BASE_SPECIES_ID species else species
  let species := env.Rogue_GetEggSpecies species
  (Rogue_GetTrainer env trainerNum).potentialShinySpecies == species

/-! ## Similar species -/

/-- The case labels of the `switch` (form families, `ROGUE_EXPANSION` only) are
the list `env.similarCheckSpecies`. -/
def GetSimilarCheckSpecies (env : Env) (species : Nat) : Nat :=
  if env.ROGUE_EXPANSION then
    let baseSpecies := env.GET_BASE_SPECIES_ID species
    if baseSpecies ∈ env.similarCheckSpecies then baseSpecies else species
  else species

def PartyContainsSimilarSpecies (env : Env) (w : World) (scratch : TrainerPartyScratch)
    (species : Nat) : Bool :=
  let species := GetSimilarCheckSpecies env species
  if w.gRogueRun.rivalTrainerNum = scratch.trainerNum
      ∧ (w.gRogueRun.rivalSpecies.take ROGUE_RIVAL_TOTAL_MON_COUNT).any
          (fun r => r != SPECIES_NONE && GetSimilarCheckSpecies env r == species) then
    true
  else
    (scratch.party.take scratch.partyCount).any
      (fun mon => GetSimilarCheckSpecies env mon.species == species)

def FilterOutDuplicateMons (env : Env) (w : World) (scratch : TrainerPartyScratch)
    (elem : Nat) : Bool :=
  !PartyContainsSimilarSpecies env w scratch elem

/-- The party handed to a query script: `SetupQueryScriptVars`. -/
def SetupQueryScriptVars (env : Env) (w : World) (scratch : TrainerPartyScratch) :
    List Pokemon :=
  if ShouldTrainerOptimizeCoverage env w scratch.trainerNum then
    scratch.party.take scratch.partyCount
  else []

/-! ## Fallback types -/

def SelectFallbackTypeFor (env : Env) (type counter : Nat) : Nat :=
  let counter := counter % 256
  if type = env.TYPE_DARK then
    (if counter % 2 = 0 then env.TYPE_FIGHTING else env.TYPE_PSYCHIC)
  else if type = env.TYPE_PSYCHIC then
    (if counter % 2 = 0 then env.TYPE_GHOST else env.TYPE_DARK)
  else if type = env.TYPE_STEEL then
    (if counter % 2 = 0 then env.TYPE_GROUND else env.TYPE_DRAGON)
  else if type = env.TYPE_FIGHTING then
    (if counter % 2 = 0 then env.TYPE_ROCK else env.TYPE_NORMAL)
  else if type = env.TYPE_GHOST then
    (if counter % 2 = 0 then env.TYPE_POISON else env.TYPE_BUG)
  else if type = env.TYPE_DRAGON then
    (if counter % 2 = 0 then env.TYPE_FIRE else env.TYPE_WATER)
  else if type = env.TYPE_FIRE then
    (if counter % 2 = 0 then env.TYPE_GROUND else env.TYPE_ROCK)
  else if type = env.TYPE_FLYING then
    (if counter % 2 = 0 then env.TYPE_NORMAL else env.TYPE_ELECTRIC)
  else if type = env.TYPE_ICE then
    (if counter % 2 = 0 then env.TYPE_WATER else env.TYPE_PSYCHIC)
  else if type = env.TYPE_NORMAL then
    (if counter % 2 = 0 then env.TYPE_FIGHTING else env.TYPE_GHOST)
  else env.TYPE_NONE

/-- The loop `while(currentType == TYPE_MYSTERY) currentType = RogueRandom() % N`. -/
def CalculateFallbackTypeFlags_mystery (env : Env) :
    Nat → Nat → RngState → Option (Nat × RngState)
  | 0, _, _ => none
  | fuel + 1, currentType, rng =>
    if currentType = env.TYPE_MYSTERY then
      let r := env.RogueRandom rng
      CalculateFallbackTypeFlags_mystery env fuel (toU8 (r.1 % env.NUMBER_OF_MON_TYPES)) r.2
    else some (currentType, rng)

/-- The loop `for(i = 0; i < fallbackCount; ++i) currentType = SelectFallbackTypeFor(..)`,
from index `i` for `n` more steps. -/
def CalculateFallbackTypeFlags_walk (env : Env) (trainerNum : Nat) : Nat → Nat → Nat → Nat
  | 0, _, currentType => currentType
  | n + 1, i, currentType =>
    CalculateFallbackTypeFlags_walk env trainerNum n (i + 1)
      (SelectFallbackTypeFor env currentType (trainerNum + i))

def CalculateFallbackTypeFlags (env : Env) (fuel : Nat) (scratch : TrainerPartyScratch)
    (rng : RngState) : Option (Nat × RngState) :=
  let trainer := env.gRogueTrainers scratch.trainerNum
  let currentType := trainer.typeAssignment
  if currentType = env.TYPE_MYSTERY then
    (CalculateFallbackTypeFlags_mystery env fuel currentType rng).map
      (fun r => (MON_TYPE_VAL_TO_FLAGS r.1, r.2))
  else
    let currentType :=
      if scratch.fallbackCount < 20 then
        CalculateFallbackTypeFlags_walk env scratch.trainerNum scratch.fallbackCount 0 currentType
      else env.TYPE_NONE
    if currentType = env.TYPE_NONE then
      some (MON_TYPE_VAL_TO_FLAGS env.NUMBER_OF_MON_TYPES - 1, rng)
    else some (MON_TYPE_VAL_TO_FLAGS currentType, rng)

def CanEntirelyAvoidWeakSpecies (env : Env) : Bool :=
  decide (env.RoguePokedex_GetCurrentDexLimit ≥ 380)

/-! ## The weight engine -/

/-- Modelled from the spec: the weight query (`rogue_query.c`, not part of this
file) assigns one weight to every candidate left in the species query.
`RogueWeightQuery_FillWeights` gives every candidate the same weight. -/
def RogueWeightQuery_FillWeights (query : List Nat) (weight : Nat) : List (Nat × Nat) :=
  query.map (fun s => (s, weight))

/-- Modelled from the spec: `RogueWeightQuery_CalculateWeights` asks the
callback for the 8-bit weight of every candidate. -/
def RogueWeightQuery_CalculateWeights (query : List Nat) (callback : Nat → Nat → Nat) :
    List (Nat × Nat) :=
  query.enum.map (fun e => (e.2, callback e.1 e.2 % 256))

def RogueWeightQuery_totalWeight (weights : List (Nat × Nat)) : Nat :=
  (weights.map Prod.snd).sum

/-- Modelled from the spec: `RogueWeightQuery_HasAnyWeights`, some candidate has
a weight above zero. -/
def RogueWeightQuery_HasAnyWeights (weights : List (Nat × Nat)) : Bool :=
  RogueWeightQuery_totalWeight weights != 0

/-- The candidate whose weight interval holds `target`. -/
def RogueWeightQuery_selectAt : List (Nat × Nat) → Nat → Nat
  | [], _ => SPECIES_NONE
  | (s, weight) :: rest, target =>
    if target < weight then s else RogueWeightQuery_selectAt rest (target - weight)

/-- Modelled from the spec: `RogueWeightQuery_SelectRandomFromWeights`, the
weighted random draw: the random value is reduced modulo the total weight and
the candidate whose interval holds it is returned. -/
def RogueWeightQuery_SelectRandomFromWeights (weights : List (Nat × Nat)) (rand : Nat) : Nat :=
  RogueWeightQuery_selectAt weights (rand % RogueWeightQuery_totalWeight weights)

/-! ## Species sampling -/

/-- The block `if(scratch->shouldRegenerateQuery) { ... }` of
`SampleNextSpeciesInternal`: the query is rebuilt from the trainer's current
subset or fallback type. -/
def SampleNextSpeciesInternal_regenerate (env : Env) (fuel : Nat)
    (scratch : TrainerPartyScratch) (w : World) : Option (TrainerPartyScratch × World) :=
  let trainer := env.gRogueTrainers scratch.trainerNum
  let scratch := { scratch with shouldRegenerateQuery := false }
  let currentSubset : Option RogueTeamGeneratorSubset :=
    if scratch.subsetIndex < trainer.teamGenerator.subsetCount then
      trainer.teamGenerator.subsets.get? scratch.subsetIndex
    else none
  let customScript : Bool := trainer.teamGenerator.queryScriptOverride.isSome
  let q := w.monQuery
  let q :=
    match trainer.teamGenerator.queryScriptOverride with
    | some script =>
      env.RogueQueryScript_Execute script (SetupQueryScriptVars env w scratch)
        (env.RogueMonQuery_Reset QUERY_FUNC_EXCLUDE q)
    | none => env.RogueMonQuery_IsSpeciesActive q
  let q :=
    if Rogue_IsRivalTrainer env scratch.trainerNum then
      w.gRogueRun.legendarySpecies.foldl
        (fun q s =>
          if s ≠ SPECIES_NONE then env.RogueMiscQuery_EditElement QUERY_FUNC_EXCLUDE s q else q)
        q
    else q
  let typed : Option (Nat × RngState × List Nat) :=
    match currentSubset with
    | some subset =>
      some (0, w.rng, env.RogueMonQuery_EvosContainType QUERY_FUNC_INCLUDE subset.includedTypeMask q)
    | none =>
      (CalculateFallbackTypeFlags env fuel scratch w.rng).map
        (fun r => (r.1, r.2, env.RogueMonQuery_EvosContainType QUERY_FUNC_INCLUDE r.1 q))
  typed.map fun t =>
    let fallbackTypeFlags := t.1
    let rng := t.2.1
    let q := t.2.2
    let q :=
      if !customScript then
        env.RogueMonQuery_TransformIntoEvos scratch.evoLevel scratch.allowItemEvos false
          (env.RogueMonQuery_TransformIntoEggSpecies q)
      else q
    let q :=
      if scratch.preferStrongSpecies && CanEntirelyAvoidWeakSpecies env then
        env.RogueMonQuery_ContainsPresetFlags QUERY_FUNC_INCLUDE env.MON_FLAG_SINGLES_STRONG q
      else q
    let q := if scratch.forceLegends then env.RogueMonQuery_IsLegendary QUERY_FUNC_INCLUDE q else q
    let q :=
      if !scratch.forceLegends && !scratch.allowWeakLegends && !scratch.allowStrongLegends then
        env.RogueMonQuery_IsLegendary QUERY_FUNC_EXCLUDE q
      else if !scratch.allowWeakLegends && scratch.allowStrongLegends then
        env.RogueMonQuery_IsLegendaryWithPresetFlags QUERY_FUNC_INCLUDE
          env.MON_FLAG_SINGLES_STRONG q
      else if scratch.allowWeakLegends && !scratch.allowStrongLegends then
        env.RogueMonQuery_IsLegendaryWithPresetFlags QUERY_FUNC_EXCLUDE
          env.MON_FLAG_SINGLES_STRONG q
      else q
    let q :=
      match currentSubset with
      | some subset =>
        env.RogueMonQuery_IsOfType QUERY_FUNC_EXCLUDE subset.excludedTypeMask
          (env.RogueMonQuery_IsOfType QUERY_FUNC_INCLUDE subset.includedTypeMask q)
      | none => env.RogueMonQuery_IsOfType QUERY_FUNC_INCLUDE fallbackTypeFlags q
    let q :=
      match trainer.teamGenerator.queryScriptPost with
      | some script =>
        env.RogueQueryScript_Execute script
          (SetupQueryScriptVars env { w with rng := rng } scratch) q
      | none => q
    (scratch, { w with rng := rng, monQuery := q })

/-- The part of `SampleNextSpeciesInternal` after the query is up to date: the
duplicate filter (`RogueMonQuery_CustomFilter` keeps the candidates for which
the callback returns true), the weights, and the draw. -/
def SampleNextSpeciesInternal_draw (env : Env) (scratch : TrainerPartyScratch) (w : World) :
    Nat × TrainerPartyScratch × World :=
  let trainer := env.gRogueTrainers scratch.trainerNum
  let q :=
    if scratch.fallbackCount < 10 then
      w.monQuery.filter (fun elem => FilterOutDuplicateMons env w scratch elem)
    else w.monQuery
  let w := { w with monQuery := q }
  let weights :=
    match trainer.teamGenerator.weightScript with
    | some script =>
      RogueWeightQuery_CalculateWeights q
        (env.RogueQueryScript_CalculateWeightsCallback script (SetupQueryScriptVars env w scratch))
    | none => RogueWeightQuery_FillWeights q 1
  if RogueWeightQuery_HasAnyWeights weights then
    let r := env.RogueRandom w.rng
    (RogueWeightQuery_SelectRandomFromWeights weights r.1, scratch, { w with rng := r.2 })
  else (SPECIES_NONE, scratch, w)

def SampleNextSpeciesInternal (env : Env) (fuel : Nat) (scratch : TrainerPartyScratch)
    (w : World) : Option (Nat × TrainerPartyScratch × World) :=
  if scratch.shouldRegenerateQuery then
    (SampleNextSpeciesInternal_regenerate env fuel scratch w).map
      (fun r => SampleNextSpeciesInternal_draw env r.1 r.2)
  else some (SampleNextSpeciesInternal_draw env scratch w)

/-- The head of the `do` body of `SampleNextSpecies`: the forced-legendary
override for the closing slots of a boss or rival. -/
def SampleNextSpecies_forceLegends (env : Env) (w : World) (scratch : TrainerPartyScratch) :
    TrainerPartyScratch :=
  let trainer := env.gRogueTrainers scratch.trainerNum
  if scratch.subsetIndex < trainer.teamGenerator.subsetCount
      ∧ (Rogue_IsBossTrainer env scratch.trainerNum ∨ Rogue_IsRivalTrainer env scratch.trainerNum)
  then
    if Rogue_GetCurrentDifficulty w = ROGUE_MAX_BOSS_COUNT - 1 ∧ scratch.partyCount = 4 then
      { scratch with forceLegends := true, shouldRegenerateQuery := true }
    else if Rogue_GetCurrentDifficulty w = ROGUE_MAX_BOSS_COUNT - 2 ∧ scratch.partyCount = 5 then
      { scratch with forceLegends := true, shouldRegenerateQuery := true }
    else scratch
  else { scratch with forceLegends := false }

/-- The subset branch after a draw: the sample counter is bumped and the cursor
moves on once the quota is reached. -/
def SampleNextSpecies_advanceSubset (env : Env) (scratch : TrainerPartyScratch) :
    TrainerPartyScratch :=
  let trainer := env.gRogueTrainers scratch.trainerNum
  let scratch := { scratch with subsetSampleCount := (scratch.subsetSampleCount + 1) % 256 }
  let maxSamples : Nat :=
    ((trainer.teamGenerator.subsets.get? scratch.subsetIndex).map (fun s => s.maxSamples)).getD 0
  if scratch.subsetSampleCount ≥ maxSamples then
    let scratch :=
      { scratch with
        subsetIndex := (scratch.subsetIndex + 1) % 256
        subsetSampleCount := 0
        shouldRegenerateQuery := true }
    if scratch.subsetIndex ≥ trainer.teamGenerator.subsetCount then
      { scratch with fallbackCount := (scratch.fallbackCount + 1) % 256 }
    else scratch
  else scratch

/-- The `do` body of `SampleNextSpecies` after the draw: the bookkeeping on the
subset cursor and the fallback counter. The first component of the result is
`some species` when the function returns `species` (through
`return SPECIES_MAGIKARP`, or because the drawn species ends the loop) and
`none` when the `while(species == SPECIES_NONE)` test sends control back to the
top of the body. -/
def SampleNextSpecies_afterDraw (env : Env) (species : Nat) (scratch : TrainerPartyScratch) :
    Option Nat × TrainerPartyScratch :=
  let trainer := env.gRogueTrainers scratch.trainerNum
  let scratch :=
    if species = SPECIES_NONE then { scratch with subsetSampleCount := 128 } else scratch
  if scratch.subsetIndex < trainer.teamGenerator.subsetCount then
    (if species = SPECIES_NONE then none else some species,
     SampleNextSpecies_advanceSubset env scratch)
  else if scratch.fallbackCount = 255 then
    (some SPECIES_MAGIKARP, scratch)
  else
    (if species = SPECIES_NONE then none else some species,
     if scratch.fallbackCount ≠ 0 then
        { scratch with
          fallbackCount := (scratch.fallbackCount + 1) % 256
          shouldRegenerateQuery := true }
      else scratch)

/-- One pass through the `do` body of `SampleNextSpecies`: the forced-legendary
override, the draw, and the bookkeeping after it. -/
def SampleNextSpecies_iter (env : Env) (fuel : Nat) (scratch : TrainerPartyScratch) (w : World) :
    Option (Option Nat × TrainerPartyScratch × World) :=
  match SampleNextSpeciesInternal env fuel (SampleNextSpecies_forceLegends env w scratch) w with
  | none => none
  | some (species, scratch, w) =>
    some ((SampleNextSpecies_afterDraw env species scratch).1,
          (SampleNextSpecies_afterDraw env species scratch).2, w)

/-- The `do { ... } while(species == SPECIES_NONE)` loop of `SampleNextSpecies`;
`loopFuel` bounds the number of passes through the body. -/
def SampleNextSpecies_loop (env : Env) (fuel : Nat) :
    Nat → TrainerPartyScratch → World → Option (Nat × TrainerPartyScratch × World)
  | 0, _, _ => none
  | loopFuel + 1, scratch, w =>
    match SampleNextSpecies_iter env fuel scratch w with
    | none => none
    | some (some species, scratch, w) => some (species, scratch, w)
    | some (none, scratch, w) => SampleNextSpecies_loop env fuel loopFuel scratch w

/-- The statement before the loop: a trainer without subsets starts in
fallback mode, `++scratch->fallbackCount` on the 8-bit counter. -/
def SampleNextSpecies_enter (env : Env) (scratch : TrainerPartyScratch) : TrainerPartyScratch :=
  let trainer := env.gRogueTrainers scratch.trainerNum
  if trainer.teamGenerator.subsetCount = 0 then
    { scratch with fallbackCount := (scratch.fallbackCount + 1) % 256 }
  else scratch

def SampleNextSpecies (env : Env) (fuel loopFuel : Nat) (scratch : TrainerPartyScratch)
    (w : World) : Option (Nat × TrainerPartyScratch × World) :=
  SampleNextSpecies_loop env fuel loopFuel (SampleNextSpecies_enter env scratch) w

/-! ## Preset selection -/

def IsChoiceItem (env : Env) (itemId : Nat) : Bool :=
  itemId == env.ITEM_CHOICE_BAND
    || (env.ROGUE_EXPANSION
        && (itemId == env.ITEM_CHOICE_SPECS || itemId == env.ITEM_CHOICE_SCARF))

def HasDamagingMove (env : Env) (preset : RoguePokemonCompetitiveSet) : Bool :=
  (preset.moves.take MAX_MON_MOVES).any (fun move => move != MOVE_NONE && env.movePower move != 0)

def isMegaStone (env : Env) (item : Nat) : Bool :=
  decide (item ≥ env.ITEM_VENUSAURITE ∧ item ≤ env.ITEM_DIANCITE)

def isZCrystal (env : Env) (item : Nat) : Bool :=
  decide (item ≥ env.ITEM_NORMALIUM_Z ∧ item ≤ env.ITEM_ULTRANECROZIUM_Z)

/-- The score of one candidate preset in the loop of `SelectNextPreset`, before
the random jitter is added. -/
def SelectNextPreset_score (env : Env) (heldItems : TrainerHeldItemScratch)
    (currPreset : RoguePokemonCompetitiveSet) : Nat :=
  let currentScore : Nat := 1024
  let currentScore := if !HasDamagingMove env currPreset then currentScore / 2 else currentScore
  let currentScore :=
    if env.gBattleTypeFlags &&& env.BATTLE_TYPE_DOUBLE ≠ 0 then
      (if currPreset.flags &&& env.MON_FLAG_DOUBLES_STRONG ≠ 0 then currentScore + 32
       else currentScore)
    else
      (if currPreset.flags &&& env.MON_FLAG_SINGLES_STRONG ≠ 0 then currentScore + 32
       else currentScore)
  let currentScore :=
    if currPreset.heldItem = env.ITEM_LEFTOVERS ∧ heldItems.hasLeftovers then currentScore / 2
    else currentScore
  let currentScore :=
    if currPreset.heldItem = env.ITEM_SHELL_BELL ∧ heldItems.hasShellbell then currentScore / 2
    else currentScore
  let currentScore :=
    if IsChoiceItem env currPreset.heldItem ∧ heldItems.hasChoiceItem then currentScore / 2
    else currentScore
  if env.ROGUE_EXPANSION then
    let currentScore :=
      if !env.IsMegaEvolutionEnabled
          ∧ (currPreset.heldItem = env.ITEM_RED_ORB ∨ currPreset.heldItem = env.ITEM_BLUE_ORB) then
        currentScore / 4
      else currentScore
    let currentScore :=
      if (heldItems.hasMegaStone ∨ !env.IsMegaEvolutionEnabled)
          ∧ isMegaStone env currPreset.heldItem then currentScore / 4
      else currentScore
    let currentScore :=
      if (heldItems.hasZCrystal ∨ !env.IsZMovesEnabled)
          ∧ isZCrystal env currPreset.heldItem then currentScore / 4
      else currentScore
    currentScore
  else currentScore

/-- The scoring loop `for(i = 0; i < presetCount; ++i)` of `SelectNextPreset`,
from index `i` for `n` more iterations; `best` is `(bestScore, bestPreset)`. -/
def SelectNextPreset_best (env : Env) (heldItems : TrainerHeldItemScratch)
    (sets : List RoguePokemonCompetitiveSet) (randOffset : Nat) :
    Nat → Nat → Nat × Option RoguePokemonCompetitiveSet → RngState →
      (Nat × Option RoguePokemonCompetitiveSet) × RngState
  | 0, _, best, rng => (best, rng)
  | n + 1, i, best, rng =>
    let currPreset := sets.getD ((randOffset + i) % sets.length) {}
    let r := env.RogueRandom rng
    let currentScore := (SelectNextPreset_score env heldItems currPreset + r.1 % 64) % 65536
    let best :=
      match best.2 with
      | none => (currentScore, some currPreset)
      | some _ => if currentScore > best.1 then (currentScore, some currPreset) else best
    SelectNextPreset_best env heldItems sets randOffset n (i + 1) best r.2

/-- The first three statements of the block "Swap out limited count items, if
they already exist" of `SelectNextPreset`, on the held item of the copied
preset: leftovers, shell bell, choice items. -/
def SelectNextPreset_swapLimited (env : Env) (heldItems : TrainerHeldItemScratch) (item : Nat) :
    Nat :=
  let item := if item = env.ITEM_LEFTOVERS ∧ heldItems.hasLeftovers then env.ITEM_SHELL_BELL else item
  let item := if item = env.ITEM_SHELL_BELL ∧ heldItems.hasShellbell then ITEM_NONE else item
  if IsChoiceItem env item ∧ heldItems.hasChoiceItem then
    if env.ROGUE_EXPANSION ∧ item = env.ITEM_CHOICE_BAND then env.ITEM_MUSCLE_BAND
    else if env.ROGUE_EXPANSION ∧ item = env.ITEM_CHOICE_SPECS then env.ITEM_WISE_GLASSES
    else if env.ROGUE_EXPANSION ∧ item = env.ITEM_CHOICE_SCARF then env.ITEM_QUICK_CLAW
    else ITEM_NONE
  else item

/-- The whole block "Swap out limited count items, if they already exist" of
`SelectNextPreset`: `SelectNextPreset_swapLimited`, then the statements under
`ROGUE_EXPANSION`. -/
def SelectNextPreset_swapItem (env : Env) (heldItems : TrainerHeldItemScratch) (item : Nat) :
    Nat :=
  let item := SelectNextPreset_swapLimited env heldItems item
  if env.ROGUE_EXPANSION then
    let item :=
      if !env.IsMegaEvolutionEnabled ∧ (item = env.ITEM_RED_ORB ∨ item = env.ITEM_BLUE_ORB) then
        ITEM_NONE
      else item
    let item :=
      if (heldItems.hasMegaStone ∨ !env.IsMegaEvolutionEnabled) ∧ isMegaStone env item then
        ITEM_NONE
      else item
    let item :=
      if (heldItems.hasZCrystal ∨ !env.IsZMovesEnabled) ∧ isZCrystal env item then ITEM_NONE
      else item
    item
  else item

/-- The block "Give an item if we're missing one" of `SelectNextPreset`: the
final held item, the updated category flags and the random state. -/
def SelectNextPreset_giveItem (env : Env) (heldItems : TrainerHeldItemScratch) (item : Nat)
    (rng : RngState) : Nat × TrainerHeldItemScratch × RngState :=
  if item = ITEM_NONE then
    let r := env.RogueRandomRange 2 env.FLAG_SET_SEED_TRAINERS rng
    (if r.1 = 0 then env.ITEM_LUM_BERRY else env.ITEM_SITRUS_BERRY, heldItems, r.2)
  else if item = env.ITEM_LEFTOVERS then (item, { heldItems with hasLeftovers := true }, rng)
  else if item = env.ITEM_SHELL_BELL then (item, { heldItems with hasShellbell := true }, rng)
  else if IsChoiceItem env item then (item, { heldItems with hasChoiceItem := true }, rng)
  else if env.ROGUE_EXPANSION ∧ isMegaStone env item then
    (item, { heldItems with hasMegaStone := true }, rng)
  else if env.ROGUE_EXPANSION ∧ isZCrystal env item then
    (item, { heldItems with hasZCrystal := true }, rng)
  else (item, heldItems, rng)

/-- The result is `none` when the call does not return: the loop counter `i` is
8 bits wide and never reaches a preset count above 255. Otherwise the first
component is the preset written to `outPreset` when the C function returns
`TRUE`, and `none` when it returns `FALSE` and leaves `outPreset` alone. -/
def SelectNextPreset (env : Env) (scratch : TrainerPartyScratch) (species _monIdx : Nat)
    (w : World) : Option (Option RoguePokemonCompetitiveSet × TrainerPartyScratch × World) :=
  let sets := env.competitiveSets species
  let presetCount := sets.length
  if presetCount ≠ 0 then
    if presetCount > 255 then none
    else
      let ro : Nat × RngState :=
        if presetCount = 1 then (0, w.rng)
        else env.RogueRandomRange presetCount env.FLAG_SET_SEED_TRAINERS w.rng
      let randOffset := toU8 ro.1
      let b := SelectNextPreset_best env scratch.heldItems sets randOffset presetCount 0 (0, none) ro.2
      match b.1.2 with
      | none => some (none, scratch, { w with rng := b.2 })
      | some bestPreset =>
        let item := SelectNextPreset_swapItem env scratch.heldItems bestPreset.heldItem
        let g := SelectNextPreset_giveItem env scratch.heldItems item b.2
        some (some { bestPreset with heldItem := g.1 },
              { scratch with heldItems := g.2.1 }, { w with rng := g.2.2 })
  else some (none, scratch, w)

def ShouldTrainerUseValidNatures (env : Env) (w : World) (trainerNum : Nat) : Bool :=
  if !Rogue_IsKeyTrainer env trainerNum then false
  else if env.configRangeTrainer = DIFFICULTY_LEVEL_EASY then false
  else if env.configRangeTrainer = DIFFICULTY_LEVEL_MEDIUM then
    decide (Rogue_GetCurrentDifficulty w ≥ ROGUE_FINAL_CHAMP_DIFFICULTY)
  else if env.configRangeTrainer = DIFFICULTY_LEVEL_HARD then
    decide (Rogue_GetCurrentDifficulty w ≥ ROGUE_ELITE_START_DIFFICULTY)
  else if env.configRangeTrainer = DIFFICULTY_LEVEL_BRUTAL then true
  else false

def MonPresetCountMoves (preset : RoguePokemonCompetitiveSet) : Nat :=
  ((preset.moves.take MAX_MON_MOVES).filter (fun move => move != MOVE_NONE)).length

/-- The loop body of `MonPresetReplaceMove` is the comparison
`preset->moves[i] == toMove`, an expression statement without effect, and the
function has no `return`: the preset is unchanged and the value the caller reads
is whatever the return register holds (`env.MonPresetReplaceMove_result`). -/
def MonPresetReplaceMove (env : Env) (preset : RoguePokemonCompetitiveSet)
    (fromMove toMove : Nat) : Bool × RoguePokemonCompetitiveSet :=
  (env.MonPresetReplaceMove_result preset fromMove toMove, preset)

def ModifyTrainerMonPreset (env : Env) (w : World) (trainerNum : Nat)
    (preset : RoguePokemonCompetitiveSet) (presetRules : RoguePokemonCompetitiveSetRules) :
    RoguePokemonCompetitiveSet × RoguePokemonCompetitiveSetRules :=
  let r :=
    if !env.ROGUE_EXPANSION then
      let m := MonPresetReplaceMove env preset env.MOVE_TRICK MOVE_NONE
      (m.2, if m.1 then { presetRules with allowMissingMoves := true } else presetRules)
    else (preset, presetRules)
  let preset := r.1
  let presetRules := r.2
  let r :=
    if IsChoiceItem env preset.heldItem ∧ MonPresetCountMoves preset > 2 then
      ({ preset with
          moves := preset.moves.map (fun move => if env.movePower move = 0 then MOVE_NONE else move) },
       { presetRules with allowMissingMoves := true })
    else (preset, presetRules)
  let preset := r.1
  let presetRules := r.2
  if !ShouldTrainerUseValidNatures env w trainerNum then
    (preset, { presetRules with skipNature := true })
  else (preset, presetRules)

/-! ## Filling a party -/

/-- The record `CreateMon` leaves in the slot: species, level and fixed IV as
given, no held item, not shiny. -/
def CreateMon (species level fixedIV : Nat) : Pokemon :=
  { species := species, level := level, fixedIV := fixedIV }

/-- Modelled from the spec: `Rogue_ApplyMonCompetitiveSet` (not part of this
file) copies the preset's held item and move-set onto the mon; the species is
left as it is. -/
def Rogue_ApplyMonCompetitiveSet (mon : Pokemon) (_level : Nat)
    (preset : RoguePokemonCompetitiveSet) (_presetRules : RoguePokemonCompetitiveSetRules) :
    Pokemon :=
  { mon with heldItem := preset.heldItem, moves := preset.moves }

/-- The shiny roll of the slot loop: a species the trainer may show as shiny is
made shiny with chance `TRAINER_SHINY_PERC`. -/
def CreateTrainerPartyInternal_shiny (env : Env) (trainerNum species i : Nat)
    (scratch : TrainerPartyScratch) (w : World) : TrainerPartyScratch × World :=
  if Rogue_IsValidTrainerShinySpecies env trainerNum species then
    let r := env.RogueRandomChance TRAINER_SHINY_PERC 0 w.rng
    (if r.1 then
        { scratch with
          party := scratch.party.set i { scratch.party.getD i {} with isShiny := true } }
      else scratch,
     { w with rng := r.2 })
  else (scratch, w)

/-- The competitive preset of the slot loop: when the slot uses one and
`SelectNextPreset` returns `TRUE`, the preset is adjusted and applied to the mon. -/
def CreateTrainerPartyInternal_preset (env : Env) (trainerNum level species monCount i : Nat)
    (scratch : TrainerPartyScratch) (w : World) : Option (TrainerPartyScratch × World) :=
  if UseCompetitiveMoveset env w scratch i monCount then
    match SelectNextPreset env scratch species i w with
    | none => none
    | some (none, scratch, w) => some (scratch, w)
    | some (some preset, scratch, w) =>
      let m := ModifyTrainerMonPreset env w trainerNum preset {}
      some ({ scratch with
              party :=
                scratch.party.set i
                  (Rogue_ApplyMonCompetitiveSet (scratch.party.getD i {}) level m.1 m.2) },
            w)
  else some (scratch, w)

/-- One iteration of the slot loop of `CreateTrainerPartyInternal`, for slot `i`. -/
def CreateTrainerPartyInternal_slot (env : Env) (fuel : Nat) (trainerNum level fixedIV : Nat)
    (monCount i : Nat) (scratch : TrainerPartyScratch) (w : World) :
    Option (TrainerPartyScratch × World) :=
  match SampleNextSpecies env fuel fuel scratch w with
  | none => none
  | some (species, scratch, w) =>
    let mon := CreateMon species (if env.DEBUG_TOGGLE_TRAINER_LVL_5 then 5 else level) fixedIV
    let w := { w with rng := env.CreateMon_rng w.rng }
    let scratch := { scratch with party := scratch.party.set i mon }
    let sh := CreateTrainerPartyInternal_shiny env trainerNum species i scratch w
    match CreateTrainerPartyInternal_preset env trainerNum level species monCount i sh.1 sh.2 with
    | none => none
    | some (scratch, w) =>
      some ({ scratch with partyCount := (scratch.partyCount + 1) % 256 }, w)

/-- The loop `for(i = startIndex; i < monCount; ++i)` of
`CreateTrainerPartyInternal`, from slot `i` for `n` more slots. -/
def CreateTrainerPartyInternal_fill (env : Env) (fuel : Nat) (trainerNum level fixedIV : Nat)
    (monCount : Nat) : Nat → Nat → TrainerPartyScratch → World →
      Option (TrainerPartyScratch × World)
  | 0, _, scratch, w => some (scratch, w)
  | n + 1, i, scratch, w =>
    match CreateTrainerPartyInternal_slot env fuel trainerNum level fixedIV monCount i scratch w with
    | none => none
    | some (scratch, w) =>
      CreateTrainerPartyInternal_fill env fuel trainerNum level fixedIV monCount n (i + 1) scratch w

/-- The scratch as `CreateTrainerPartyInternal` sets it up before the slot
loop. The C code assigns every field except `heldItems`, which keeps whatever
the stack held: that value is the argument `heldItems`. -/
def CreateTrainerPartyInternal_scratch (env : Env) (w : World) (heldItems : TrainerHeldItemScratch)
    (trainerNum : Nat) (party : List Pokemon) (monCapacity startIndex level : Nat) :
    TrainerPartyScratch :=
  ConfigurePartyScratchSettings env w
    { heldItems := heldItems
      party := party
      trainerNum := trainerNum
      partyCapacity := monCapacity
      partyCount := startIndex
      shouldRegenerateQuery := true
      subsetIndex := 0
      subsetSampleCount := 0
      fallbackCount := 0
      forceLegends := false
      evoLevel := level
      allowItemEvos := false
      allowStrongLegends := false
      allowWeakLegends := false
      preferStrongSpecies := false }

/-- The result is the returned `monCount`, the scratch as it stands when the
function returns (its `party` field is the filled buffer the caller keeps) and
the world. `heldItems` is the indeterminate initial value of the scratch's
item flags. -/
def CreateTrainerPartyInternal (env : Env) (fuel : Nat) (heldItems : TrainerHeldItemScratch)
    (trainerNum : Nat) (party : List Pokemon) (monCount monCapacity : Nat) (_firstTrainer : Bool)
    (startIndex : Nat) (w : World) : Option (Nat × TrainerPartyScratch × World) :=
  let level := GetTrainerLevel env w trainerNum
  match CalculateMonFixedIV env w trainerNum with
  | none => none
  | some fixedIV =>
    let mc : Option (Nat × World) :=
      if monCount = 0 then CalculatePartyMonCount env w trainerNum monCapacity level
      else some (monCount, w)
    match mc with
    | none => none
    | some (monCount, w) =>
      let scratch :=
        CreateTrainerPartyInternal_scratch env w heldItems trainerNum party monCapacity
          startIndex level
      let w := { w with monQuery := env.RogueMonQuery_Begin w.monQuery }
      match CreateTrainerPartyInternal_fill env fuel trainerNum level fixedIV monCount
          (monCount - startIndex) startIndex scratch w with
      | none => none
      | some (scratch, w) =>
        some (monCount, scratch, { w with monQuery := env.RogueMonQuery_End w.monQuery })

/-! ## The rival roster -/

/-- One compare-and-swap of `SortByBst`, at inner index `j` of outer pass `i`. -/
def SortByBst_step (env : Env) (i : Nat) (speciesBuffer : List Nat) (j : Nat) : List Nat :=
  if i = j then speciesBuffer
  else if env.RoguePokedex_GetSpeciesBST (speciesBuffer.getD j 0)
      < env.RoguePokedex_GetSpeciesBST (speciesBuffer.getD (j - 1) 0) then
    (speciesBuffer.set j (speciesBuffer.getD (j - 1) 0)).set (j - 1) (speciesBuffer.getD j 0)
  else speciesBuffer

def SortByBst (env : Env) (speciesBuffer : List Nat) (bufferSize : Nat) : List Nat :=
  (List.range bufferSize).foldl
    (fun buf i => (List.range' 1 (bufferSize - 1)).foldl (SortByBst_step env i) buf)
    speciesBuffer

/-- The C code assigns `lowestBstIdx = currBst` and then `lowestBstIdx = i`, and
compares `currBst` with `lowestBstIdx`; `lowestBst` is never used. -/
def SelectRivalWeakestMon (env : Env) (speciesBuffer : List Nat) (partySize : Nat) : Nat :=
  (List.range partySize).foldl
    (fun lowestBstIdx i =>
      if i = RIVAL_STARTER_INDEX then lowestBstIdx
      else
        let species := speciesBuffer.getD i 0
        if species ≠ SPECIES_NONE then
          let currBst := env.RoguePokedex_GetSpeciesBST species
          if lowestBstIdx = 255 ∨ currBst < lowestBstIdx then i else lowestBstIdx
        else lowestBstIdx)
    255

/-- The score of one roster entry in `SelectAndMoveStarterSpecies` (a `u16`). -/
def SelectAndMoveStarterSpecies_score (env : Env) (trainerNum : Nat) (preferManualChoice : Bool)
    (species : Nat) : Nat :=
  if preferManualChoice && Rogue_IsValidTrainerShinySpecies env trainerNum species then 30000
  else
    (env.RoguePokedex_GetSpeciesBST species
      + 1000 * env.Rogue_GetActiveEvolutionCount species) % 65536

/-- The scan of `SelectAndMoveStarterSpecies`: the pair
`(highestIndex, highestScore)` after the loop. -/
def SelectAndMoveStarterSpecies_scan (env : Env) (trainerNum : Nat) (preferManualChoice : Bool)
    (speciesBuffer : List Nat) (bufferSize : Nat) : Nat × Nat :=
  (List.range bufferSize).foldl
    (fun best i =>
      let score :=
        SelectAndMoveStarterSpecies_score env trainerNum preferManualChoice
          (speciesBuffer.getD i 0)
      if score > best.2 then (i, score) else best)
    (RIVAL_STARTER_INDEX, 0)

def SelectAndMoveStarterSpecies (env : Env) (trainerNum : Nat) (speciesBuffer : List Nat)
    (bufferSize : Nat) (rng : RngState) : List Nat × RngState :=
  let r := env.RogueRandom rng
  let preferManualChoice : Bool := r.1 % 5 == 0
  let highestIndex :=
    (SelectAndMoveStarterSpecies_scan env trainerNum preferManualChoice speciesBuffer bufferSize).1
  if highestIndex ≠ RIVAL_STARTER_INDEX then
    ((speciesBuffer.set RIVAL_STARTER_INDEX (speciesBuffer.getD highestIndex 0)).set highestIndex
        (speciesBuffer.getD RIVAL_STARTER_INDEX 0),
     r.2)
  else (speciesBuffer, r.2)

def ZeroEnemyPartyMons (w : World) : World :=
  { w with gEnemyParty := List.replicate PARTY_SIZE {} }

/-- The capture loop of the base pass: `rivalSpecies[i]` takes the species of
`gEnemyParty[i]` for the first `n` slots. -/
def captureSpecies (party : List Pokemon) (roster : List Nat) (offset : Nat) :
    List Nat → List Nat
  | [] => roster
  | i :: rest =>
    captureSpecies party (roster.set (offset + i) (party.getD i {}).species) offset rest

/-- The roster is regenerated only while its first slot is empty. `heldItems`
is the indeterminate initial value of the item flags of the generator's
scratch. -/
def Rogue_GenerateRivalBaseTeamIfNeeded (env : Env) (fuel : Nat)
    (heldItems : TrainerHeldItemScratch) (w : World) : Option World :=
  if w.gRogueRun.rivalSpecies.getD 0 0 = SPECIES_NONE then
    let savedRng := w.rng.gRngRogueValue
    let tempDifficulty := Rogue_GetCurrentDifficulty w
    let w := Rogue_SetCurrentDifficulty (ROGUE_ELITE_START_DIFFICULTY - 2) w
    let w := { w with rng := env.SeedRogueRng ((w.gRogueRun.baseSeed * 8071 + 6632) % 2 ^ 32) w.rng }
    match CreateTrainerPartyInternal env fuel heldItems w.gRogueRun.rivalTrainerNum w.gEnemyParty
        RIVAL_BASE_PARTY_SIZE RIVAL_BASE_PARTY_SIZE false 0 w with
    | none => none
    | some (_, scratch, w) =>
      let w := { w with gEnemyParty := scratch.party }
      let roster :=
        captureSpecies w.gEnemyParty w.gRogueRun.rivalSpecies 0 (List.range RIVAL_BASE_PARTY_SIZE)
      let w := Rogue_SetCurrentDifficulty tempDifficulty w
      let w := { w with rng := { w.rng with gRngRogueValue := savedRng } }
      let roster := SortByBst env roster RIVAL_BASE_PARTY_SIZE
      let st :=
        SelectAndMoveStarterSpecies env w.gRogueRun.rivalTrainerNum roster RIVAL_BASE_PARTY_SIZE
          w.rng
      let w := { w with gRogueRun := { w.gRogueRun with rivalSpecies := st.1 }, rng := st.2 }
      some (ZeroEnemyPartyMons w)
  else some w

/-- The loop `for(i = PARTY_SIZE; i < ROGUE_RIVAL_TOTAL_MON_COUNT; ++i)` of the
swap pass: `n` times the weakest entry is blanked. A returned index of 255 (no
entry found) is outside the six-entry buffer; the write is dropped here. -/
def removeWeakest (env : Env) : Nat → List Nat → List Nat
  | 0, speciesBuffer => speciesBuffer
  | n + 1, speciesBuffer =>
    removeWeakest env n
      (speciesBuffer.set (SelectRivalWeakestMon env speciesBuffer RIVAL_BASE_PARTY_SIZE)
        SPECIES_NONE)

/-- The placeholder party of the swap pass: one level `MAX_LEVEL` mon for every
entry left in the buffer, packed to the front of `gEnemyParty`. -/
def placeholderParty (env : Env) : List Nat → Nat → World → World
  | [], _, w => w
  | species :: rest, write, w =>
    if species ≠ SPECIES_NONE then
      placeholderParty env rest (write + 1)
        { w with
          gEnemyParty := w.gEnemyParty.set write (CreateMon species MAX_LEVEL 0)
          rng := env.CreateMon_rng w.rng }
    else placeholderParty env rest write w

/-- The first half of the swap pass, up to the generator calls: the difficulty
is pinned to the start of the elite tiers, the stream is re-seeded, the weakest
base species are removed from a copy of the roster and the rest becomes the
placeholder party in `gEnemyParty`. -/
def Rogue_GenerateRivalSwapTeamIfNeeded_prepare (env : Env) (w : World) : World :=
  let w := Rogue_SetCurrentDifficulty ROGUE_ELITE_START_DIFFICULTY w
  let w := { w with rng := env.SeedRogueRng ((w.gRogueRun.baseSeed * 6632 + 8073) % 2 ^ 32) w.rng }
  let speciesBuffer := w.gRogueRun.rivalSpecies.take PARTY_SIZE
  let speciesBuffer :=
    removeWeakest env (ROGUE_RIVAL_TOTAL_MON_COUNT - PARTY_SIZE) speciesBuffer
  let w := ZeroEnemyPartyMons w
  let w := placeholderParty env speciesBuffer 0 w
  Rogue_SetCurrentDifficulty ROGUE_ELITE_START_DIFFICULTY w

/-- The block "Add the new mons" of the swap pass: one slot is generated at the
first elite tier and captured, the remaining slots at the final tier, and each
new species goes to the roster slot `RIVAL_BASE_PARTY_SIZE + (i - replacingPartySize)`. -/
def Rogue_GenerateRivalSwapTeamIfNeeded_generate (env : Env) (fuel : Nat)
    (heldItems1 heldItems2 : TrainerHeldItemScratch) (w : World) : Option World :=
  let replacingPartySize := PARTY_SIZE - (ROGUE_RIVAL_TOTAL_MON_COUNT - RIVAL_BASE_PARTY_SIZE)
  match CreateTrainerPartyInternal env fuel heldItems1 w.gRogueRun.rivalTrainerNum w.gEnemyParty
      (replacingPartySize + 1) PARTY_SIZE false replacingPartySize w with
  | none => none
  | some (_, scratch, w) =>
    let w := { w with gEnemyParty := scratch.party }
    let roster :=
      captureSpecies w.gEnemyParty w.gRogueRun.rivalSpecies
        (RIVAL_BASE_PARTY_SIZE - replacingPartySize) [replacingPartySize]
    let w := { w with gRogueRun := { w.gRogueRun with rivalSpecies := roster } }
    let w := Rogue_SetCurrentDifficulty ROGUE_FINAL_CHAMP_DIFFICULTY w
    match CreateTrainerPartyInternal env fuel heldItems2 w.gRogueRun.rivalTrainerNum
        w.gEnemyParty PARTY_SIZE PARTY_SIZE false (replacingPartySize + 1) w with
    | none => none
    | some (_, scratch, w) =>
      let w := { w with gEnemyParty := scratch.party }
      let roster :=
        captureSpecies w.gEnemyParty w.gRogueRun.rivalSpecies
          (RIVAL_BASE_PARTY_SIZE - replacingPartySize)
          (List.range' (replacingPartySize + 1) (PARTY_SIZE - (replacingPartySize + 1)))
      some { w with gRogueRun := { w.gRogueRun with rivalSpecies := roster } }

/-- The swap segment is generated only while its first slot
(`rivalSpecies[RIVAL_BASE_PARTY_SIZE]`) is empty. `heldItems1` and `heldItems2`
are the indeterminate initial item flags of the two generator calls. -/
def Rogue_GenerateRivalSwapTeamIfNeeded (env : Env) (fuel : Nat)
    (heldItems1 heldItems2 : TrainerHeldItemScratch) (w : World) : Option World :=
  if w.gRogueRun.rivalSpecies.getD RIVAL_BASE_PARTY_SIZE 0 = SPECIES_NONE then
    let savedRng := w.rng.gRngRogueValue
    let tempDifficulty := Rogue_GetCurrentDifficulty w
    match Rogue_GenerateRivalSwapTeamIfNeeded_generate env fuel heldItems1 heldItems2
        (Rogue_GenerateRivalSwapTeamIfNeeded_prepare env w) with
    | none => none
    | some w =>
      let w := Rogue_SetCurrentDifficulty tempDifficulty w
      let w := { w with rng := { w.rng with gRngRogueValue := savedRng } }
      let roster :=
        w.gRogueRun.rivalSpecies.take RIVAL_BASE_PARTY_SIZE
          ++ SortByBst env (w.gRogueRun.rivalSpecies.drop RIVAL_BASE_PARTY_SIZE)
              (ROGUE_RIVAL_TOTAL_MON_COUNT - RIVAL_BASE_PARTY_SIZE)
      let w := { w with gRogueRun := { w.gRogueRun with rivalSpecies := roster } }
      some (ZeroEnemyPartyMons w)
  else some w

/-! ## The rival party -/

/-- The local `swapAmount` of `CreateRivalPartyInternal`: swaps begin only at
the full party size. -/
def CreateRivalPartyInternal_swapAmount (w : World) (monCount : Nat) : Nat :=
  if monCount = PARTY_SIZE then
    if Rogue_GetCurrentDifficulty w ≥ ROGUE_FINAL_CHAMP_DIFFICULTY then 3
    else if Rogue_GetCurrentDifficulty w ≥ ROGUE_ELITE_START_DIFFICULTY - 1 then 2
    else if Rogue_GetCurrentDifficulty w ≥ ROGUE_ELITE_START_DIFFICULTY - 2 then 1
    else 0
  else 0

/-- The loop "Now replace" of `CreateRivalPartyInternal`: every empty slot of
the buffer takes `rivalSpecies[PARTY_SIZE + j++]`. The result is the buffer and
the 8-bit counter `j`; a read past the roster gives 0 here. -/
def CreateRivalPartyInternal_replace (rivalSpecies speciesBuffer : List Nat) : List Nat × Nat :=
  (List.range PARTY_SIZE).foldl
    (fun st i =>
      if st.1.getD i 0 = SPECIES_NONE then
        (st.1.set i (rivalSpecies.getD (PARTY_SIZE + st.2) 0), (st.2 + 1) % 256)
      else st)
    (speciesBuffer, 0)

/-- The species buffer `CreateRivalPartyInternal` assembles before it creates
the mons: the first `PARTY_SIZE` roster entries, `swapAmount` times the weakest
entry blanked (the loop of `removeWeakest`), and the blanks refilled. -/
def CreateRivalPartyInternal_speciesBuffer (env : Env) (w : World) (monCount : Nat) : List Nat :=
  let speciesBuffer := w.gRogueRun.rivalSpecies.take PARTY_SIZE
  let swapAmount := CreateRivalPartyInternal_swapAmount w monCount
  let speciesBuffer := removeWeakest env swapAmount speciesBuffer
  (CreateRivalPartyInternal_replace w.gRogueRun.rivalSpecies speciesBuffer).1

/-! ## Party order -/

def SwapMons (aIdx bIdx : Nat) (party : List Pokemon) : List Pokemon :=
  if aIdx ≠ bIdx then
    let tempMon := party.getD aIdx {}
    (party.set aIdx (party.getD bIdx {})).set bIdx tempMon
  else party

/-- The sort score of a mon (an `s16`; the value stays between -50 and 17):
positive scores go to the front of the party, negative ones to the back. -/
def CalulcateMonSortScore (env : Env) (mon : Pokemon) : Int :=
  let score : Int := 0
  let species := mon.species
  let item := mon.heldItem
  let score :=
    if env.ROGUE_EXPANSION && (isMegaStone env item || isZCrystal env item) then score - 20
    else score
  let score := if env.RoguePokedex_IsSpeciesLegendary species then score - 20 else score
  let score := if env.RoguePokedex_GetSpeciesBST species ≥ 540 then score - 10 else score
  let score := if env.MonKnowsMove mon env.MOVE_FAKE_OUT then score + 1 else score
  let score := if env.MonKnowsMove mon env.MOVE_LIGHT_SCREEN then score + 1 else score
  let score := if env.MonKnowsMove mon env.MOVE_REFLECT then score + 1 else score
  let score := if env.MonKnowsMove mon env.MOVE_SPIKES then score + 1 else score
  let score := if env.MonKnowsMove mon env.MOVE_TAUNT then score + 1 else score
  let score := if env.MonKnowsMove mon env.MOVE_TRICK then score + 1 else score
  let score := if env.MonKnowsMove mon env.MOVE_TOXIC then score + 1 else score
  let score :=
    if env.MonKnowsMove mon env.MOVE_BATON_PASS then
      if env.MonKnowsMove mon env.MOVE_SUBSTITUTE then score + 1 + 1 else score + 1
    else score
  let score :=
    if env.ROGUE_EXPANSION && env.MonKnowsMove mon env.MOVE_U_TURN then score + 1 else score
  let score :=
    if env.ROGUE_EXPANSION && env.MonKnowsMove mon env.MOVE_FLIP_TURN then score + 1 else score
  let score :=
    if env.ROGUE_EXPANSION && env.MonKnowsMove mon env.MOVE_PARTING_SHOT then score + 1 else score
  let score :=
    if env.ROGUE_EXPANSION && env.MonKnowsMove mon env.MOVE_VOLT_SWITCH then score + 1 else score
  let score :=
    if env.ROGUE_EXPANSION && env.MonKnowsMove mon env.MOVE_TOXIC_SPIKES then score + 1 else score
  let score :=
    if env.ROGUE_EXPANSION && env.MonKnowsMove mon env.MOVE_STEALTH_ROCK then score + 1 else score
  let score :=
    if env.ROGUE_EXPANSION && env.MonKnowsMove mon env.MOVE_STICKY_WEB then score + 1 else score
  let score :=
    if env.ROGUE_EXPANSION && env.MonKnowsMove mon env.MOVE_TRICK_ROOM then score + 1 else score
  score

/-- The local `clampLeadScore` of `ReorderPartyMons`: set for a boss or rival
outside gauntlet mode, with the slider below hard, before tier 8. -/
def ReorderPartyMons_clampLeadScore (env : Env) (w : World) (trainerNum : Nat) : Bool :=
  if Rogue_IsAnyBossTrainer env trainerNum then
    !env.FLAG_ROGUE_GAUNTLET_MODE
      && decide (env.configRangeTrainer < DIFFICULTY_LEVEL_HARD)
      && decide (Rogue_GetCurrentDifficulty w < 8)
  else false

/-- The value `scoreA` or `scoreB` the sort compares: the score of the mon,
`min(score, 0)` when `clampLeadScore` is set. -/
def ReorderPartyMons_score (env : Env) (clampLeadScore : Bool) (mon : Pokemon) : Int :=
  let score := CalulcateMonSortScore env mon
  if clampLeadScore then min score 0 else score

/-- The body of the loop `for(i = startIndex; i < monCount - 1; ++i)` of
`ReorderPartyMons` on the pair of the party and the flag `anySwaps`: the mons
at `i` and `i + 1` are exchanged when the second has the higher score. -/
def ReorderPartyMons_compare (score : Pokemon → Int) (st : List Pokemon × Bool) (i : Nat) :
    List Pokemon × Bool :=
  let scoreA := score (st.1.getD i {})
  let scoreB := score (st.1.getD (i + 1) {})
  if scoreB > scoreA then (SwapMons i (i + 1) st.1, true) else st

/-- One run of the loop `for(i = startIndex; i < monCount - 1; ++i)` of
`ReorderPartyMons`, with `startIndex` 0 (`keepExistingLead` is the constant
`FALSE`): the party and the flag `anySwaps` after it. -/
def ReorderPartyMons_pass (score : Pokemon → Int) (monCount : Nat) (party : List Pokemon) :
    List Pokemon × Bool :=
  (List.range (monCount - 1)).foldl (ReorderPartyMons_compare score) (party, false)

/-- The loop `while(sortLength != 0)` of `ReorderPartyMons`: after a pass with a
swap `sortLength` goes down by one, after a pass without it is set to 0. -/
def ReorderPartyMons_loop (score : Pokemon → Int) (monCount : Nat) :
    Nat → List Pokemon → List Pokemon
  | 0, party => party
  | sortLength + 1, party =>
    if (ReorderPartyMons_pass score monCount party).2 then
      ReorderPartyMons_loop score monCount sortLength (ReorderPartyMons_pass score monCount party).1
    else (ReorderPartyMons_pass score monCount party).1

/-- The party after `ReorderPartyMons`. `sortLength` is the `u16` value of
`monCount - 1`, which is 65535 for an empty party. -/
def ReorderPartyMons (env : Env) (w : World) (trainerNum : Nat) (party : List Pokemon)
    (monCount : Nat) : List Pokemon :=
  let clampLeadScore := ReorderPartyMons_clampLeadScore env w trainerNum
  let reorganiseParty := Rogue_IsAnyBossTrainer env trainerNum
  if reorganiseParty then
    let sortLength := (((monCount : Int) - 1) % 65536).toNat
    ReorderPartyMons_loop (ReorderPartyMons_score env clampLeadScore) monCount sortLength party
  else party

/-! ## Predicates used in the statements -/

/-- The part of the globals a generation call only reads: the run data, the
difficulty tier and `gEnemyParty` are the same in `w'` as in `w`. -/
def World.frame (w w' : World) : Prop :=
  w'.gRogueRun = w.gRogueRun ∧ w'.currentDifficulty = w.currentDifficulty
    ∧ w'.gEnemyParty = w.gEnemyParty

/-- The scratch fields the sampling loop only reads are the same in `s'` as in `s`. -/
def TrainerPartyScratch.sameParty (s s' : TrainerPartyScratch) : Prop :=
  s'.party = s.party ∧ s'.partyCount = s.partyCount ∧ s'.trainerNum = s.trainerNum
    ∧ s'.heldItems = s.heldItems

/-- The cursor and the counter are consistent: the fallback counter fits 8 bits
and is still 0 while a subset is left. -/
def TrainerPartyScratch.cursorOk (env : Env) (s : TrainerPartyScratch) : Prop :=
  s.fallbackCount ≤ 255
    ∧ (s.subsetIndex < (env.gRogueTrainers s.trainerNum).teamGenerator.subsetCount →
        s.fallbackCount = 0)

/-- Between `s` and `s'` only slot `i` of the party buffer and the item flags
may differ, and slot `i` still holds the same species. -/
def TrainerPartyScratch.slotUpdate (i : Nat) (s s' : TrainerPartyScratch) : Prop :=
  s'.party.length = s.party.length
    ∧ (∀ k, k ≠ i → s'.party.getD k {} = s.party.getD k {})
    ∧ (s'.party.getD i {}).species = (s.party.getD i {}).species
    ∧ s'.partyCount = s.partyCount ∧ s'.trainerNum = s.trainerNum
    ∧ s'.subsetIndex = s.subsetIndex ∧ s'.fallbackCount = s.fallbackCount

/-- The first `n` entries of a species buffer are all set. -/
def filledTo (n : Nat) (buf : List Nat) : Prop :=
  n ≤ buf.length ∧ ∀ k, k < n → buf.getD k 0 ≠ SPECIES_NONE

/-- Every draw of `SampleNextSpeciesInternal` yields `SPECIES_NONE`. -/
def AlwaysFails (env : Env) (fuel : Nat) : Prop :=
  ∀ s w, ∃ s' w', SampleNextSpeciesInternal env fuel s w = some (SPECIES_NONE, s', w')

/-- The state of the cursor in which failing draws still make progress: the
cursor is within the subset list, the counter is 0 while a subset is left and
between 1 and 255 afterwards. -/
def TrainerPartyScratch.escalating (env : Env) (s : TrainerPartyScratch) : Prop :=
  s.subsetIndex ≤ (env.gRogueTrainers s.trainerNum).teamGenerator.subsetCount
    ∧ (s.subsetIndex < (env.gRogueTrainers s.trainerNum).teamGenerator.subsetCount →
        s.fallbackCount = 0)
    ∧ ((env.gRogueTrainers s.trainerNum).teamGenerator.subsetCount ≤ s.subsetIndex →
        1 ≤ s.fallbackCount ∧ s.fallbackCount ≤ 255)

/-- The number of loop passes left before `SPECIES_MAGIKARP` is returned when
every draw fails. -/
def TrainerPartyScratch.passesLeft (env : Env) (s : TrainerPartyScratch) : Nat :=
  if s.subsetIndex < (env.gRogueTrainers s.trainerNum).teamGenerator.subsetCount then
    (env.gRogueTrainers s.trainerNum).teamGenerator.subsetCount - s.subsetIndex + 255
  else 256 - s.fallbackCount

/-- The state of the cursor in which a failing draw changes nothing: the current
subset has a quota above 129, or the cursor is past the subsets with the
counter at 0. -/
def TrainerPartyScratch.stuck (env : Env) (s : TrainerPartyScratch) : Prop :=
  (s.subsetIndex < (env.gRogueTrainers s.trainerNum).teamGenerator.subsetCount
      ∧ 129 < (((env.gRogueTrainers s.trainerNum).teamGenerator.subsets.get? s.subsetIndex).map
                (fun sub => sub.maxSamples)).getD 0)
    ∨ ((env.gRogueTrainers s.trainerNum).teamGenerator.subsetCount ≤ s.subsetIndex
        ∧ s.fallbackCount = 0)

/-- The item ids named by `SelectNextPreset` are pairwise different constants. -/
def Env.itemsDistinct (env : Env) : Prop :=
  [ITEM_NONE, env.ITEM_LEFTOVERS, env.ITEM_SHELL_BELL, env.ITEM_CHOICE_BAND,
    env.ITEM_CHOICE_SPECS, env.ITEM_CHOICE_SCARF, env.ITEM_MUSCLE_BAND, env.ITEM_WISE_GLASSES,
    env.ITEM_QUICK_CLAW, env.ITEM_LUM_BERRY, env.ITEM_SITRUS_BERRY].Nodup

instance (env : Env) : Decidable env.itemsDistinct := by
  unfold Env.itemsDistinct; infer_instance

/-- An item passes the flags when it is not of a limited category that the flags
record as already handed out. -/
def TrainerHeldItemScratch.admits (env : Env) (h : TrainerHeldItemScratch) (item : Nat) : Prop :=
  (h.hasLeftovers = true → item ≠ env.ITEM_LEFTOVERS)
    ∧ (h.hasShellbell = true → item ≠ env.ITEM_SHELL_BELL)
    ∧ (h.hasChoiceItem = true → IsChoiceItem env item = false)

/-- A sequence of `SelectNextPreset` calls on one scratch. Each call brings its
own species, slot, globals and remaining scratch fields; only the `heldItems`
flags are carried from one call to the next, since no other function of the file
writes them. The result lists the presets written by the calls that returned
`TRUE`; a call that does not return ends the sequence. -/
def SelectNextPreset_calls (env : Env) :
    List (TrainerPartyScratch × Nat × Nat × World) → TrainerHeldItemScratch →
      List RoguePokemonCompetitiveSet
  | [], _ => []
  | (scratch, species, monIdx, w) :: rest, heldItems =>
    match SelectNextPreset env { scratch with heldItems := heldItems } species monIdx w with
    | none => []
    | some (none, scratch1, _) => SelectNextPreset_calls env rest scratch1.heldItems
    | some (some outPreset, scratch1, _) =>
      outPreset :: SelectNextPreset_calls env rest scratch1.heldItems

/-- The number of empty slots of a species buffer before slot `i`. -/
def emptyBefore (speciesBuffer : List Nat) (i : Nat) : Nat :=
  ((List.range i).filter (fun k => speciesBuffer.getD k 0 == SPECIES_NONE)).length

/-! ## Concrete instances

Small configurations on which the definitions above are evaluated. -/

/-- The linear congruential step of the engine's random source
(`ISO_RANDOMIZE1`): the stream advances and its upper 16 bits are the draw. -/
def lcgRogueRandom (rng : RngState) : Nat × RngState :=
  let next := (1103515245 * rng.gRngRogueValue + 24691) % 2 ^ 32
  (next / 65536, { rng with gRngRogueValue := next })

/-- A hard-slider configuration in which trainer 0 is a boss. -/
def envHardBoss : Env :=
  { configRangeTrainer := DIFFICULTY_LEVEL_HARD
    gRogueTrainers := fun _ => { trainerFlags := 1 } }

/-- A run whose rival is trainer 0: one subset with a quota of six, signature
species 20, nine active species, strength equal to the species number, the
engine's random source. -/
def envRival : Env :=
  { gRogueTrainers := fun n =>
      if n = 0 then
        { trainerFlags := 2, potentialShinySpecies := 20
          teamGenerator := { subsets := [{ maxSamples := 6 }] } }
      else {}
    RogueMonQuery_IsSpeciesActive := fun _ => [10, 20, 30, 40, 50, 60, 70, 80, 90]
    RoguePokedex_GetSpeciesBST := fun s => s
    RogueRandom := lcgRogueRandom
    SeedRogueRng := fun seed rng => { rng with gRngRogueValue := seed % 65536 } }

/-- A new adventure: empty roster, tier 0, the caller's stream at 1. -/
def worldNew : World := { rng := { gRngRogueValue := 1 } }

/-- The same adventure with the caller's stream at 3. -/
def worldNew3 : World := { rng := { gRngRogueValue := 3 } }

/-- The world `worldNew` after the base pass. -/
def worldBase : World :=
  { gRogueRun := { rivalSpecies := [20, 80, 50, 60, 40, 0, 0, 0, 0] }
    rng := { gRngRogueValue := 1103539936 }
    monQuery := [10, 30, 60, 70, 90] }

/-- The world `worldBase` after the swap pass. -/
def worldSwap : World :=
  { gRogueRun := { rivalSpecies := [20, 80, 50, 60, 40, 10, 30, 70, 90] }
    rng := { gRngRogueValue := 1103539936 }
    monQuery := [10] }

/-- The scratch after `CreateTrainerPartyInternal` has filled five slots for the
rival of `envRival` on `worldNew`. -/
def scratchRivalParty : TrainerPartyScratch :=
  { party := [{ species := 90, level := 10 }, { species := 20, level := 10 },
              { species := 10, level := 10 }, { species := 40, level := 10 },
              { species := 70, level := 10 }, {}]
    evoLevel := 10
    partyCapacity := 5
    partyCount := 5
    subsetSampleCount := 5 }

/-- The world after those five slots: 70 is still a candidate of the query. -/
def worldRivalParty : World :=
  { rng := { gRngRogueValue := 2044959428 }
    monQuery := [30, 50, 60, 70, 80] }

/-- The world after one more draw on `scratchRivalParty`. -/
def worldRivalDraw : World :=
  { rng := { gRngRogueValue := 3064528359 }
    monQuery := [30, 50, 60, 80] }

/-- A configuration in which every draw fails: every trainer has a weight
script and the script gives every candidate the weight 0. Trainer 0 has no
subsets, trainer 1 one subset with a quota of 200, trainer 2 two subsets with
quotas 3 and 129. -/
def envFail : Env :=
  { gRogueTrainers := fun n =>
      { teamGenerator :=
          { weightScript := some 0
            subsets :=
              if n = 1 then [{ maxSamples := 200 }]
              else if n = 2 then [{ maxSamples := 3 }, { maxSamples := 129 }]
              else [] } }
    RogueQueryScript_CalculateWeightsCallback := fun _ _ _ _ => 0 }

/-- The scratch `CreateTrainerPartyInternal` sets up for trainer `t` of
`envFail` with a six-slot party. -/
def scratchFail (t : Nat) : TrainerPartyScratch :=
  CreateTrainerPartyInternal_scratch envFail {} {} t (List.replicate 6 {}) 6 0 10

/-- An expansion build in which species 1 has one preset holding leftovers,
species 2 one holding a choice band and species 3 one holding choice specs. -/
def envPresets : Env :=
  { ROGUE_EXPANSION := true
    competitiveSets := fun species =>
      if species = 1 then [{ heldItem := 200, moves := [1, 0, 0, 0] }]
      else if species = 2 then [{ heldItem := 186, moves := [1, 0, 0, 0] }]
      else if species = 3 then [{ heldItem := 1001, moves := [1, 0, 0, 0] }]
      else []
    movePower := fun _ => 50 }

/-- Six calls on one scratch: leftovers three times, then choice band, choice
specs, and a species without presets. -/
def callsPresets : List (TrainerPartyScratch × Nat × Nat × World) :=
  [({}, 1, 0, {}), ({}, 1, 1, {}), ({}, 1, 2, {}), ({}, 2, 3, {}), ({}, 3, 4, {}), ({}, 4, 5, {})]

/-- The default configuration: easy slider, every trainer generic, a random
source that always answers 0. -/
def envEasy : Env := {}

/-- A brutal-slider configuration in which trainer 0 is a boss. -/
def envBrutalBoss : Env :=
  { configRangeTrainer := DIFFICULTY_LEVEL_BRUTAL
    gRogueTrainers := fun _ => { trainerFlags := 1 } }

/-- A run at the last difficulty tier. -/
def worldFinal : World := { currentDifficulty := ROGUE_FINAL_CHAMP_DIFFICULTY }

/-- A medium-slider configuration. -/
def envMedium : Env := { configRangeTrainer := DIFFICULTY_LEVEL_MEDIUM }

/-- A multiplayer session on the first column of the adventure map, in an
encounter of average toughness. -/
def envMultiplayer : Env :=
  { RogueMP_IsActive := true
    RogueAdv_GetTileNum := 0
    Rogue_GetEncounterDifficultyModifier := ADVPATH_SUBROOM_ROUTE_AVERAGE }

/-- A configuration in which the strength of a species is its number. -/
def envBstId : Env := { RoguePokedex_GetSpeciesBST := fun s => s }

/-- A vanilla build (`ROGUE_EXPANSION` undefined) in which the value the caller
reads back from `MonPresetReplaceMove` is `result`. -/
def envVanilla (result : Bool) : Env := { MonPresetReplaceMove_result := fun _ _ _ => result }

/-- A preset holding leftovers whose first move is `MOVE_TRICK` (271). -/
def presetTrick : RoguePokemonCompetitiveSet := { heldItem := 200, moves := [271, 33, 0, 0] }

/-- A random source that always returns the largest value below the bound. -/
def envTopRoll : Env := { RogueRandomRange := fun n _ r => (n - 1, r) }

/-- A boss with one subset of quota 6, a pool of four ordinary species and three
legendaries (144 to 146), and a legendary filter that keeps or drops the
species from 144 up. -/
def envFinalBoss : Env :=
  { gRogueTrainers := fun _ =>
      { trainerFlags := 1, teamGenerator := { subsets := [{ maxSamples := 6 }] } }
    RogueMonQuery_IsSpeciesActive := fun _ => [10, 20, 30, 40, 144, 145, 146]
    RogueMonQuery_IsLegendary := fun func q =>
      q.filter (fun s => if func = QUERY_FUNC_INCLUDE then decide (144 ≤ s) else decide (s < 144)) }

/-- In the run of `n` slots of the slot loop from slot `i`, the first draw of
every slot yields a species. -/
def CreateTrainerPartyInternal_firstDrawsSucceed (env : Env) (fuel : Nat)
    (trainerNum level fixedIV monCount : Nat) :
    Nat → Nat → TrainerPartyScratch → World → Bool
  | 0, _, _, _ => true
  | n + 1, i, scratch, w =>
    match SampleNextSpeciesInternal env fuel
        (SampleNextSpecies_forceLegends env w (SampleNextSpecies_enter env scratch)) w with
    | none => false
    | some (species, _, _) =>
      species != SPECIES_NONE &&
        match CreateTrainerPartyInternal_slot env fuel trainerNum level fixedIV monCount i
            scratch w with
        | none => true
        | some (scratch, w) =>
          CreateTrainerPartyInternal_firstDrawsSucceed env fuel trainerNum level fixedIV monCount
            n (i + 1) scratch w

/-- A generic trainer without subsets over a pool of five species. -/
def envNoSubsets : Env :=
  { RogueMonQuery_IsSpeciesActive := fun _ => [10, 20, 30, 40, 50] }

/-- The type ids `SelectFallbackTypeFor` names are types, that is below
`NUMBER_OF_MON_TYPES`; the number of types is at least 2 and fits the 32-bit
mask; `TYPE_NONE` is not a type. -/
def Env.typesValid (env : Env) : Prop :=
  2 ≤ env.NUMBER_OF_MON_TYPES ∧ env.NUMBER_OF_MON_TYPES < 32
    ∧ env.NUMBER_OF_MON_TYPES ≤ env.TYPE_NONE
    ∧ env.TYPE_NORMAL < env.NUMBER_OF_MON_TYPES ∧ env.TYPE_FIGHTING < env.NUMBER_OF_MON_TYPES
    ∧ env.TYPE_FLYING < env.NUMBER_OF_MON_TYPES ∧ env.TYPE_POISON < env.NUMBER_OF_MON_TYPES
    ∧ env.TYPE_GROUND < env.NUMBER_OF_MON_TYPES ∧ env.TYPE_ROCK < env.NUMBER_OF_MON_TYPES
    ∧ env.TYPE_BUG < env.NUMBER_OF_MON_TYPES ∧ env.TYPE_GHOST < env.NUMBER_OF_MON_TYPES
    ∧ env.TYPE_STEEL < env.NUMBER_OF_MON_TYPES ∧ env.TYPE_FIRE < env.NUMBER_OF_MON_TYPES
    ∧ env.TYPE_WATER < env.NUMBER_OF_MON_TYPES ∧ env.TYPE_ELECTRIC < env.NUMBER_OF_MON_TYPES
    ∧ env.TYPE_PSYCHIC < env.NUMBER_OF_MON_TYPES ∧ env.TYPE_ICE < env.NUMBER_OF_MON_TYPES
    ∧ env.TYPE_DRAGON < env.NUMBER_OF_MON_TYPES ∧ env.TYPE_DARK < env.NUMBER_OF_MON_TYPES

instance (env : Env) : Decidable env.typesValid := by
  unfold Env.typesValid; infer_instance

/-- The chain of fallback types: `depth` applications of `SelectFallbackTypeFor`
from `type`, step `i` with the counter `trainerNum + i`. -/
def fallbackChain (env : Env) (trainerNum type depth : Nat) : Nat :=
  (List.range depth).foldl (fun ty i => SelectFallbackTypeFor env ty (trainerNum + i)) type

/-- A trainer of type dark. -/
def envDark : Env := { gRogueTrainers := fun _ => { typeAssignment := 17 } }

/-- A full rival roster at the final tier. -/
def worldRivalFull : World :=
  { gRogueRun := { rivalSpecies := [11, 12, 13, 14, 15, 16, 17, 18, 19] }
    currentDifficulty := ROGUE_FINAL_CHAMP_DIFFICULTY }

/-- A mon that knows Fake Out (score 1 on the default tables). -/
def monFakeOut : Pokemon := { species := 2, moves := [252, 0, 0, 0] }

/-- A mon without any scored property (score 0 on the default tables). -/
def monPlain : Pokemon := { species := 1 }

/-- The score that reads the species number: the score function of the
zero-one check of the sort. -/
def scoreBySpecies (mon : Pokemon) : Int := mon.species

/-- The threshold pattern of a mon: species 1 when its score reaches `t`,
species 0 below. -/
def thresholdMon (score : Pokemon → Int) (t : Int) (mon : Pokemon) : Pokemon :=
  { species := if t ≤ score mon then 1 else 0 }

theorem Rogue_IsKeyTrainer_slider (env : Env) (t s : Nat) :
    Rogue_IsKeyTrainer { env with configRangeTrainer := s } t = Rogue_IsKeyTrainer env t := rfl

theorem ite_ge_monotone (a x : Nat) (f : Nat → Nat) (hf : Monotone f) (hx : ∀ d, f d ≤ x) :
    Monotone (fun d => if d ≥ a then x else f d) := by
  intro d d' h
  dsimp only
  split_ifs with h1 h2 h2
  · exact le_rfl
  · omega
  · exact hx d
  · exact hf h

theorem ite_ge_monotone_const (a x c : Nat) (hx : c ≤ x) :
    Monotone (fun d => if d ≥ a then x else c) :=
  ite_ge_monotone a x (fun _ => c) monotone_const (fun _ => hx)

theorem ite_gt_monotone_const (a x c : Nat) (hx : c ≤ x) :
    Monotone (fun d => if d > a then x else c) := by
  intro d d' h
  dsimp only
  split_ifs <;> omega

/-- C9. For every trainer (boss, rival or generic) and every difficulty tier,
with everything but the trainer slider fixed, raising the slider through
easy, medium, hard, brutal never lowers the level returned by `GetTrainerLevel`
(it does not read the slider) nor the fixed IV returned by
`CalculateMonFixedIV`, which is defined at both slider levels. -/
theorem level_and_fixedIV_monotone_in_slider (env : Env) (w : World) (trainerNum s s' : Nat)
    (hs : s ≤ s') (hs' : s' ≤ DIFFICULTY_LEVEL_BRUTAL) :
    GetTrainerLevel { env with configRangeTrainer := s } w trainerNum
        ≤ GetTrainerLevel { env with configRangeTrainer := s' } w trainerNum
      ∧ ∃ iv iv',
          CalculateMonFixedIV { env with configRangeTrainer := s } w trainerNum = some iv
            ∧ CalculateMonFixedIV { env with configRangeTrainer := s' } w trainerNum = some iv'
            ∧ iv ≤ iv' := by
  refine ⟨le_of_eq rfl, ?_⟩
  unfold CalculateMonFixedIV
  simp only [Rogue_IsKeyTrainer_slider, Rogue_GetCurrentDifficulty, DIFFICULTY_LEVEL_BRUTAL,
    DIFFICULTY_LEVEL_EASY, DIFFICULTY_LEVEL_MEDIUM, DIFFICULTY_LEVEL_HARD,
    ROGUE_CHAMP_START_DIFFICULTY, ROGUE_ELITE_START_DIFFICULTY, ROGUE_GYM_MID_DIFFICULTY] at hs' ⊢
  generalize Rogue_IsKeyTrainer env trainerNum = k
  have h1 : s = 0 ∨ s = 1 ∨ s = 2 ∨ s = 3 := by omega
  have h2 : s' = 0 ∨ s' = 1 ∨ s' = 2 ∨ s' = 3 := by omega
  rcases h1 with h | h | h | h <;> subst h <;> rcases h2 with h | h | h | h <;> subst h <;>
    first
    | (exfalso; omega)
    | (cases k <;>
        simp only [if_true, if_false, Nat.succ_ne_zero, Nat.reduceEqDiff, OfNat.ofNat_ne_zero,
          OfNat.ofNat_ne_one, one_ne_zero, Bool.false_eq_true, ← apply_ite some] <;>
        refine ⟨_, _, rfl, rfl, ?_⟩ <;>
        first
        | exact le_rfl
        | exact Nat.zero_le _
        | (split_ifs <;> omega))

/-- C9, evaluated: a boss at tier 5, slider raised from medium to brutal. -/
theorem level_and_fixedIV_monotone_in_slider_witness :
    DIFFICULTY_LEVEL_MEDIUM ≤ DIFFICULTY_LEVEL_BRUTAL
      ∧ GetTrainerLevel { envHardBoss with configRangeTrainer := DIFFICULTY_LEVEL_MEDIUM }
            { currentDifficulty := 5 } 0
          ≤ GetTrainerLevel { envHardBoss with configRangeTrainer := DIFFICULTY_LEVEL_BRUTAL }
              { currentDifficulty := 5 } 0
      ∧ ∃ iv iv',
          CalculateMonFixedIV { envHardBoss with configRangeTrainer := DIFFICULTY_LEVEL_MEDIUM }
              { currentDifficulty := 5 } 0 = some iv
            ∧ CalculateMonFixedIV { envHardBoss with configRangeTrainer := DIFFICULTY_LEVEL_BRUTAL }
                { currentDifficulty := 5 } 0 = some iv'
            ∧ iv ≤ iv' :=
  ⟨by decide,
    level_and_fixedIV_monotone_in_slider envHardBoss { currentDifficulty := 5 } 0
      DIFFICULTY_LEVEL_MEDIUM DIFFICULTY_LEVEL_BRUTAL (by decide) (by decide)⟩

/-- C10. For each of the four slider levels and every trainer, the fixed IV
returned by `CalculateMonFixedIV` is defined, does not decrease when the
difficulty tier grows, and is at most 31 (so it lies in 0..31). -/
theorem CalculateMonFixedIV_monotone_in_tier (env : Env) (w : World) (trainerNum d d' : Nat)
    (hs : env.configRangeTrainer ≤ DIFFICULTY_LEVEL_BRUTAL) (hd : d ≤ d') :
    ∃ iv iv',
      CalculateMonFixedIV env { w with currentDifficulty := d } trainerNum = some iv
        ∧ CalculateMonFixedIV env { w with currentDifficulty := d' } trainerNum = some iv'
        ∧ iv ≤ iv' ∧ iv' ≤ 31 := by
  unfold CalculateMonFixedIV
  simp only [Rogue_GetCurrentDifficulty, DIFFICULTY_LEVEL_BRUTAL, DIFFICULTY_LEVEL_EASY,
    DIFFICULTY_LEVEL_MEDIUM, DIFFICULTY_LEVEL_HARD, ROGUE_CHAMP_START_DIFFICULTY,
    ROGUE_ELITE_START_DIFFICULTY, ROGUE_GYM_MID_DIFFICULTY] at hs ⊢
  generalize Rogue_IsKeyTrainer env trainerNum = k
  generalize env.configRangeTrainer = s at hs ⊢
  have : s = 0 ∨ s = 1 ∨ s = 2 ∨ s = 3 := by omega
  clear hs
  rcases this with h | h | h | h <;> subst h <;> cases k <;>
    simp only [if_true, if_false, Nat.succ_ne_zero, Nat.reduceEqDiff, OfNat.ofNat_ne_zero,
      OfNat.ofNat_ne_one, one_ne_zero, Bool.false_eq_true, ← apply_ite some]
  all_goals refine ⟨_, _, rfl, rfl, ?_, ?_⟩
  all_goals first
    | omega
    | (revert d d'
       show Monotone (fun d => _)
       repeat first
         | exact ite_ge_monotone_const _ _ _ (by omega)
         | exact ite_gt_monotone_const _ _ _ (by omega)
         | refine ite_ge_monotone _ _ _ ?_ (fun d => by split_ifs <;> omega))
    | (split_ifs <;> omega)

/-- C10, evaluated: a boss on the hard slider, tiers 3 and 9. -/
theorem CalculateMonFixedIV_monotone_in_tier_witness :
    envHardBoss.configRangeTrainer ≤ DIFFICULTY_LEVEL_BRUTAL ∧ 3 ≤ 9
      ∧ ∃ iv iv',
          CalculateMonFixedIV envHardBoss { currentDifficulty := 3 } 0 = some iv
            ∧ CalculateMonFixedIV envHardBoss { currentDifficulty := 9 } 0 = some iv'
            ∧ iv ≤ iv' ∧ iv' ≤ 31 :=
  ⟨by decide, by decide,
    CalculateMonFixedIV_monotone_in_tier envHardBoss {} 0 3 9 (by decide) (by decide)⟩

/-! ## Species sampling: what one draw and one loop pass preserve -/

theorem regenerate_spec (env : Env) (fuel : Nat) (s s' : TrainerPartyScratch) (w w' : World)
    (h : SampleNextSpeciesInternal_regenerate env fuel s w = some (s', w')) :
    s' = { s with shouldRegenerateQuery := false }
      ∧ ∃ rng q, w' = { w with rng := rng, monQuery := q } := by
  unfold SampleNextSpeciesInternal_regenerate at h
  simp only [Option.map_eq_some'] at h
  obtain ⟨t, -, ht⟩ := h
  simp only [Prod.mk.injEq] at ht
  exact ⟨ht.1.symm, _, _, ht.2.symm⟩

theorem selectAt_mem (ws : List (Nat × Nat)) (target : Nat)
    (h : target < RogueWeightQuery_totalWeight ws) :
    RogueWeightQuery_selectAt ws target ∈ ws.map Prod.fst := by
  induction ws generalizing target with
  | nil => simp [RogueWeightQuery_totalWeight] at h
  | cons p rest ih =>
    obtain ⟨sp, wt⟩ := p
    simp only [RogueWeightQuery_totalWeight, List.map_cons, List.sum_cons] at h
    simp only [RogueWeightQuery_selectAt, List.map_cons, List.mem_cons]
    split_ifs with hlt
    · exact Or.inl rfl
    · right
      apply ih
      simp only [RogueWeightQuery_totalWeight]
      omega

theorem SelectRandomFromWeights_mem (ws : List (Nat × Nat)) (rand : Nat)
    (h : RogueWeightQuery_HasAnyWeights ws = true) :
    RogueWeightQuery_SelectRandomFromWeights ws rand ∈ ws.map Prod.fst := by
  apply selectAt_mem
  apply Nat.mod_lt
  simp only [RogueWeightQuery_HasAnyWeights, bne_iff_ne, ne_eq] at h
  omega

theorem FillWeights_fst (q : List Nat) (weight : Nat) :
    (RogueWeightQuery_FillWeights q weight).map Prod.fst = q := by
  simp [RogueWeightQuery_FillWeights, Function.comp_def]

theorem CalculateWeights_fst (q : List Nat) (f : Nat → Nat → Nat) :
    (RogueWeightQuery_CalculateWeights q f).map Prod.fst = q := by
  simp [RogueWeightQuery_CalculateWeights, Function.comp_def, List.enum_map_snd]

theorem draw_spec (env : Env) (s s' : TrainerPartyScratch) (w w' : World) (sp : Nat)
    (h : SampleNextSpeciesInternal_draw env s w = (sp, s', w')) :
    s' = s ∧ (∃ rng q, w' = { w with rng := rng, monQuery := q })
      ∧ (sp ≠ SPECIES_NONE → s.fallbackCount < 10 →
          PartyContainsSimilarSpecies env w s sp = false) := by
  unfold SampleNextSpeciesInternal_draw at h
  simp only at h
  split at h <;> rename_i hfc <;> split at h <;> rename_i hany <;>
    simp only [Prod.mk.injEq] at h <;> obtain ⟨hsp, hs, hw⟩ := h <;>
    refine ⟨hs.symm, ⟨_, _, hw.symm⟩, ?_⟩
  · intro _ _
    have hmem := SelectRandomFromWeights_mem _ (env.RogueRandom w.rng).1 hany
    rw [hsp] at hmem
    have hq : sp ∈ w.monQuery.filter (fun elem => FilterOutDuplicateMons env w s elem) := by
      cases hws : (env.gRogueTrainers s.trainerNum).teamGenerator.weightScript with
      | none =>
        simp only [hws, FillWeights_fst] at hmem
        exact hmem
      | some script =>
        simp only [hws, CalculateWeights_fst] at hmem
        exact hmem
    have := (List.mem_filter.mp hq).2
    simpa [FilterOutDuplicateMons] using this
  · intro hne
    exact absurd hsp.symm hne
  · intro _ h10
    exact absurd h10 hfc
  · intro hne
    exact absurd hsp.symm hne

theorem SampleNextSpeciesInternal_spec (env : Env) (fuel : Nat) (s s' : TrainerPartyScratch)
    (w w' : World) (sp : Nat)
    (h : SampleNextSpeciesInternal env fuel s w = some (sp, s', w')) :
    s' = { s with shouldRegenerateQuery := false }
      ∧ (∃ rng q, w' = { w with rng := rng, monQuery := q })
      ∧ (sp ≠ SPECIES_NONE → s.fallbackCount < 10 →
          PartyContainsSimilarSpecies env w s sp = false) := by
  unfold SampleNextSpeciesInternal at h
  split at h
  · rename_i hregen
    simp only [Option.map_eq_some'] at h
    obtain ⟨⟨s1, w1⟩, hr, hd⟩ := h
    obtain ⟨hs1, rng1, q1, hw1⟩ := regenerate_spec env fuel s s1 w w1 hr
    obtain ⟨hs', ⟨rng2, q2, hw'⟩, hsim⟩ := draw_spec env s1 s' w1 w' sp hd
    subst hs1 hw1
    refine ⟨hs', ⟨rng2, q2, hw'⟩, ?_⟩
    intro hne hfc
    exact hsim hne hfc
  · rename_i hregen
    simp only [Option.some.injEq] at h
    obtain ⟨hs', hw', hsim⟩ := draw_spec env s s' w w' sp h
    refine ⟨?_, hw', hsim⟩
    rw [hs']
    cases s
    simp only [Bool.not_eq_true] at hregen
    simp only [hregen]


theorem forceLegends_fields (env : Env) (w : World) (s : TrainerPartyScratch) :
    (SampleNextSpecies_forceLegends env w s).party = s.party
      ∧ (SampleNextSpecies_forceLegends env w s).partyCount = s.partyCount
      ∧ (SampleNextSpecies_forceLegends env w s).trainerNum = s.trainerNum
      ∧ (SampleNextSpecies_forceLegends env w s).heldItems = s.heldItems
      ∧ (SampleNextSpecies_forceLegends env w s).subsetIndex = s.subsetIndex
      ∧ (SampleNextSpecies_forceLegends env w s).subsetSampleCount = s.subsetSampleCount
      ∧ (SampleNextSpecies_forceLegends env w s).fallbackCount = s.fallbackCount := by
  unfold SampleNextSpecies_forceLegends
  simp only
  split_ifs <;> simp

theorem advanceSubset_fields (env : Env) (s : TrainerPartyScratch) :
    (SampleNextSpecies_advanceSubset env s).party = s.party
      ∧ (SampleNextSpecies_advanceSubset env s).partyCount = s.partyCount
      ∧ (SampleNextSpecies_advanceSubset env s).trainerNum = s.trainerNum
      ∧ (SampleNextSpecies_advanceSubset env s).heldItems = s.heldItems := by
  unfold SampleNextSpecies_advanceSubset
  simp only
  split_ifs <;> simp

theorem afterDraw_sameParty (env : Env) (sp : Nat) (s : TrainerPartyScratch) :
    s.sameParty (SampleNextSpecies_afterDraw env sp s).2 := by
  unfold SampleNextSpecies_afterDraw TrainerPartyScratch.sameParty
  simp only
  split_ifs <;> simp [advanceSubset_fields]

theorem afterDraw_result (env : Env) (sp x : Nat) (s : TrainerPartyScratch)
    (h : (SampleNextSpecies_afterDraw env sp s).1 = some x) :
    x ≠ SPECIES_NONE
      ∧ (x = sp ∨ (x = SPECIES_MAGIKARP ∧ s.fallbackCount = 255
            ∧ (SampleNextSpecies_afterDraw env sp s).2.fallbackCount = 255)) := by
  unfold SampleNextSpecies_afterDraw at h ⊢
  simp only at h ⊢
  split_ifs at h ⊢ <;> simp_all [SPECIES_NONE, SPECIES_MAGIKARP] <;> omega


theorem afterDraw_cursorOk (env : Env) (sp : Nat) (s : TrainerPartyScratch)
    (h : s.cursorOk env) :
    (SampleNextSpecies_afterDraw env sp s).2.cursorOk env
      ∧ s.fallbackCount ≤ (SampleNextSpecies_afterDraw env sp s).2.fallbackCount := by
  obtain ⟨h255, h0⟩ := h
  unfold SampleNextSpecies_afterDraw SampleNextSpecies_advanceSubset TrainerPartyScratch.cursorOk
  simp only
  split_ifs <;> simp_all <;> omega

theorem afterDraw_drawn_low (env : Env) (sp x : Nat) (s : TrainerPartyScratch)
    (h : s.cursorOk env) (hx : (SampleNextSpecies_afterDraw env sp s).1 = some x)
    (hlow : (SampleNextSpecies_afterDraw env sp s).2.fallbackCount < 10) :
    x = sp ∧ s.fallbackCount < 10 := by
  have hm := (afterDraw_cursorOk env sp s h).2
  refine ⟨?_, by omega⟩
  rcases (afterDraw_result env sp x s hx).2 with h1 | ⟨_, _, h3⟩
  · exact h1
  · omega


theorem World.frame_refl (w : World) : w.frame w := ⟨rfl, rfl, rfl⟩

theorem World.frame_trans {w w1 w2 : World} (h1 : w.frame w1) (h2 : w1.frame w2) :
    w.frame w2 :=
  ⟨h2.1.trans h1.1, h2.2.1.trans h1.2.1, h2.2.2.trans h1.2.2⟩

theorem TrainerPartyScratch.sameParty_refl (s : TrainerPartyScratch) : s.sameParty s :=
  ⟨rfl, rfl, rfl, rfl⟩

theorem TrainerPartyScratch.sameParty_trans {s s1 s2 : TrainerPartyScratch}
    (h1 : s.sameParty s1) (h2 : s1.sameParty s2) : s.sameParty s2 :=
  ⟨h2.1.trans h1.1, h2.2.1.trans h1.2.1, h2.2.2.1.trans h1.2.2.1, h2.2.2.2.trans h1.2.2.2⟩

theorem PartyContainsSimilarSpecies_congr (env : Env) (w w' : World)
    (s s' : TrainerPartyScratch) (sp : Nat) (hw : w'.gRogueRun = w.gRogueRun)
    (hs : s.sameParty s') :
    PartyContainsSimilarSpecies env w' s' sp = PartyContainsSimilarSpecies env w s sp := by
  obtain ⟨h1, h2, h3, -⟩ := hs
  unfold PartyContainsSimilarSpecies
  simp only [hw, h1, h2, h3]

theorem iter_facts (env : Env) (fuel : Nat) (s s' : TrainerPartyScratch) (w w' : World)
    (r : Option Nat) (h : SampleNextSpecies_iter env fuel s w = some (r, s', w')) :
    s.sameParty s' ∧ w.frame w' ∧ (∀ x, r = some x → x ≠ SPECIES_NONE)
      ∧ (s.cursorOk env → s'.cursorOk env ∧ s.fallbackCount ≤ s'.fallbackCount
          ∧ ∀ x, r = some x → s'.fallbackCount < 10 →
              PartyContainsSimilarSpecies env w s x = false) := by
  unfold SampleNextSpecies_iter at h
  split at h
  · exact absurd h (by simp)
  · rename_i sp s1 w1 hint
    simp only [Option.some.injEq, Prod.mk.injEq] at h
    obtain ⟨hr, hs', hw'⟩ := h
    subst hw'
    obtain ⟨hs1, ⟨rng, q, hw1⟩, hsim⟩ := SampleNextSpeciesInternal_spec env fuel _ _ _ _ _ hint
    obtain ⟨f1, f2, f3, f4, f5, f6, f7⟩ := forceLegends_fields env w s
    have hsame1 : s.sameParty s1 := by
      rw [hs1]
      exact ⟨f1, f2, f3, f4⟩
    have hsame : s.sameParty s' := by
      rw [← hs']
      exact TrainerPartyScratch.sameParty_trans hsame1 (afterDraw_sameParty env sp s1)
    have hframe : w.frame w1 := by
      rw [hw1]
      exact ⟨rfl, rfl, rfl⟩
    refine ⟨hsame, hframe, ?_, ?_⟩
    · intro x hx
      rw [← hr] at hx
      exact (afterDraw_result env sp x s1 hx).1
    · intro hc
      have hc1 : s1.cursorOk env := by
        rw [hs1]
        unfold TrainerPartyScratch.cursorOk at hc ⊢
        simp only [f3, f5, f7]
        exact hc
      have hfc1 : s1.fallbackCount = s.fallbackCount := by rw [hs1]; exact f7
      obtain ⟨hc', hmono⟩ := afterDraw_cursorOk env sp s1 hc1
      rw [hs'] at hc' hmono
      refine ⟨hc', by omega, ?_⟩
      intro x hx hlow
      rw [← hr] at hx
      rw [← hs'] at hlow
      obtain ⟨hxsp, hlow1⟩ := afterDraw_drawn_low env sp x s1 hc1 hx hlow
      have hne := (afterDraw_result env sp x s1 hx).1
      subst hxsp
      have := hsim hne (by rw [f7]; omega)
      rw [← this]
      exact (PartyContainsSimilarSpecies_congr env w w s _ x rfl ⟨f1, f2, f3, f4⟩).symm

theorem loop_facts (env : Env) (fuel : Nat) :
    ∀ (n : Nat) (s s' : TrainerPartyScratch) (w w' : World) (x : Nat),
      SampleNextSpecies_loop env fuel n s w = some (x, s', w') → s.cursorOk env →
      s.sameParty s' ∧ w.frame w' ∧ x ≠ SPECIES_NONE ∧ s'.cursorOk env
        ∧ s.fallbackCount ≤ s'.fallbackCount
        ∧ (s'.fallbackCount < 10 → PartyContainsSimilarSpecies env w s x = false) := by
  intro n
  induction n with
  | zero =>
    intro s s' w w' x h
    simp [SampleNextSpecies_loop] at h
  | succ n ih =>
    intro s s' w w' x h hc
    unfold SampleNextSpecies_loop at h
    split at h
    · exact absurd h (by simp)
    · rename_i y s1 w1 hit
      simp only [Option.some.injEq, Prod.mk.injEq] at h
      obtain ⟨hy, hs, hw⟩ := h
      subst hy hs hw
      obtain ⟨h1, h2, h3, h4⟩ := iter_facts env fuel s s1 w w1 (some y) hit
      obtain ⟨h5, h6, h7⟩ := h4 hc
      exact ⟨h1, h2, h3 y rfl, h5, h6, h7 y rfl⟩
    · rename_i s1 w1 hit
      obtain ⟨h1, h2, -, h4⟩ := iter_facts env fuel s s1 w w1 none hit
      obtain ⟨h5, h6, -⟩ := h4 hc
      obtain ⟨i1, i2, i3, i4, i5, i6⟩ := ih s1 s' w1 w' x h h5
      refine ⟨TrainerPartyScratch.sameParty_trans h1 i1, World.frame_trans h2 i2, i3, i4,
        by omega, ?_⟩
      intro hlow
      rw [← i6 hlow]
      exact (PartyContainsSimilarSpecies_congr env w w1 s s1 x h2.1 h1).symm

/-! ## Filling a slot: lemmas -/

theorem getD_set_self {α : Type} (l : List α) (i : Nat) (a d : α) (h : i < l.length) :
    (l.set i a).getD i d = a := by
  simp [List.getD_eq_getElem?_getD, List.getElem?_set, h]

theorem getD_set_ne {α : Type} (l : List α) (i j : Nat) (a d : α) (h : i ≠ j) :
    (l.set i a).getD j d = l.getD j d := by
  simp [List.getD_eq_getElem?_getD, List.getElem?_set, h]

theorem enter_facts (env : Env) (s : TrainerPartyScratch) :
    s.sameParty (SampleNextSpecies_enter env s)
      ∧ (s.cursorOk env → (SampleNextSpecies_enter env s).cursorOk env)
      ∧ ((env.gRogueTrainers s.trainerNum).teamGenerator.subsets ≠ [] →
          SampleNextSpecies_enter env s = s) := by
  unfold SampleNextSpecies_enter TrainerPartyScratch.sameParty TrainerPartyScratch.cursorOk
    RogueTeamGenerator.subsetCount
  simp only
  split_ifs with h
  · refine ⟨⟨rfl, rfl, rfl, rfl⟩, ?_, ?_⟩
    · intro _
      simp only [h]
      omega
    · intro hne
      exact absurd (List.length_eq_zero.mp h) hne
  · exact ⟨⟨rfl, rfl, rfl, rfl⟩, fun hc => hc, fun _ => rfl⟩

theorem SampleNextSpecies_facts (env : Env) (fuel n : Nat) (s s' : TrainerPartyScratch)
    (w w' : World) (x : Nat) (h : SampleNextSpecies env fuel n s w = some (x, s', w'))
    (hc : s.cursorOk env) :
    s.sameParty s' ∧ w.frame w' ∧ x ≠ SPECIES_NONE ∧ s'.cursorOk env
      ∧ ((env.gRogueTrainers s.trainerNum).teamGenerator.subsets ≠ [] →
          s.fallbackCount ≤ s'.fallbackCount)
      ∧ (s'.fallbackCount < 10 → PartyContainsSimilarSpecies env w s x = false) := by
  unfold SampleNextSpecies at h
  obtain ⟨e1, e2, e3⟩ := enter_facts env s
  obtain ⟨l1, l2, l3, l4, l5, l6⟩ := loop_facts env fuel n _ s' w w' x h (e2 hc)
  refine ⟨TrainerPartyScratch.sameParty_trans e1 l1, l2, l3, l4, ?_, ?_⟩
  · intro hne
    rw [e3 hne] at l5
    exact l5
  · intro hlow
    rw [← l6 hlow]
    exact (PartyContainsSimilarSpecies_congr env w w s _ x rfl e1).symm

theorem SelectNextPreset_facts (env : Env) (s s' : TrainerPartyScratch) (species monIdx : Nat)
    (w w' : World) (p : Option RoguePokemonCompetitiveSet)
    (h : SelectNextPreset env s species monIdx w = some (p, s', w')) :
    (∃ hi, s' = { s with heldItems := hi }) ∧ (∃ rng, w' = { w with rng := rng }) := by
  unfold SelectNextPreset at h
  simp only at h
  split at h
  · split at h
    · exact absurd h (by simp)
    · split at h <;> simp only [Option.some.injEq, Prod.mk.injEq] at h <;>
        exact ⟨⟨_, h.2.1.symm⟩, ⟨_, h.2.2.symm⟩⟩
  · simp only [Option.some.injEq, Prod.mk.injEq] at h
    obtain ⟨-, h1, h2⟩ := h
    subst h1 h2
    exact ⟨⟨s.heldItems, rfl⟩, ⟨w.rng, rfl⟩⟩

theorem CalculatePartyMonCount_frame (env : Env) (w w' : World) (t cap lvl n : Nat)
    (h : CalculatePartyMonCount env w t cap lvl = some (n, w')) :
    ∃ rng, w' = { w with rng := rng } := by
  unfold CalculatePartyMonCount at h
  simp only at h
  split at h
  · simp only [Option.some.injEq, Prod.mk.injEq] at h
    obtain ⟨-, h2⟩ := h
    subst h2
    exact ⟨w.rng, rfl⟩
  · split at h
    · simp only [Option.map_eq_some', Prod.mk.injEq] at h
      obtain ⟨_, -, -, h2⟩ := h
      subst h2
      exact ⟨w.rng, rfl⟩
    · simp only [Option.some.injEq, Prod.mk.injEq] at h
      exact ⟨_, h.2.symm⟩

theorem TrainerPartyScratch.slotUpdate_refl (i : Nat) (s : TrainerPartyScratch) :
    s.slotUpdate i s :=
  ⟨rfl, fun _ _ => rfl, rfl, rfl, rfl, rfl, rfl⟩

theorem TrainerPartyScratch.slotUpdate_trans {i : Nat} {s s1 s2 : TrainerPartyScratch}
    (h1 : s.slotUpdate i s1) (h2 : s1.slotUpdate i s2) : s.slotUpdate i s2 := by
  obtain ⟨a1, a2, a3, a4, a5, a6, a7⟩ := h1
  obtain ⟨b1, b2, b3, b4, b5, b6, b7⟩ := h2
  exact ⟨b1.trans a1, fun k hk => (b2 k hk).trans (a2 k hk), b3.trans a3, b4.trans a4,
    b5.trans a5, b6.trans a6, b7.trans a7⟩

/-- Overwriting slot `i` by a mon of the same species is a slot update. -/
theorem slotUpdate_set (i : Nat) (s : TrainerPartyScratch) (m : Pokemon)
    (hm : m.species = (s.party.getD i {}).species) (hlen : i < s.party.length) :
    s.slotUpdate i { s with party := s.party.set i m } := by
  refine ⟨by simp, ?_, ?_, rfl, rfl, rfl, rfl⟩
  · intro k hk
    exact getD_set_ne s.party i k m {} (Ne.symm hk)
  · show ((s.party.set i m).getD i {}).species = _
    rw [getD_set_self s.party i m {} hlen, hm]

theorem shiny_facts (env : Env) (t species i : Nat) (s : TrainerPartyScratch) (w : World)
    (hlen : i < s.party.length) :
    s.slotUpdate i (CreateTrainerPartyInternal_shiny env t species i s w).1
      ∧ (CreateTrainerPartyInternal_shiny env t species i s w).1.heldItems = s.heldItems
      ∧ ∃ rng, (CreateTrainerPartyInternal_shiny env t species i s w).2 = { w with rng := rng } := by
  unfold CreateTrainerPartyInternal_shiny
  simp only
  split_ifs
  · exact ⟨slotUpdate_set i s _ rfl hlen, rfl, _, rfl⟩
  · exact ⟨TrainerPartyScratch.slotUpdate_refl i s, rfl, _, rfl⟩
  · exact ⟨TrainerPartyScratch.slotUpdate_refl i s, rfl, w.rng, rfl⟩

theorem preset_facts (env : Env) (t level species monCount i : Nat)
    (s s' : TrainerPartyScratch) (w w' : World) (hlen : i < s.party.length)
    (h : CreateTrainerPartyInternal_preset env t level species monCount i s w = some (s', w')) :
    s.slotUpdate i s' ∧ ∃ rng, w' = { w with rng := rng } := by
  unfold CreateTrainerPartyInternal_preset at h
  split at h
  · split at h
    · exact absurd h (by simp)
    · rename_i s1 w1 hsel
      simp only [Option.some.injEq, Prod.mk.injEq] at h
      obtain ⟨h1, h2⟩ := h
      subst h1 h2
      obtain ⟨⟨hi, hs1⟩, hw1⟩ := SelectNextPreset_facts env s s1 species i w w1 none hsel
      subst hs1
      exact ⟨TrainerPartyScratch.slotUpdate_refl i s, hw1⟩
    · rename_i preset s1 w1 hsel
      simp only [Option.some.injEq, Prod.mk.injEq] at h
      obtain ⟨h1, h2⟩ := h
      subst h1 h2
      obtain ⟨⟨hi, hs1⟩, hw1⟩ := SelectNextPreset_facts env s s1 species i w w1 _ hsel
      subst hs1
      refine ⟨?_, hw1⟩
      exact slotUpdate_set i { s with heldItems := hi } _ rfl hlen
  · simp only [Option.some.injEq, Prod.mk.injEq] at h
    obtain ⟨h1, h2⟩ := h
    subst h1 h2
    exact ⟨TrainerPartyScratch.slotUpdate_refl i s, w.rng, rfl⟩


theorem cursorOk_of_fields (env : Env) (s s' : TrainerPartyScratch)
    (h1 : s'.trainerNum = s.trainerNum) (h2 : s'.subsetIndex = s.subsetIndex)
    (h3 : s'.fallbackCount = s.fallbackCount) (hc : s.cursorOk env) : s'.cursorOk env := by
  unfold TrainerPartyScratch.cursorOk at hc ⊢
  rw [h1, h2, h3]
  exact hc

theorem slot_facts (env : Env) (fuel t level iv monCount i : Nat)
    (s s' : TrainerPartyScratch) (w w' : World)
    (h : CreateTrainerPartyInternal_slot env fuel t level iv monCount i s w = some (s', w'))
    (hc : s.cursorOk env) (hi : s.partyCount = i) (hlen : i < s.party.length)
    (hi255 : i < 255) :
    s'.partyCount = i + 1 ∧ s'.party.length = s.party.length ∧ s'.trainerNum = s.trainerNum
      ∧ s'.cursorOk env ∧ w.frame w'
      ∧ ((env.gRogueTrainers s.trainerNum).teamGenerator.subsets ≠ [] →
          s.fallbackCount ≤ s'.fallbackCount)
      ∧ (∀ k, k ≠ i → s'.party.getD k {} = s.party.getD k {})
      ∧ (s'.party.getD i {}).species ≠ SPECIES_NONE
      ∧ (s'.fallbackCount < 10 →
          PartyContainsSimilarSpecies env w s (s'.party.getD i {}).species = false) := by
  unfold CreateTrainerPartyInternal_slot at h
  split at h
  · exact absurd h (by simp)
  · rename_i x s1 w1 hsample
    obtain ⟨⟨p1, p2, p3, p4⟩, f1, hx, hc1, hmono, hsim⟩ :=
      SampleNextSpecies_facts env fuel fuel s s1 w w1 x hsample hc
    simp only at h
    split at h
    · exact absurd h (by simp)
    · rename_i s3 w3 hpre
      simp only [Option.some.injEq, Prod.mk.injEq] at h
      obtain ⟨hs', hw'⟩ := h
      subst hw'
      have hlen1 : i < s1.party.length := by rw [p1]; exact hlen
      -- the scratch after `CreateMon`
      have hlenA : i < (s1.party.set i
          (CreateMon x (if env.DEBUG_TOGGLE_TRAINER_LVL_5 then 5 else level) iv)).length := by
        simp [hlen1]
      obtain ⟨u1, -, rngS, hwS⟩ :=
        shiny_facts env t x i
          { s1 with
            party := s1.party.set i
              (CreateMon x (if env.DEBUG_TOGGLE_TRAINER_LVL_5 then 5 else level) iv) }
          { w1 with rng := env.CreateMon_rng w1.rng } hlenA
      have hlenS : i < (CreateTrainerPartyInternal_shiny env t x i
          { s1 with
            party := s1.party.set i
              (CreateMon x (if env.DEBUG_TOGGLE_TRAINER_LVL_5 then 5 else level) iv) }
          { w1 with rng := env.CreateMon_rng w1.rng }).1.party.length := by
        rw [u1.1]; exact hlenA
      obtain ⟨u2, rngP, hwP⟩ := preset_facts env t level x monCount i _ s3 _ w3 hlenS hpre
      obtain ⟨v1, v2, v3, v4, v5, v6, v7⟩ := TrainerPartyScratch.slotUpdate_trans u1 u2
      simp only at v1 v2 v3 v4 v5 v6 v7
      have hsp : (s3.party.getD i {}).species = x := by
        rw [v3, getD_set_self s1.party i _ {} hlen1]
        rfl
      have hframe : w.frame w3 := by
        rw [hwP, hwS]
        exact ⟨f1.1, f1.2.1, f1.2.2⟩
      subst hs'
      refine ⟨?_, ?_, ?_, ?_, hframe, ?_, ?_, ?_, ?_⟩
      · show (s3.partyCount + 1) % 256 = i + 1
        rw [v4, p2, hi]
        omega
      · show s3.party.length = s.party.length
        rw [v1, List.length_set, p1]
      · show s3.trainerNum = s.trainerNum
        rw [v5, p3]
      · exact cursorOk_of_fields env s1 _ v5 v6 v7 hc1
      · intro hne
        show s.fallbackCount ≤ s3.fallbackCount
        rw [v7]
        exact hmono hne
      · intro k hk
        show s3.party.getD k {} = s.party.getD k {}
        rw [v2 k hk, getD_set_ne s1.party i k _ {} (Ne.symm hk), p1]
      · show (s3.party.getD i {}).species ≠ SPECIES_NONE
        rw [hsp]
        exact hx
      · intro hlow
        show PartyContainsSimilarSpecies env w s (s3.party.getD i {}).species = false
        rw [hsp]
        apply hsim
        have : s3.fallbackCount < 10 := hlow
        rw [v7] at this
        exact this

/-! ## Filling a party: lemmas -/

theorem getD_mem_take {α : Type} (l : List α) (a n : Nat) (d : α) (h1 : a < n)
    (h2 : a < l.length) : l.getD a d ∈ l.take n := by
  rw [List.getD_eq_getElem _ _ h2]
  refine List.mem_iff_getElem.mpr ⟨a, ?_, ?_⟩
  · simp only [List.length_take]
    omega
  · simp [List.getElem_take]

theorem PartyContainsSimilarSpecies_false (env : Env) (w : World) (s : TrainerPartyScratch)
    (x : Nat) (h : PartyContainsSimilarSpecies env w s x = false) :
    (∀ a, a < s.partyCount → a < s.party.length →
        GetSimilarCheckSpecies env (s.party.getD a {}).species ≠ GetSimilarCheckSpecies env x)
      ∧ (w.gRogueRun.rivalTrainerNum = s.trainerNum →
          ∀ r ∈ w.gRogueRun.rivalSpecies.take ROGUE_RIVAL_TOTAL_MON_COUNT, r ≠ SPECIES_NONE →
            GetSimilarCheckSpecies env r ≠ GetSimilarCheckSpecies env x) := by
  unfold PartyContainsSimilarSpecies at h
  simp only at h
  split at h
  · exact absurd h (by simp)
  · rename_i hriv
    constructor
    · intro a h1 h2
      have hmem := getD_mem_take s.party a s.partyCount {} h1 h2
      rw [List.any_eq_false] at h
      have := h _ hmem
      simpa using this
    · intro hrt r hr hr0 heq
      apply hriv
      refine ⟨hrt, ?_⟩
      rw [List.any_eq_true]
      exact ⟨r, hr, by simp [hr0, heq]⟩


theorem fill_facts (env : Env) (fuel t level iv monCount : Nat) :
    ∀ (n i : Nat) (s s' : TrainerPartyScratch) (w w' : World),
      CreateTrainerPartyInternal_fill env fuel t level iv monCount n i s w = some (s', w') →
      s.cursorOk env → s.partyCount = i → i + n ≤ s.party.length → i + n ≤ 255 →
      s'.partyCount = i + n ∧ s'.party.length = s.party.length ∧ s'.trainerNum = s.trainerNum
        ∧ s'.cursorOk env ∧ w.frame w'
        ∧ ((env.gRogueTrainers s.trainerNum).teamGenerator.subsets ≠ [] →
            s.fallbackCount ≤ s'.fallbackCount)
        ∧ (∀ k, k < i → s'.party.getD k {} = s.party.getD k {})
        ∧ (∀ k, i ≤ k → k < i + n → (s'.party.getD k {}).species ≠ SPECIES_NONE)
        ∧ ((env.gRogueTrainers s.trainerNum).teamGenerator.subsets ≠ [] →
            s'.fallbackCount < 10 →
            (∀ a b, a < b → i ≤ b → b < i + n →
                GetSimilarCheckSpecies env (s'.party.getD a {}).species
                  ≠ GetSimilarCheckSpecies env (s'.party.getD b {}).species)
              ∧ (w.gRogueRun.rivalTrainerNum = s.trainerNum →
                  ∀ b, i ≤ b → b < i + n →
                    ∀ r ∈ w.gRogueRun.rivalSpecies.take ROGUE_RIVAL_TOTAL_MON_COUNT,
                      r ≠ SPECIES_NONE →
                      GetSimilarCheckSpecies env r
                        ≠ GetSimilarCheckSpecies env (s'.party.getD b {}).species)) := by
  intro n
  induction n with
  | zero =>
    intro i s s' w w' h hc hi _ _
    simp only [CreateTrainerPartyInternal_fill, Option.some.injEq, Prod.mk.injEq] at h
    obtain ⟨h1, h2⟩ := h
    subst h1 h2
    refine ⟨hi, rfl, rfl, hc, World.frame_refl w, fun _ => le_rfl, fun _ _ => rfl, ?_, ?_⟩
    · intro k h1 h2
      omega
    · intro _ _
      exact ⟨fun a b _ h1 h2 => by omega, fun _ b h1 h2 => by omega⟩
  | succ n ih =>
    intro i s s' w w' h hc hi hlen h255
    unfold CreateTrainerPartyInternal_fill at h
    split at h
    · exact absurd h (by simp)
    · rename_i s1 w1 hslot
      obtain ⟨a1, a2, a3, a4, a5, a6, a7, a8, a9⟩ :=
        slot_facts env fuel t level iv monCount i s s1 w w1 hslot hc hi (by omega) (by omega)
      obtain ⟨b1, b2, b3, b4, b5, b6, b7, b8, b9⟩ :=
        ih (i + 1) s1 s' w1 w' h a4 a1 (by rw [a2]; omega) (by omega)
      rw [a3] at b6 b9
      have hslot_i : s'.party.getD i {} = s1.party.getD i {} := b7 i (by omega)
      refine ⟨by omega, by rw [b2, a2], by rw [b3, a3], b4, World.frame_trans a5 b5, ?_, ?_, ?_,
        ?_⟩
      · intro hne
        exact le_trans (a6 hne) (b6 hne)
      · intro k hk
        rw [b7 k (by omega), a7 k (by omega)]
      · intro k h1 h2
        by_cases hk : k = i
        · subst hk
          rw [hslot_i]
          exact a8
        · exact b8 k (by omega) (by omega)
      · intro hne hlow
        have hlow1 : s1.fallbackCount < 10 := lt_of_le_of_lt (b6 hne) hlow
        obtain ⟨c1, c2⟩ := PartyContainsSimilarSpecies_false env w s _ (a9 hlow1)
        obtain ⟨d1, d2⟩ := b9 hne hlow
        rw [a5.1] at d2
        constructor
        · intro a b hab hib hbn
          by_cases hb : b = i
          · subst hb
            rw [hslot_i, b7 a (by omega), a7 a (by omega)]
            exact c1 a (by omega) (by omega)
          · exact d1 a b hab (by omega) (by omega)
        · intro hriv b hib hbn r hr hr0
          by_cases hb : b = i
          · subst hb
            rw [hslot_i]
            exact c2 hriv r hr hr0
          · exact d2 hriv b (by omega) (by omega) r hr hr0


theorem ConfigurePartyScratchSettings_fields (env : Env) (w : World) (s : TrainerPartyScratch) :
    (ConfigurePartyScratchSettings env w s).party = s.party
      ∧ (ConfigurePartyScratchSettings env w s).partyCount = s.partyCount
      ∧ (ConfigurePartyScratchSettings env w s).trainerNum = s.trainerNum
      ∧ (ConfigurePartyScratchSettings env w s).heldItems = s.heldItems
      ∧ (ConfigurePartyScratchSettings env w s).subsetIndex = s.subsetIndex
      ∧ (ConfigurePartyScratchSettings env w s).subsetSampleCount = s.subsetSampleCount
      ∧ (ConfigurePartyScratchSettings env w s).fallbackCount = s.fallbackCount := by
  unfold ConfigurePartyScratchSettings
  simp only
  split_ifs <;> simp

theorem scratch_fields (env : Env) (w : World) (hi : TrainerHeldItemScratch)
    (t : Nat) (party : List Pokemon) (cap start level : Nat) :
    (CreateTrainerPartyInternal_scratch env w hi t party cap start level).party = party
      ∧ (CreateTrainerPartyInternal_scratch env w hi t party cap start level).partyCount = start
      ∧ (CreateTrainerPartyInternal_scratch env w hi t party cap start level).trainerNum = t
      ∧ (CreateTrainerPartyInternal_scratch env w hi t party cap start level).heldItems = hi
      ∧ (CreateTrainerPartyInternal_scratch env w hi t party cap start level).subsetIndex = 0
      ∧ (CreateTrainerPartyInternal_scratch env w hi t party cap start level).subsetSampleCount = 0
      ∧ (CreateTrainerPartyInternal_scratch env w hi t party cap start level).fallbackCount = 0 := by
  unfold CreateTrainerPartyInternal_scratch
  exact ConfigurePartyScratchSettings_fields env w _

theorem scratch_cursorOk (env : Env) (w : World) (hi : TrainerHeldItemScratch)
    (t : Nat) (party : List Pokemon) (cap start level : Nat) :
    (CreateTrainerPartyInternal_scratch env w hi t party cap start level).cursorOk env := by
  obtain ⟨-, -, -, -, -, -, h⟩ := scratch_fields env w hi t party cap start level
  unfold TrainerPartyScratch.cursorOk
  rw [h]
  exact ⟨by omega, fun _ => rfl⟩

theorem CreateTrainerPartyInternal_facts (env : Env) (fuel : Nat) (hi : TrainerHeldItemScratch)
    (t : Nat) (party : List Pokemon) (monCount cap : Nat) (first : Bool) (start : Nat)
    (w w' : World) (n : Nat) (s' : TrainerPartyScratch)
    (h : CreateTrainerPartyInternal env fuel hi t party monCount cap first start w
          = some (n, s', w'))
    (hn : n ≤ party.length) (hn255 : n ≤ 255) (hs : start ≤ party.length) (hs255 : start ≤ 255) :
    (monCount ≠ 0 → n = monCount) ∧ w.frame w' ∧ s'.party.length = party.length
      ∧ s'.trainerNum = t
      ∧ (∀ k, k < start → s'.party.getD k {} = party.getD k {})
      ∧ (∀ k, start ≤ k → k < n → (s'.party.getD k {}).species ≠ SPECIES_NONE)
      ∧ ((env.gRogueTrainers t).teamGenerator.subsets ≠ [] → s'.fallbackCount < 10 →
          (∀ a b, a < b → start ≤ b → b < n →
              GetSimilarCheckSpecies env (s'.party.getD a {}).species
                ≠ GetSimilarCheckSpecies env (s'.party.getD b {}).species)
            ∧ (w.gRogueRun.rivalTrainerNum = t →
                ∀ b, start ≤ b → b < n →
                  ∀ r ∈ w.gRogueRun.rivalSpecies.take ROGUE_RIVAL_TOTAL_MON_COUNT,
                    r ≠ SPECIES_NONE →
                    GetSimilarCheckSpecies env r
                      ≠ GetSimilarCheckSpecies env (s'.party.getD b {}).species)) := by
  unfold CreateTrainerPartyInternal at h
  simp only at h
  split at h
  · exact absurd h (by simp)
  · rename_i iv hiv
    split at h
    · exact absurd h (by simp)
    · rename_i n1 w1 hmc
      split at h
      · exact absurd h (by simp)
      · rename_i s2 w2 hfill
        simp only [Option.some.injEq, Prod.mk.injEq] at h
        obtain ⟨h1, h2, h3⟩ := h
        subst h1 h2 h3
        have hw1 : ∃ rng, w1 = { w with rng := rng } := by
          by_cases h0 : monCount = 0
          · rw [if_pos h0] at hmc
            exact CalculatePartyMonCount_frame env w w1 t cap _ n1 hmc
          · rw [if_neg h0] at hmc
            simp only [Option.some.injEq, Prod.mk.injEq] at hmc
            exact ⟨w.rng, by rw [← hmc.2]⟩
        have hn1 : monCount ≠ 0 → n1 = monCount := by
          intro h0
          rw [if_neg h0] at hmc
          simp only [Option.some.injEq, Prod.mk.injEq] at hmc
          exact hmc.1.symm
        obtain ⟨rng1, hw1⟩ := hw1
        obtain ⟨q1, q2, q3, q4, q5, q6, q7⟩ :=
          scratch_fields env w1 hi t party cap start (GetTrainerLevel env w t)
        obtain ⟨a1, a2, a3, a4, a5, a6, a7, a8, a9⟩ :=
          fill_facts env fuel t (GetTrainerLevel env w t) iv n1 (n1 - start) start _ s2 _ w2 hfill
            (scratch_cursorOk env w1 hi t party cap start _) q2
            (by rw [q1]; omega) (by omega)
        rw [q1] at a2 a7
        rw [q3] at a3 a6 a9
        have hframe : w.frame w2 := by
          obtain ⟨f1, f2, f3⟩ := a5
          simp only [hw1] at f1 f2 f3
          exact ⟨f1, f2, f3⟩
        refine ⟨hn1, ⟨hframe.1, hframe.2.1, hframe.2.2⟩, a2, a3, a7, ?_, ?_⟩
        · intro k h1 h2
          exact a8 k h1 (by omega)
        · intro hne hlow
          obtain ⟨c1, c2⟩ := a9 hne hlow
          simp only [hw1] at c2
          exact ⟨fun a b hab h1 h2 => c1 a b hab h1 (by omega),
            fun hr b h1 h2 => c2 hr b h1 (by omega)⟩

/-! ## The rival roster: lemmas and idempotence of the base pass -/

theorem foldl_invariant {α β : Type} (P : β → Prop) (f : β → α → β) (xs : List α) (init : β)
    (h0 : P init) (hstep : ∀ acc x, x ∈ xs → P acc → P (f acc x)) : P (xs.foldl f init) := by
  induction xs generalizing init with
  | nil => exact h0
  | cons x rest ih =>
    simp only [List.foldl_cons]
    apply ih
    · exact hstep init x (List.mem_cons_self x rest) h0
    · intro acc y hy hacc
      exact hstep acc y (List.mem_cons_of_mem x hy) hacc

theorem swap_filledTo (n a b : Nat) (buf : List Nat) (ha : a < n) (hb : b < n)
    (h : filledTo n buf) :
    filledTo n ((buf.set a (buf.getD b 0)).set b (buf.getD a 0)) := by
  obtain ⟨hlen, hall⟩ := h
  refine ⟨by simp [hlen], ?_⟩
  intro k hk
  by_cases hkb : k = b
  · subst hkb
    rw [getD_set_self _ _ _ _ (by simp; omega)]
    exact hall a ha
  · rw [getD_set_ne _ _ _ _ _ (Ne.symm hkb)]
    by_cases hka : k = a
    · subst hka
      rw [getD_set_self _ _ _ _ (by omega)]
      exact hall b hb
    · rw [getD_set_ne _ _ _ _ _ (Ne.symm hka)]
      exact hall k hk

theorem SortByBst_step_filledTo (env : Env) (n i j : Nat) (buf : List Nat) (hj1 : 1 ≤ j)
    (hj : j < n) (h : filledTo n buf) : filledTo n (SortByBst_step env i buf j) := by
  unfold SortByBst_step
  split_ifs
  · exact h
  · exact swap_filledTo n j (j - 1) buf hj (by omega) h
  · exact h

theorem SortByBst_filledTo (env : Env) (n : Nat) (buf : List Nat) (h : filledTo n buf) :
    filledTo n (SortByBst env buf n) := by
  unfold SortByBst
  apply foldl_invariant (filledTo n) _ _ _ h
  intro acc i _ hacc
  apply foldl_invariant (filledTo n) _ _ _ hacc
  intro acc2 j hj hacc2
  rw [List.mem_range'_1] at hj
  exact SortByBst_step_filledTo env n i j acc2 hj.1 (by omega) hacc2

theorem scan_index_lt (env : Env) (t : Nat) (prefer : Bool) (buf : List Nat) (n : Nat)
    (hn : RIVAL_STARTER_INDEX < n) :
    (SelectAndMoveStarterSpecies_scan env t prefer buf n).1 < n := by
  unfold SelectAndMoveStarterSpecies_scan
  apply foldl_invariant (fun best : Nat × Nat => best.1 < n) _ _ _ hn
  intro acc i hi hacc
  simp only
  split_ifs
  · exact List.mem_range.mp hi
  · exact hacc

theorem SelectAndMoveStarterSpecies_filledTo (env : Env) (t n : Nat) (buf : List Nat)
    (rng : RngState) (hn : RIVAL_STARTER_INDEX < n) (h : filledTo n buf) :
    filledTo n (SelectAndMoveStarterSpecies env t buf n rng).1 := by
  unfold SelectAndMoveStarterSpecies
  simp only
  split_ifs
  · exact swap_filledTo n RIVAL_STARTER_INDEX _ buf hn (scan_index_lt env t _ buf n hn) h
  · exact h

theorem captureSpecies_length (party : List Pokemon) (offset : Nat) :
    ∀ (idx : List Nat) (roster : List Nat),
      (captureSpecies party roster offset idx).length = roster.length := by
  intro idx
  induction idx with
  | nil => intro roster; rfl
  | cons i rest ih =>
    intro roster
    simp only [captureSpecies]
    rw [ih]
    simp

theorem captureSpecies_getD (party : List Pokemon) (offset : Nat) :
    ∀ (idx : List Nat) (roster : List Nat) (k : Nat),
      (captureSpecies party roster offset idx).getD k 0
        = if k < roster.length ∧ ∃ i ∈ idx, offset + i = k then (party.getD (k - offset) {}).species
          else roster.getD k 0 := by
  intro idx
  induction idx with
  | nil => intro roster k; simp [captureSpecies]
  | cons i rest ih =>
    intro roster k
    simp only [captureSpecies]
    rw [ih]
    simp only [List.length_set, List.mem_cons, exists_eq_or_imp]
    by_cases hk : offset + i = k
    · subst hk
      by_cases hlen : offset + i < roster.length
      · by_cases hr : ∃ a ∈ rest, offset + a = offset + i
        · simp [hlen, hr]
        · simp only [hlen, hr, and_false, if_false, true_and, true_or, if_true]
          rw [getD_set_self _ _ _ _ hlen]
          simp
      · simp only [hlen, false_and, if_false]
        rw [List.getD_eq_default _ _ (by simp; omega), List.getD_eq_default _ _ (by omega)]
    · by_cases hr : ∃ a ∈ rest, offset + a = k
      · simp [hk, hr]
      · simp only [hk, hr, or_self, and_false, if_false]
        exact getD_set_ne _ _ _ _ _ hk


theorem CreateTrainerPartyInternal_count (env : Env) (fuel : Nat) (hi : TrainerHeldItemScratch)
    (t : Nat) (party : List Pokemon) (monCount cap : Nat) (first : Bool) (start : Nat)
    (w w' : World) (n : Nat) (s' : TrainerPartyScratch)
    (h : CreateTrainerPartyInternal env fuel hi t party monCount cap first start w
          = some (n, s', w'))
    (h0 : monCount ≠ 0) : n = monCount := by
  unfold CreateTrainerPartyInternal at h
  simp only [if_neg h0] at h
  split at h
  · exact absurd h (by simp)
  · split at h
    · exact absurd h (by simp)
    · simp only [Option.some.injEq, Prod.mk.injEq] at h
      exact h.1.symm

/-- C1. `Rogue_GenerateRivalBaseTeamIfNeeded` is idempotent. For every world
whose `gEnemyParty` and `rivalSpecies` arrays have their declared sizes, once a
first call has returned, `rivalSpecies[0]` is not `SPECIES_NONE` (the sampler
never returns `SPECIES_NONE`, and the sort and the starter move only swap the
five captured entries), so a second call, whatever its fuel and whatever its
stack held, finds the guard closed and returns the world unchanged: every
entry of `rivalSpecies` keeps its value. -/
theorem Rogue_GenerateRivalBaseTeamIfNeeded_idempotent (env : Env) (fuel fuel' : Nat)
    (heldItems heldItems' : TrainerHeldItemScratch) (w w1 : World)
    (hparty : w.gEnemyParty.length = PARTY_SIZE)
    (hroster : w.gRogueRun.rivalSpecies.length = ROGUE_RIVAL_TOTAL_MON_COUNT)
    (h : Rogue_GenerateRivalBaseTeamIfNeeded env fuel heldItems w = some w1) :
    w1.gRogueRun.rivalSpecies.getD 0 0 ≠ SPECIES_NONE
      ∧ Rogue_GenerateRivalBaseTeamIfNeeded env fuel' heldItems' w1 = some w1 := by
  have key : w1.gRogueRun.rivalSpecies.getD 0 0 ≠ SPECIES_NONE := by
    unfold Rogue_GenerateRivalBaseTeamIfNeeded at h
    simp only at h
    split at h
    · rename_i hempty
      split at h
      · exact absurd h (by simp)
      · rename_i n s2 w2 hgen
        simp only [Option.some.injEq] at h
        subst h
        have hn : n = RIVAL_BASE_PARTY_SIZE :=
          CreateTrainerPartyInternal_count env fuel heldItems _ _ _ _ _ _ _ w2 n s2 hgen
            (by decide)
        simp only [Rogue_SetCurrentDifficulty] at hgen
        obtain ⟨-, hframe, hlen, -, -, hset, -⟩ :=
          CreateTrainerPartyInternal_facts env fuel heldItems _ _ _ _ _ _ _ w2 n s2 hgen
            (by rw [hn, hparty]; decide) (by rw [hn]; decide) (by omega) (by omega)
        have hfilled : filledTo RIVAL_BASE_PARTY_SIZE
            (captureSpecies s2.party w2.gRogueRun.rivalSpecies 0
              (List.range RIVAL_BASE_PARTY_SIZE)) := by
          have hr : w2.gRogueRun.rivalSpecies.length = ROGUE_RIVAL_TOTAL_MON_COUNT := by
            rw [hframe.1]; exact hroster
          refine ⟨by rw [captureSpecies_length, hr]; decide, ?_⟩
          intro k hk
          rw [captureSpecies_getD]
          have hcond : k < w2.gRogueRun.rivalSpecies.length
              ∧ ∃ i ∈ List.range RIVAL_BASE_PARTY_SIZE, 0 + i = k := by
            refine ⟨?_, k, List.mem_range.mpr hk, by omega⟩
            rw [hr]
            simp only [RIVAL_BASE_PARTY_SIZE, ROGUE_RIVAL_TOTAL_MON_COUNT] at hk ⊢
            omega
          rw [if_pos hcond]
          exact hset (k - 0) (by omega) (by rw [hn]; omega)
        have := SelectAndMoveStarterSpecies_filledTo env w2.gRogueRun.rivalTrainerNum
          RIVAL_BASE_PARTY_SIZE _ 
          { w2.rng with gRngRogueValue := w.rng.gRngRogueValue } (by decide)
          (SortByBst_filledTo env RIVAL_BASE_PARTY_SIZE _ hfilled)
        exact this.2 0 (by decide)
    · rename_i hfull
      simp only [Option.some.injEq] at h
      subst h
      exact hfull
  refine ⟨key, ?_⟩
  unfold Rogue_GenerateRivalBaseTeamIfNeeded
  simp only [if_neg key]


theorem SortByBst_length (env : Env) (n : Nat) (buf : List Nat) :
    (SortByBst env buf n).length = buf.length := by
  unfold SortByBst
  apply foldl_invariant (fun b : List Nat => b.length = buf.length) _ _ _ rfl
  intro acc i _ hacc
  apply foldl_invariant (fun b : List Nat => b.length = buf.length) _ _ _ hacc
  intro acc2 j _ hacc2
  unfold SortByBst_step
  split_ifs <;> simp [hacc2]

theorem placeholderParty_facts (env : Env) :
    ∀ (buf : List Nat) (write : Nat) (w : World),
      w.gRogueRun = (placeholderParty env buf write w).gRogueRun
        ∧ (placeholderParty env buf write w).currentDifficulty = w.currentDifficulty
        ∧ (placeholderParty env buf write w).gEnemyParty.length = w.gEnemyParty.length := by
  intro buf
  induction buf with
  | nil => intro write w; exact ⟨rfl, rfl, rfl⟩
  | cons x rest ih =>
    intro write w
    simp only [placeholderParty]
    split_ifs
    · obtain ⟨h1, h2, h3⟩ := ih (write + 1)
        { w with
          gEnemyParty := w.gEnemyParty.set write (CreateMon x MAX_LEVEL 0)
          rng := env.CreateMon_rng w.rng }
      refine ⟨h1, h2, ?_⟩
      rw [h3]
      simp
    · exact ih write w

/-! ## The rival roster: the swap pass leaves the base segment alone -/

theorem prepare_facts (env : Env) (w : World) :
    (Rogue_GenerateRivalSwapTeamIfNeeded_prepare env w).gRogueRun = w.gRogueRun
      ∧ (Rogue_GenerateRivalSwapTeamIfNeeded_prepare env w).gEnemyParty.length = PARTY_SIZE := by
  unfold Rogue_GenerateRivalSwapTeamIfNeeded_prepare
  simp only [Rogue_SetCurrentDifficulty, ZeroEnemyPartyMons]
  constructor
  · exact (placeholderParty_facts env _ 0 _).1.symm
  · rw [(placeholderParty_facts env _ 0 _).2.2]
    simp

theorem generate_facts (env : Env) (fuel : Nat) (heldItems1 heldItems2 : TrainerHeldItemScratch)
    (w w' : World) (hparty : w.gEnemyParty.length = PARTY_SIZE)
    (h : Rogue_GenerateRivalSwapTeamIfNeeded_generate env fuel heldItems1 heldItems2 w
          = some w') :
    (∀ i, i < RIVAL_BASE_PARTY_SIZE →
        w'.gRogueRun.rivalSpecies.getD i 0 = w.gRogueRun.rivalSpecies.getD i 0)
      ∧ w'.gRogueRun.rivalSpecies.length = w.gRogueRun.rivalSpecies.length := by
  unfold Rogue_GenerateRivalSwapTeamIfNeeded_generate at h
  simp only at h
  split at h
  · exact absurd h (by simp)
  · rename_i n1 s1 w1 hgen1
    split at h
    · exact absurd h (by simp)
    · rename_i n2 s2 w2 hgen2
      simp only [Option.some.injEq] at h
      subst h
      have hn1 := CreateTrainerPartyInternal_count env fuel heldItems1 _ _ _ _ _ _ _ w1 n1 s1
        hgen1 (by decide)
      have hn2 := CreateTrainerPartyInternal_count env fuel heldItems2 _ _ _ _ _ _ _ w2 n2 s2
        hgen2 (by decide)
      obtain ⟨-, f1, l1, -⟩ :=
        CreateTrainerPartyInternal_facts env fuel heldItems1 _ _ _ _ _ _ _ w1 n1 s1 hgen1
          (by rw [hn1, hparty]; decide) (by rw [hn1]; decide) (by rw [hparty]; decide)
          (by decide)
      rw [hparty] at l1
      obtain ⟨-, f2, -⟩ :=
        CreateTrainerPartyInternal_facts env fuel heldItems2 _ _ _ _ _ _ _ w2 n2 s2 hgen2
          (by rw [hn2]; exact le_of_eq l1.symm) (by rw [hn2]; decide)
          (le_of_le_of_eq (by decide) l1.symm)
          (by decide)
      have k1 : w2.gRogueRun.rivalSpecies
          = captureSpecies s1.party w1.gRogueRun.rivalSpecies 3 [2] := by
        rw [f2.1]
        rfl
      have g1 : w1.gRogueRun.rivalSpecies = w.gRogueRun.rivalSpecies := by rw [f1.1]
      constructor
      · intro i hi
        show (captureSpecies s2.party w2.gRogueRun.rivalSpecies 3 (List.range' 3 3)).getD i 0 = _
        simp only [RIVAL_BASE_PARTY_SIZE] at hi
        rw [captureSpecies_getD, if_neg (by
          rintro ⟨-, j, hj, hjk⟩
          rw [List.mem_range'_1] at hj
          omega)]
        rw [k1, captureSpecies_getD, if_neg (by
          rintro ⟨-, j, hj, hjk⟩
          simp only [List.mem_singleton] at hj
          omega), g1]
      · show (captureSpecies s2.party w2.gRogueRun.rivalSpecies 3 (List.range' 3 3)).length = _
        rw [captureSpecies_length, k1, captureSpecies_length, g1]


theorem generate_frame (env : Env) (fuel : Nat) (heldItems1 heldItems2 : TrainerHeldItemScratch)
    (w w' : World) (hparty : w.gEnemyParty.length = PARTY_SIZE)
    (h : Rogue_GenerateRivalSwapTeamIfNeeded_generate env fuel heldItems1 heldItems2 w
          = some w') :
    w'.gRogueRun = { w.gRogueRun with rivalSpecies := w'.gRogueRun.rivalSpecies } := by
  unfold Rogue_GenerateRivalSwapTeamIfNeeded_generate at h
  simp only at h
  split at h
  · exact absurd h (by simp)
  · rename_i n1 s1 w1 hgen1
    split at h
    · exact absurd h (by simp)
    · rename_i n2 s2 w2 hgen2
      simp only [Option.some.injEq] at h
      subst h
      have hn1 := CreateTrainerPartyInternal_count env fuel heldItems1 _ _ _ _ _ _ _ w1 n1 s1
        hgen1 (by decide)
      have hn2 := CreateTrainerPartyInternal_count env fuel heldItems2 _ _ _ _ _ _ _ w2 n2 s2
        hgen2 (by decide)
      obtain ⟨-, f1, l1, -⟩ :=
        CreateTrainerPartyInternal_facts env fuel heldItems1 _ _ _ _ _ _ _ w1 n1 s1 hgen1
          (by rw [hn1, hparty]; decide) (by rw [hn1]; decide) (by rw [hparty]; decide)
          (by decide)
      rw [hparty] at l1
      obtain ⟨-, f2, -⟩ :=
        CreateTrainerPartyInternal_facts env fuel heldItems2 _ _ _ _ _ _ _ w2 n2 s2 hgen2
          (by rw [hn2]; exact le_of_eq l1.symm) (by rw [hn2]; decide)
          (le_of_le_of_eq (by decide) l1.symm)
          (by decide)
      have e2 := f2.1
      have e1 := f1.1
      simp only [Rogue_SetCurrentDifficulty] at e2
      simp only [e2, e1]

/-- C4. `Rogue_GenerateRivalSwapTeamIfNeeded` never alters the base segment.
For every world whose roster has its declared size (a populated base roster in
particular), when the call returns, the entries `rivalSpecies[0..4]` hold the
same values at the same indices as before, the roster still has
`ROGUE_RIVAL_TOTAL_MON_COUNT` entries and no other field of the run changed
(only indices 5..8 were written and sorted), and `gRngRogueValue` and the
difficulty tier have their values from before the call. -/
theorem Rogue_GenerateRivalSwapTeamIfNeeded_frame (env : Env) (fuel : Nat)
    (heldItems1 heldItems2 : TrainerHeldItemScratch) (w w' : World)
    (hroster : w.gRogueRun.rivalSpecies.length = ROGUE_RIVAL_TOTAL_MON_COUNT)
    (h : Rogue_GenerateRivalSwapTeamIfNeeded env fuel heldItems1 heldItems2 w = some w') :
    (∀ i, i < RIVAL_BASE_PARTY_SIZE →
        w'.gRogueRun.rivalSpecies.getD i 0 = w.gRogueRun.rivalSpecies.getD i 0)
      ∧ w'.gRogueRun.rivalSpecies.length = ROGUE_RIVAL_TOTAL_MON_COUNT
      ∧ w'.gRogueRun = { w.gRogueRun with rivalSpecies := w'.gRogueRun.rivalSpecies }
      ∧ w'.rng.gRngRogueValue = w.rng.gRngRogueValue
      ∧ w'.currentDifficulty = w.currentDifficulty := by
  unfold Rogue_GenerateRivalSwapTeamIfNeeded at h
  simp only at h
  split at h
  · split at h
    · exact absurd h (by simp)
    · rename_i w2 hgen
      simp only [Option.some.injEq] at h
      subst h
      obtain ⟨p1, p2⟩ := prepare_facts env w
      obtain ⟨g1, g2⟩ := generate_facts env fuel heldItems1 heldItems2 _ w2 p2 hgen
      have g3 := generate_frame env fuel heldItems1 heldItems2 _ w2 p2 hgen
      rw [p1] at g1 g2 g3
      rw [hroster] at g2
      refine ⟨?_, ?_, ?_, rfl, rfl⟩
      · intro i hi
        simp only [Rogue_SetCurrentDifficulty, ZeroEnemyPartyMons, RIVAL_BASE_PARTY_SIZE,
          ROGUE_RIVAL_TOTAL_MON_COUNT] at g1 g2 hi ⊢
        rw [List.getD_append _ _ _ _ (by simp only [List.length_take, g2]; omega)]
        rw [List.getD_eq_getElem?_getD, List.getElem?_take_of_lt hi,
          ← List.getD_eq_getElem?_getD]
        exact g1 i hi
      · simp only [Rogue_SetCurrentDifficulty, ZeroEnemyPartyMons, RIVAL_BASE_PARTY_SIZE,
          ROGUE_RIVAL_TOTAL_MON_COUNT, List.length_append, List.length_take, SortByBst_length,
          List.length_drop] at g2 ⊢
        rw [g2]
        rfl
      · simp only [Rogue_SetCurrentDifficulty, ZeroEnemyPartyMons]
        rw [g3]
  · simp only [Option.some.injEq] at h
    subst h
    exact ⟨fun _ _ => rfl, hroster, rfl, rfl, rfl⟩

/-! ## The rival roster on a concrete run -/

set_option maxRecDepth 100000 in
/-- C1, evaluated: on `worldNew` the first call populates the roster and the
second call, with other fuel and other stack contents, changes nothing. -/
theorem Rogue_GenerateRivalBaseTeamIfNeeded_idempotent_witness :
    worldNew.gEnemyParty.length = PARTY_SIZE
      ∧ worldNew.gRogueRun.rivalSpecies.length = ROGUE_RIVAL_TOTAL_MON_COUNT
      ∧ Rogue_GenerateRivalBaseTeamIfNeeded envRival 5 {} worldNew = some worldBase
      ∧ worldBase.gRogueRun.rivalSpecies.getD 0 0 ≠ SPECIES_NONE
      ∧ Rogue_GenerateRivalBaseTeamIfNeeded envRival 7 { hasLeftovers := true } worldBase
          = some worldBase :=
  ⟨by decide, by decide, by decide,
    Rogue_GenerateRivalBaseTeamIfNeeded_idempotent envRival 5 7 {} { hasLeftovers := true }
      worldNew worldBase (by decide) (by decide) (by decide)⟩

set_option maxRecDepth 100000 in
/-- C2, at the failing input. The worlds `worldNew` and `worldNew3` agree on
the base seed, the rival, the configuration and the tables and differ only in
`gRngRogueValue` (1 and 3). The base pass captures the same five species in
both, but `SelectAndMoveStarterSpecies` runs after `gRngRogueValue` has been
restored and draws its "prefer the signature species" coin from the caller's
stream: from 1 the strongest species 80 goes to the starter index 1, from 3 the
signature species 20 does, and the rosters differ at indices 0, 1 and 4. -/
theorem rival_starter_depends_on_caller_stream :
    worldNew3 = { worldNew with rng := { worldNew.rng with gRngRogueValue := 3 } }
      ∧ (Rogue_GenerateRivalBaseTeamIfNeeded envRival 5 {} worldNew).map
            (fun w => w.gRogueRun.rivalSpecies)
          = some [20, 80, 50, 60, 40, 0, 0, 0, 0]
      ∧ (Rogue_GenerateRivalBaseTeamIfNeeded envRival 5 {} worldNew3).map
            (fun w => w.gRogueRun.rivalSpecies)
          = some [40, 20, 50, 60, 80, 0, 0, 0, 0] :=
  ⟨by decide, by decide, by decide⟩

set_option maxRecDepth 100000 in
/-- C3, at the failing input. On `worldNew` (empty roster, `gRngRogueValue` = 1)
the base pass returns with the difficulty tier restored but with
`gRngRogueValue` = 1103539936, the caller's stream advanced by the one
`RogueRandom` draw that `SelectAndMoveStarterSpecies` makes after the saved
value has been written back. -/
theorem rival_base_pass_advances_caller_stream :
    worldNew.gRogueRun.rivalSpecies.getD 0 0 = SPECIES_NONE
      ∧ worldNew.rng.gRngRogueValue = 1
      ∧ (Rogue_GenerateRivalBaseTeamIfNeeded envRival 5 {} worldNew).map
            (fun w => (w.rng.gRngRogueValue, w.currentDifficulty))
          = some (1103539936, worldNew.currentDifficulty)
      ∧ (lcgRogueRandom worldNew.rng).2.gRngRogueValue = 1103539936 :=
  ⟨by decide, by decide, by decide, by decide⟩

set_option maxRecDepth 100000 in
/-- C4, evaluated: on `worldBase` the swap pass fills indices 5..8 and leaves
the rest as it was. -/
theorem Rogue_GenerateRivalSwapTeamIfNeeded_frame_witness :
    worldBase.gRogueRun.rivalSpecies.length = ROGUE_RIVAL_TOTAL_MON_COUNT
      ∧ Rogue_GenerateRivalSwapTeamIfNeeded envRival 5 {} {} worldBase = some worldSwap
      ∧ (∀ i, i < RIVAL_BASE_PARTY_SIZE →
          worldSwap.gRogueRun.rivalSpecies.getD i 0 = worldBase.gRogueRun.rivalSpecies.getD i 0)
      ∧ worldSwap.gRogueRun.rivalSpecies.length = ROGUE_RIVAL_TOTAL_MON_COUNT
      ∧ worldSwap.gRogueRun
          = { worldBase.gRogueRun with rivalSpecies := worldSwap.gRogueRun.rivalSpecies }
      ∧ worldSwap.rng.gRngRogueValue = worldBase.rng.gRngRogueValue
      ∧ worldSwap.currentDifficulty = worldBase.currentDifficulty :=
  ⟨by decide, by decide,
    Rogue_GenerateRivalSwapTeamIfNeeded_frame envRival 5 {} {} worldBase worldSwap (by decide)
      (by decide)⟩

/-! ## Species sampling when every draw fails -/

theorem iter_of_fails (env : Env) (fuel : Nat) (hfail : AlwaysFails env fuel)
    (s : TrainerPartyScratch) (w : World) :
    ∃ s1 w1, SampleNextSpecies_iter env fuel s w
        = some ((SampleNextSpecies_afterDraw env SPECIES_NONE s1).1,
                (SampleNextSpecies_afterDraw env SPECIES_NONE s1).2, w1)
      ∧ s1.trainerNum = s.trainerNum ∧ s1.subsetIndex = s.subsetIndex
      ∧ s1.fallbackCount = s.fallbackCount := by
  obtain ⟨s1, w1, h⟩ := hfail (SampleNextSpecies_forceLegends env w s) w
  obtain ⟨hs1, -, -⟩ := SampleNextSpeciesInternal_spec env fuel _ _ _ _ _ h
  obtain ⟨-, -, f3, -, f5, -, f7⟩ := forceLegends_fields env w s
  refine ⟨s1, w1, ?_, ?_, ?_, ?_⟩
  · unfold SampleNextSpecies_iter
    rw [h]
  · rw [hs1]; exact f3
  · rw [hs1]; exact f5
  · rw [hs1]; exact f7

theorem afterDraw_fail_escalating (env : Env) (s : TrainerPartyScratch)
    (hK : s.escalating env)
    (hcnt : (env.gRogueTrainers s.trainerNum).teamGenerator.subsets.length ≤ 255)
    (hmax : ∀ sub ∈ (env.gRogueTrainers s.trainerNum).teamGenerator.subsets,
        sub.maxSamples ≤ 129) :
    ((SampleNextSpecies_afterDraw env SPECIES_NONE s).1 = none
        ∧ (SampleNextSpecies_afterDraw env SPECIES_NONE s).2.escalating env
        ∧ (SampleNextSpecies_afterDraw env SPECIES_NONE s).2.trainerNum = s.trainerNum
        ∧ (SampleNextSpecies_afterDraw env SPECIES_NONE s).2.passesLeft env + 1
            = s.passesLeft env)
      ∨ ((SampleNextSpecies_afterDraw env SPECIES_NONE s).1 = some SPECIES_MAGIKARP
          ∧ (SampleNextSpecies_afterDraw env SPECIES_NONE s).2.fallbackCount = 255) := by
  obtain ⟨k1, k2, k3⟩ := hK
  by_cases hidx : s.subsetIndex < (env.gRogueTrainers s.trainerNum).teamGenerator.subsetCount
  · left
    have hfc := k2 hidx
    have hlt : s.subsetIndex < (env.gRogueTrainers s.trainerNum).teamGenerator.subsets.length :=
      hidx
    have hget : (env.gRogueTrainers s.trainerNum).teamGenerator.subsets.get? s.subsetIndex
        = some ((env.gRogueTrainers s.trainerNum).teamGenerator.subsets.get ⟨_, hlt⟩) :=
      List.get?_eq_get hlt
    have hm := hmax _ (List.get_mem _ _ hlt)
    have h129 : (128 + 1) % 256 ≥
        ((env.gRogueTrainers s.trainerNum).teamGenerator.subsets.get ⟨_, hlt⟩).maxSamples := by
      omega
    have hwrap : (s.subsetIndex + 1) % 256 = s.subsetIndex + 1 := by omega
    unfold SampleNextSpecies_afterDraw SampleNextSpecies_advanceSubset
      TrainerPartyScratch.escalating TrainerPartyScratch.passesLeft
    simp only [RogueTeamGenerator.subsetCount] at hidx k1 k2 k3 ⊢
    simp only [if_true, hidx, hget, Option.map_some', Option.getD_some, hfc, if_pos h129,
      hwrap]
    by_cases hlast : s.subsetIndex + 1 ≥
        (env.gRogueTrainers s.trainerNum).teamGenerator.subsets.length
    · simp only [if_pos hlast]
      refine ⟨trivial, ⟨by omega, by omega, by omega⟩, trivial, ?_⟩
      split_ifs <;> omega
    · simp only [if_neg hlast]
      refine ⟨trivial, ⟨by omega, fun _ => trivial, by omega⟩, trivial, ?_⟩
      split_ifs <;> omega
  · have hge : (env.gRogueTrainers s.trainerNum).teamGenerator.subsetCount ≤ s.subsetIndex := by
      omega
    obtain ⟨h1, h255⟩ := k3 hge
    unfold SampleNextSpecies_afterDraw TrainerPartyScratch.escalating
      TrainerPartyScratch.passesLeft
    simp only [if_true, if_neg hidx]
    by_cases h : s.fallbackCount = 255
    · right
      simp only [if_pos h]
      exact ⟨trivial, h⟩
    · left
      have h0 : s.fallbackCount ≠ 0 := by omega
      simp only [if_neg h, if_pos h0, if_neg hidx]
      refine ⟨trivial, ⟨by omega, ?_, ?_⟩, trivial, by omega⟩
      · intro hh
        exact absurd hh hidx
      · intro _
        omega


theorem loop_of_fails (env : Env) (fuel : Nat) (hfail : AlwaysFails env fuel) (t : Nat)
    (hcnt : (env.gRogueTrainers t).teamGenerator.subsets.length ≤ 255)
    (hmax : ∀ sub ∈ (env.gRogueTrainers t).teamGenerator.subsets, sub.maxSamples ≤ 129) :
    ∀ (n : Nat) (s : TrainerPartyScratch) (w : World), s.trainerNum = t → s.escalating env →
      s.passesLeft env ≤ n →
      ∃ s' w', SampleNextSpecies_loop env fuel n s w = some (SPECIES_MAGIKARP, s', w')
        ∧ s'.fallbackCount = 255 := by
  intro n
  induction n with
  | zero =>
    intro s w _ hK hn
    exfalso
    unfold TrainerPartyScratch.passesLeft at hn
    obtain ⟨k1, k2, k3⟩ := hK
    split_ifs at hn with hidx
    · omega
    · have := k3 (by omega)
      omega
  | succ n ih =>
    intro s w ht hK hn
    obtain ⟨s1, w1, hit, e1, e2, e3⟩ := iter_of_fails env fuel hfail s w
    have hK1 : s1.escalating env := by
      unfold TrainerPartyScratch.escalating at hK ⊢
      rw [e1, e2, e3]
      exact hK
    have hp1 : s1.passesLeft env = s.passesLeft env := by
      unfold TrainerPartyScratch.passesLeft
      rw [e1, e2, e3]
    unfold SampleNextSpecies_loop
    rw [hit]
    rcases afterDraw_fail_escalating env s1 hK1 (by rw [e1, ht]; exact hcnt)
        (by rw [e1, ht]; exact hmax) with ⟨a1, a2, a3, a4⟩ | ⟨b1, b2⟩
    · rw [a1]
      simp only
      exact ih _ w1 (by rw [a3, e1, ht]) a2 (by omega)
    · rw [b1]
      simp only
      exact ⟨_, _, rfl, b2⟩

theorem afterDraw_stuck (env : Env) (s : TrainerPartyScratch) (h : s.stuck env) :
    (SampleNextSpecies_afterDraw env SPECIES_NONE s).1 = none
      ∧ (SampleNextSpecies_afterDraw env SPECIES_NONE s).2.stuck env := by
  unfold TrainerPartyScratch.stuck at h
  rcases h with ⟨hidx, hbig⟩ | ⟨hidx, hfc⟩
  · have hq : ¬ ((128 + 1) % 256 ≥
        (((env.gRogueTrainers s.trainerNum).teamGenerator.subsets.get? s.subsetIndex).map
          (fun sub => sub.maxSamples)).getD 0) := by omega
    unfold SampleNextSpecies_afterDraw SampleNextSpecies_advanceSubset
      TrainerPartyScratch.stuck
    simp only [if_true, if_pos hidx, if_neg hq]
    exact ⟨trivial, Or.inl ⟨hidx, hbig⟩⟩
  · have hn : ¬ (s.subsetIndex < (env.gRogueTrainers s.trainerNum).teamGenerator.subsetCount) := by
      omega
    have h255 : ¬ (s.fallbackCount = 255) := by omega
    unfold SampleNextSpecies_afterDraw TrainerPartyScratch.stuck
    have h0 : ¬ (s.fallbackCount ≠ 0) := by omega
    simp only [if_true, if_neg hn, if_neg h255, if_neg h0]
    exact ⟨trivial, Or.inr ⟨hidx, hfc⟩⟩

theorem loop_of_stuck (env : Env) (fuel : Nat) (hfail : AlwaysFails env fuel) :
    ∀ (n : Nat) (s : TrainerPartyScratch) (w : World), s.stuck env →
      SampleNextSpecies_loop env fuel n s w = none := by
  intro n
  induction n with
  | zero => intro s w _; rfl
  | succ n ih =>
    intro s w hs
    obtain ⟨s1, w1, hit, e1, e2, e3⟩ := iter_of_fails env fuel hfail s w
    have hs1 : s1.stuck env := by
      unfold TrainerPartyScratch.stuck at hs ⊢
      rw [e1, e2, e3]
      exact hs
    obtain ⟨a1, a2⟩ := afterDraw_stuck env s1 hs1
    unfold SampleNextSpecies_loop
    rw [hit, a1]
    simp only
    exact ih _ w1 a2

/-! ## Fallback escalation: termination, the quota above 129, the wrap at 255 -/

theorem totalWeight_zero (q : List Nat) (f : Nat → Nat → Nat) (hf : ∀ i s, f i s % 256 = 0) :
    RogueWeightQuery_totalWeight (RogueWeightQuery_CalculateWeights q f) = 0 := by
  unfold RogueWeightQuery_totalWeight RogueWeightQuery_CalculateWeights
  simp only [List.map_map]
  apply List.sum_eq_zero
  intro x hx
  simp only [List.mem_map, Function.comp] at hx
  obtain ⟨e, -, he⟩ := hx
  rw [← he]
  exact hf _ _

theorem envFail_draw (s : TrainerPartyScratch) (w : World) :
    (SampleNextSpeciesInternal_draw envFail s w).1 = SPECIES_NONE := by
  unfold SampleNextSpeciesInternal_draw
  simp only [envFail]
  rw [if_neg]
  simp only [RogueWeightQuery_HasAnyWeights, Bool.not_eq_true, bne_eq_false_iff_eq]
  exact totalWeight_zero _ _ (fun _ _ => rfl)

theorem envFail_regenerate (fuel : Nat) (s : TrainerPartyScratch) (w : World) :
    ∃ r, SampleNextSpeciesInternal_regenerate envFail fuel s w = some r := by
  unfold SampleNextSpeciesInternal_regenerate
  simp only
  cases hsub : (if s.subsetIndex < (envFail.gRogueTrainers s.trainerNum).teamGenerator.subsetCount
      then (envFail.gRogueTrainers s.trainerNum).teamGenerator.subsets.get? s.subsetIndex
      else none) with
  | some sub =>
    simp only [Option.map_some']
    exact ⟨_, rfl⟩
  | none =>
    have hflags : ∃ r, CalculateFallbackTypeFlags envFail fuel
        { s with shouldRegenerateQuery := false } w.rng = some r := by
      unfold CalculateFallbackTypeFlags
      simp only [envFail]
      rw [if_neg (by decide)]
      split_ifs <;> exact ⟨_, rfl⟩
    obtain ⟨r, hr⟩ := hflags
    simp only [hr, Option.map_some']
    exact ⟨_, rfl⟩

theorem envFail_alwaysFails (fuel : Nat) : AlwaysFails envFail fuel := by
  intro s w
  unfold SampleNextSpeciesInternal
  split_ifs
  · obtain ⟨r, hr⟩ := envFail_regenerate fuel s w
    rw [hr]
    refine ⟨(SampleNextSpeciesInternal_draw envFail r.1 r.2).2.1,
      (SampleNextSpeciesInternal_draw envFail r.1 r.2).2.2, ?_⟩
    simp only [Option.map_some', Option.some.injEq]
    rw [← envFail_draw r.1 r.2]
  · refine ⟨(SampleNextSpeciesInternal_draw envFail s w).2.1,
      (SampleNextSpeciesInternal_draw envFail s w).2.2, ?_⟩
    rw [← envFail_draw s w]


/-- Bounded termination under an always-failing query when the sentinel 128 is
high enough: for every trainer whose subset count fits its 8-bit field and whose
subsets all have a quota of at most 129, and the scratch as
`CreateTrainerPartyInternal` sets it up, if every draw of
`SampleNextSpeciesInternal` yields `SPECIES_NONE` then `SampleNextSpecies`
returns within `subsetCount + 255` passes through its loop, and what it returns
is `SPECIES_MAGIKARP` with `fallbackCount` = 255. -/
theorem SampleNextSpecies_terminates_when_draws_fail (env : Env) (fuel : Nat) (w : World)
    (heldItems : TrainerHeldItemScratch) (t : Nat) (party : List Pokemon)
    (cap start level n : Nat) (hfail : AlwaysFails env fuel)
    (hcnt : (env.gRogueTrainers t).teamGenerator.subsetCount ≤ 255)
    (hmax : ∀ sub ∈ (env.gRogueTrainers t).teamGenerator.subsets, sub.maxSamples ≤ 129)
    (hn : (env.gRogueTrainers t).teamGenerator.subsetCount + 255 ≤ n) :
    ∃ s' w',
      SampleNextSpecies env fuel n
          (CreateTrainerPartyInternal_scratch env w heldItems t party cap start level) w
        = some (SPECIES_MAGIKARP, s', w')
      ∧ s'.fallbackCount = 255 := by
  obtain ⟨-, -, q3, -, q5, -, q7⟩ := scratch_fields env w heldItems t party cap start level
  have e3 : (SampleNextSpecies_enter env
      (CreateTrainerPartyInternal_scratch env w heldItems t party cap start level)).trainerNum
      = t := by
    unfold SampleNextSpecies_enter
    simp only
    split_ifs <;> exact q3
  have e5 : (SampleNextSpecies_enter env
      (CreateTrainerPartyInternal_scratch env w heldItems t party cap start level)).subsetIndex
      = 0 := by
    unfold SampleNextSpecies_enter
    simp only
    split_ifs <;> exact q5
  have e7 : (SampleNextSpecies_enter env
      (CreateTrainerPartyInternal_scratch env w heldItems t party cap start level)).fallbackCount
      = if (env.gRogueTrainers t).teamGenerator.subsetCount = 0 then 1 else 0 := by
    unfold SampleNextSpecies_enter
    simp only [q3]
    split_ifs
    · show (_ + 1) % 256 = 1
      rw [q7]
    · exact q7
  unfold SampleNextSpecies
  apply loop_of_fails env fuel hfail t hcnt hmax _ _ _ e3
  · unfold TrainerPartyScratch.escalating
    rw [e3, e5, e7]
    split_ifs <;> omega
  · unfold TrainerPartyScratch.passesLeft
    rw [e3, e5, e7]
    split_ifs <;> omega

/-- Evaluated on trainer 2 of `envFail` (quotas 3 and 129): after 2 + 255
passes the default species comes back. -/
theorem SampleNextSpecies_terminates_when_draws_fail_witness :
    AlwaysFails envFail 0
      ∧ (envFail.gRogueTrainers 2).teamGenerator.subsetCount ≤ 255
      ∧ (∀ sub ∈ (envFail.gRogueTrainers 2).teamGenerator.subsets, sub.maxSamples ≤ 129)
      ∧ ∃ s' w',
          SampleNextSpecies envFail 0 ((envFail.gRogueTrainers 2).teamGenerator.subsetCount + 255)
              (CreateTrainerPartyInternal_scratch envFail {} {} 2 (List.replicate 6 {}) 6 0 10) {}
            = some (SPECIES_MAGIKARP, s', w')
          ∧ s'.fallbackCount = 255 :=
  ⟨envFail_alwaysFails 0, by decide, by decide,
    SampleNextSpecies_terminates_when_draws_fail envFail 0 {} {} 2 (List.replicate 6 {}) 6 0 10
      ((envFail.gRogueTrainers 2).teamGenerator.subsetCount + 255) (envFail_alwaysFails 0)
      (by decide) (by decide) (le_refl _)⟩

/-- C8, at the failing input: trainer 1 of `envFail`, whose only subset has a
quota of 200. Every draw fails, the sample counter is put to 128 ("some really
high number ... as we need to move to the next subset") and bumped to 129, which
is below the quota, so the cursor never leaves the subset and the fallback
counter never moves: after `subsetCount + 255` = 256 passes `SampleNextSpecies`
has not returned, and it does not return for any number of passes. -/
theorem SampleNextSpecies_hangs_on_quota_above_129 :
    AlwaysFails envFail 0
      ∧ (envFail.gRogueTrainers 1).teamGenerator.subsetCount = 1
      ∧ SampleNextSpecies envFail 0 (1 + 255) (scratchFail 1) {} = none
      ∧ ∀ n, SampleNextSpecies envFail 0 n (scratchFail 1) {} = none := by
  have hstuck : (SampleNextSpecies_enter envFail (scratchFail 1)).stuck envFail := by
    unfold TrainerPartyScratch.stuck
    left
    exact ⟨by decide, by decide⟩
  have hall : ∀ n, SampleNextSpecies envFail 0 n (scratchFail 1) {} = none := by
    intro n
    unfold SampleNextSpecies
    exact loop_of_stuck envFail 0 (envFail_alwaysFails 0) n _ _ hstuck
  exact ⟨envFail_alwaysFails 0, by decide, hall _, hall⟩

/-- C7, at the failing input: trainer 0 of `envFail` has no subsets and every
draw fails. A first `SampleNextSpecies` call on the fresh scratch returns
`SPECIES_MAGIKARP` and leaves `fallbackCount` at 255. The next call on the same
scratch (the next slot of the same `CreateTrainerPartyInternal` call) starts
with `++scratch->fallbackCount`, which takes the 8-bit counter from 255 down to
0; from there a failing draw no longer escalates and the call never returns. -/
theorem fallbackCount_wraps_after_exhaustion :
    (envFail.gRogueTrainers 0).teamGenerator.subsetCount = 0
      ∧ ∃ s1 w1,
          SampleNextSpecies envFail 0 255 (scratchFail 0) {} = some (SPECIES_MAGIKARP, s1, w1)
            ∧ s1.fallbackCount = 255
            ∧ (SampleNextSpecies_enter envFail s1).fallbackCount = 0
            ∧ ∀ n, SampleNextSpecies envFail 0 n s1 w1 = none := by
  refine ⟨by decide, ?_⟩
  obtain ⟨s1, w1, h1, h2⟩ :=
    loop_of_fails envFail 0 (envFail_alwaysFails 0) 0 (by decide) (by decide) 255
      (SampleNextSpecies_enter envFail (scratchFail 0)) {} (by decide)
      (by unfold TrainerPartyScratch.escalating; decide)
      (by decide)
  have h1' : SampleNextSpecies envFail 0 255 (scratchFail 0) {}
      = some (SPECIES_MAGIKARP, s1, w1) := h1
  obtain ⟨⟨-, -, ht, -⟩, -⟩ :=
    SampleNextSpecies_facts envFail 0 255 (scratchFail 0) s1 {} w1 SPECIES_MAGIKARP h1'
      (scratch_cursorOk envFail {} {} 0 (List.replicate 6 {}) 6 0 10)
  have ht0 : s1.trainerNum = 0 := by rw [ht]; rfl
  have henter : (SampleNextSpecies_enter envFail s1).fallbackCount = 0 := by
    unfold SampleNextSpecies_enter
    simp only [ht0, h2]
    rfl
  refine ⟨s1, w1, h1', h2, henter, ?_⟩
  intro n
  unfold SampleNextSpecies
  apply loop_of_stuck envFail 0 (envFail_alwaysFails 0)
  unfold TrainerPartyScratch.stuck
  right
  refine ⟨?_, henter⟩
  have : (SampleNextSpecies_enter envFail s1).trainerNum = 0 := by
    rw [(enter_facts envFail s1).1.2.2.1, ht0]
  rw [this]
  exact Nat.zero_le _

/-! ## Preset selection: limited held items -/

theorem itemsDistinct_facts (env : Env) (hd : env.itemsDistinct) :
    env.ITEM_LEFTOVERS ≠ 0 ∧ env.ITEM_SHELL_BELL ≠ 0 ∧ env.ITEM_CHOICE_BAND ≠ 0
      ∧ env.ITEM_CHOICE_SPECS ≠ 0 ∧ env.ITEM_CHOICE_SCARF ≠ 0
      ∧ env.ITEM_LEFTOVERS ≠ env.ITEM_SHELL_BELL
      ∧ IsChoiceItem env 0 = false
      ∧ IsChoiceItem env env.ITEM_LEFTOVERS = false
      ∧ IsChoiceItem env env.ITEM_SHELL_BELL = false
      ∧ IsChoiceItem env env.ITEM_MUSCLE_BAND = false
      ∧ IsChoiceItem env env.ITEM_WISE_GLASSES = false
      ∧ IsChoiceItem env env.ITEM_QUICK_CLAW = false
      ∧ IsChoiceItem env env.ITEM_LUM_BERRY = false
      ∧ IsChoiceItem env env.ITEM_SITRUS_BERRY = false
      ∧ env.ITEM_MUSCLE_BAND ≠ env.ITEM_LEFTOVERS ∧ env.ITEM_MUSCLE_BAND ≠ env.ITEM_SHELL_BELL
      ∧ env.ITEM_WISE_GLASSES ≠ env.ITEM_LEFTOVERS ∧ env.ITEM_WISE_GLASSES ≠ env.ITEM_SHELL_BELL
      ∧ env.ITEM_QUICK_CLAW ≠ env.ITEM_LEFTOVERS ∧ env.ITEM_QUICK_CLAW ≠ env.ITEM_SHELL_BELL
      ∧ env.ITEM_LUM_BERRY ≠ env.ITEM_LEFTOVERS ∧ env.ITEM_LUM_BERRY ≠ env.ITEM_SHELL_BELL
      ∧ env.ITEM_SITRUS_BERRY ≠ env.ITEM_LEFTOVERS
      ∧ env.ITEM_SITRUS_BERRY ≠ env.ITEM_SHELL_BELL := by
  unfold Env.itemsDistinct at hd
  unfold IsChoiceItem
  generalize env.ITEM_LEFTOVERS = a1 at hd ⊢
  generalize env.ITEM_SHELL_BELL = a2 at hd ⊢
  generalize env.ITEM_CHOICE_BAND = a3 at hd ⊢
  generalize env.ITEM_CHOICE_SPECS = a4 at hd ⊢
  generalize env.ITEM_CHOICE_SCARF = a5 at hd ⊢
  generalize env.ITEM_MUSCLE_BAND = a6 at hd ⊢
  generalize env.ITEM_WISE_GLASSES = a7 at hd ⊢
  generalize env.ITEM_QUICK_CLAW = a8 at hd ⊢
  generalize env.ITEM_LUM_BERRY = a9 at hd ⊢
  generalize env.ITEM_SITRUS_BERRY = a10 at hd ⊢
  generalize env.ROGUE_EXPANSION = ex at hd ⊢
  simp only [List.nodup_cons, List.mem_cons, List.mem_singleton, not_or, ITEM_NONE,
    List.not_mem_nil, not_false_eq_true, List.nodup_nil, and_true] at hd
  simp only [beq_iff_eq, Bool.or_eq_false_iff, Bool.and_eq_false_imp, Bool.or_eq_true,
    beq_eq_false_iff_ne, ne_eq]
  casesm* _ ∧ _
  repeat' apply And.intro
  all_goals first
    | assumption
    | exact Ne.symm (by assumption)
    | (intro _; constructor <;> first | assumption | exact Ne.symm (by assumption))

theorem admits_ite_none (env : Env) (h : TrainerHeldItemScratch)
    (hnone : h.admits env ITEM_NONE) (c : Prop) [Decidable c] (x : Nat)
    (hx : h.admits env x) : h.admits env (if c then ITEM_NONE else x) := by
  split_ifs
  · exact hnone
  · exact hx

theorem swapLimited_admits (env : Env) (hd : env.itemsDistinct) (h : TrainerHeldItemScratch)
    (item : Nat) : h.admits env (SelectNextPreset_swapLimited env h item) := by
  obtain ⟨f1, f2, f3, f4, f5, f6, f7, f8, f9, f10, f11, f12, f13, f14, f15, f16, f17, f18, f19,
    f20, f21, f22, f23, f24⟩ := itemsDistinct_facts env hd
  have f6' := Ne.symm f6
  have f1' := Ne.symm f1
  have f2' := Ne.symm f2
  unfold SelectNextPreset_swapLimited TrainerHeldItemScratch.admits
  simp only []
  split_ifs <;> refine ⟨fun hL => ?_, fun hS => ?_, fun hC => ?_⟩ <;> simp_all [ITEM_NONE]

theorem swapItem_admits (env : Env) (hd : env.itemsDistinct) (h : TrainerHeldItemScratch)
    (item : Nat) : h.admits env (SelectNextPreset_swapItem env h item) := by
  obtain ⟨f1, f2, f3, f4, f5, f6, f7, f8, f9, f10, f11, f12, f13, f14, f15, f16, f17, f18, f19,
    f20, f21, f22, f23, f24⟩ := itemsDistinct_facts env hd
  have hnone : h.admits env ITEM_NONE :=
    ⟨fun _ => Ne.symm f1, fun _ => Ne.symm f2, fun _ => f7⟩
  have h3 := swapLimited_admits env hd h item
  unfold SelectNextPreset_swapItem
  generalize SelectNextPreset_swapLimited env h item = i3 at h3 ⊢
  simp only []
  split
  · exact admits_ite_none env h hnone _ _
      (admits_ite_none env h hnone _ _ (admits_ite_none env h hnone _ _ h3))
  · exact h3

theorem giveItem_facts (env : Env) (hd : env.itemsDistinct) (h : TrainerHeldItemScratch)
    (item : Nat) (rng : RngState) (hadm : h.admits env item) :
    ((SelectNextPreset_giveItem env h item rng).1 = env.ITEM_LEFTOVERS →
        h.hasLeftovers = false ∧ (SelectNextPreset_giveItem env h item rng).2.1.hasLeftovers = true)
      ∧ ((SelectNextPreset_giveItem env h item rng).1 = env.ITEM_SHELL_BELL →
        h.hasShellbell = false ∧ (SelectNextPreset_giveItem env h item rng).2.1.hasShellbell = true)
      ∧ (IsChoiceItem env (SelectNextPreset_giveItem env h item rng).1 = true →
        h.hasChoiceItem = false
          ∧ (SelectNextPreset_giveItem env h item rng).2.1.hasChoiceItem = true)
      ∧ (h.hasLeftovers = true →
          (SelectNextPreset_giveItem env h item rng).2.1.hasLeftovers = true)
      ∧ (h.hasShellbell = true →
          (SelectNextPreset_giveItem env h item rng).2.1.hasShellbell = true)
      ∧ (h.hasChoiceItem = true →
          (SelectNextPreset_giveItem env h item rng).2.1.hasChoiceItem = true) := by
  obtain ⟨f1, f2, f3, f4, f5, f6, f7, f8, f9, f10, f11, f12, f13, f14, f15, f16, f17, f18, f19,
    f20, f21, f22, f23, f24⟩ := itemsDistinct_facts env hd
  have f6' := Ne.symm f6
  obtain ⟨a1, a2, a3⟩ := hadm
  unfold SelectNextPreset_giveItem
  simp only []
  split_ifs <;> refine ⟨?_, ?_, ?_, ?_, ?_, ?_⟩ <;> simp_all

theorem SelectNextPreset_item (env : Env) (hd : env.itemsDistinct) (s s1 : TrainerPartyScratch)
    (species monIdx : Nat) (w w1 : World) (p : Option RoguePokemonCompetitiveSet)
    (h : SelectNextPreset env s species monIdx w = some (p, s1, w1)) :
    (p = none → s1.heldItems = s.heldItems)
      ∧ ∀ q, p = some q →
        (q.heldItem = env.ITEM_LEFTOVERS →
            s.heldItems.hasLeftovers = false ∧ s1.heldItems.hasLeftovers = true)
          ∧ (q.heldItem = env.ITEM_SHELL_BELL →
            s.heldItems.hasShellbell = false ∧ s1.heldItems.hasShellbell = true)
          ∧ (IsChoiceItem env q.heldItem = true →
            s.heldItems.hasChoiceItem = false ∧ s1.heldItems.hasChoiceItem = true)
          ∧ (s.heldItems.hasLeftovers = true → s1.heldItems.hasLeftovers = true)
          ∧ (s.heldItems.hasShellbell = true → s1.heldItems.hasShellbell = true)
          ∧ (s.heldItems.hasChoiceItem = true → s1.heldItems.hasChoiceItem = true) := by
  unfold SelectNextPreset at h
  simp only at h
  split at h
  · split at h
    · exact absurd h (by simp)
    · split at h <;> simp only [Option.some.injEq, Prod.mk.injEq] at h
      · obtain ⟨h1, h2, -⟩ := h
        subst h1 h2
        exact ⟨fun _ => rfl, fun q hq => absurd hq (by simp)⟩
      · rename_i bestPreset hbest
        obtain ⟨h1, h2, -⟩ := h
        subst h1 h2
        refine ⟨fun hq => absurd hq (by simp), ?_⟩
        intro q hq
        simp only [Option.some.injEq] at hq
        subst hq
        exact giveItem_facts env hd s.heldItems _ _ (swapItem_admits env hd s.heldItems _)
  · simp only [Option.some.injEq, Prod.mk.injEq] at h
    obtain ⟨h1, h2, -⟩ := h
    subst h1 h2
    exact ⟨fun _ => rfl, fun q hq => absurd hq (by simp)⟩

theorem count_step (c : Nat) (b b1 hit : Bool) (hc : c ≤ if b1 = true then 0 else 1)
    (hhit : hit = true → b = false ∧ b1 = true) (hmono : b = true → b1 = true) :
    (c + if hit = true then 1 else 0) ≤ if b = true then 0 else 1 := by
  rcases b with _ | _ <;> rcases b1 with _ | _ <;> rcases hit with _ | _
  all_goals first
    | exact absurd (hmono rfl) (by decide)
    | exact absurd (hhit rfl).1 (by decide)
    | exact absurd (hhit rfl).2 (by decide)
    | (simp only [Bool.false_eq_true, if_true, if_false, eq_self_iff_true] at hc ⊢; omega)

/-- The number of outputs of a limited category is bounded by what the flags
still allow at the start of the sequence. -/
theorem SelectNextPreset_calls_bound (env : Env) (hd : env.itemsDistinct) :
    ∀ (calls : List (TrainerPartyScratch × Nat × Nat × World)) (heldItems : TrainerHeldItemScratch),
      ((SelectNextPreset_calls env calls heldItems).countP
            (fun p => decide (p.heldItem = env.ITEM_LEFTOVERS))
          ≤ if heldItems.hasLeftovers = true then 0 else 1)
        ∧ ((SelectNextPreset_calls env calls heldItems).countP
            (fun p => decide (p.heldItem = env.ITEM_SHELL_BELL))
          ≤ if heldItems.hasShellbell = true then 0 else 1)
        ∧ ((SelectNextPreset_calls env calls heldItems).countP
            (fun p => IsChoiceItem env p.heldItem)
          ≤ if heldItems.hasChoiceItem = true then 0 else 1) := by
  intro calls
  induction calls with
  | nil => intro heldItems; simp [SelectNextPreset_calls]
  | cons c rest ih =>
    intro heldItems
    obtain ⟨scratch, species, monIdx, w⟩ := c
    unfold SelectNextPreset_calls
    cases hcall : SelectNextPreset env { scratch with heldItems := heldItems } species monIdx w with
    | none => simp
    | some r =>
      obtain ⟨p, s1, w1⟩ := r
      obtain ⟨k1, k2⟩ := SelectNextPreset_item env hd _ s1 species monIdx w w1 p hcall
      obtain ⟨i1, i2, i3⟩ := ih s1.heldItems
      cases p with
      | none =>
        have e : s1.heldItems = heldItems := k1 rfl
        simp only []
        rw [e]
        exact ih heldItems
      | some q =>
        obtain ⟨g1, g2, g3, g4, g5, g6⟩ := k2 q rfl
        simp only [List.countP_cons]
        exact ⟨count_step _ _ _ _ i1 (fun hq => g1 (of_decide_eq_true hq)) g4,
          count_step _ _ _ _ i2 (fun hq => g2 (of_decide_eq_true hq)) g5,
          count_step _ _ _ _ i3 g3 g6⟩

/-- C6. Limited held items are never duplicated within one party. For every
sequence of `SelectNextPreset` calls on the same scratch (any species, preset
tables, random source and other inputs, any initial value of the `heldItems`
flags), at most one call outputs a preset holding `ITEM_LEFTOVERS`, at most one
outputs `ITEM_SHELL_BELL`, and at most one outputs an item for which
`IsChoiceItem` is true. The item ids written in the function are taken to be
pairwise different constants, as in the item header. -/
theorem limited_held_items_not_duplicated (env : Env) (hd : env.itemsDistinct)
    (calls : List (TrainerPartyScratch × Nat × Nat × World)) (heldItems : TrainerHeldItemScratch) :
    (SelectNextPreset_calls env calls heldItems).countP
          (fun p => decide (p.heldItem = env.ITEM_LEFTOVERS)) ≤ 1
      ∧ (SelectNextPreset_calls env calls heldItems).countP
          (fun p => decide (p.heldItem = env.ITEM_SHELL_BELL)) ≤ 1
      ∧ (SelectNextPreset_calls env calls heldItems).countP
          (fun p => IsChoiceItem env p.heldItem) ≤ 1 := by
  obtain ⟨i1, i2, i3⟩ := SelectNextPreset_calls_bound env hd calls heldItems
  refine ⟨le_trans i1 ?_, le_trans i2 ?_, le_trans i3 ?_⟩ <;> split_ifs <;> omega

set_option maxRecDepth 100000 in
/-- C6 on `envPresets`: the six calls of `callsPresets` write five presets, and
the held items come out as leftovers, shell bell, a berry, choice band and wise
glasses, so each limited category appears once. -/
theorem limited_held_items_not_duplicated_witness :
    envPresets.itemsDistinct
      ∧ (SelectNextPreset_calls envPresets callsPresets {}).map (fun p => p.heldItem)
          = [200, 219, 141, 186, 1004]
      ∧ ((SelectNextPreset_calls envPresets callsPresets {}).countP
            (fun p => decide (p.heldItem = envPresets.ITEM_LEFTOVERS)) ≤ 1
          ∧ (SelectNextPreset_calls envPresets callsPresets {}).countP
            (fun p => decide (p.heldItem = envPresets.ITEM_SHELL_BELL)) ≤ 1
          ∧ (SelectNextPreset_calls envPresets callsPresets {}).countP
            (fun p => IsChoiceItem envPresets p.heldItem) ≤ 1) :=
  ⟨by decide, by decide,
    limited_held_items_not_duplicated envPresets (by decide) callsPresets {}⟩

/-! ## Similar species: none below fallback depth 10 -/

/-- C5. No similar species below fallback depth 10. Whenever
`SampleNextSpeciesInternal` draws a species other than `SPECIES_NONE` while
`fallbackCount < 10`, `PartyContainsSimilarSpecies` is false for it at the time
of the draw: its similar-check species differs from that of every party slot
below `partyCount` and, when the trainer is the run's rival, from that of every
non-empty roster entry; this holds for every trainer, scratch and state of the
globals. Hence for a trainer with at least one subset, when
`CreateTrainerPartyInternal` returns with the fallback counter below 10 (it
never decreases for such a trainer, so every draw was made below 10; a counter
at 0 throughout is the special case), every generated slot differs in
similar-check species from every earlier slot of the party and, for the run's
rival, from every non-empty roster entry. The custom filter is modelled as
keeping exactly the candidates that pass the callback, the weighted draw as
returning a candidate of the filtered set. -/
theorem no_similar_species_below_fallback_ten (env : Env) (fuel : Nat) :
    (∀ (s s1 : TrainerPartyScratch) (w w1 : World) (species : Nat),
        SampleNextSpeciesInternal env fuel s w = some (species, s1, w1) →
        species ≠ SPECIES_NONE → s.fallbackCount < 10 →
        PartyContainsSimilarSpecies env w s species = false
          ∧ (∀ a, a < s.partyCount → a < s.party.length →
              GetSimilarCheckSpecies env (s.party.getD a {}).species
                ≠ GetSimilarCheckSpecies env species)
          ∧ (w.gRogueRun.rivalTrainerNum = s.trainerNum →
              ∀ r ∈ w.gRogueRun.rivalSpecies.take ROGUE_RIVAL_TOTAL_MON_COUNT,
                r ≠ SPECIES_NONE →
                GetSimilarCheckSpecies env r ≠ GetSimilarCheckSpecies env species))
      ∧ (∀ (heldItems : TrainerHeldItemScratch) (t : Nat) (party : List Pokemon)
          (monCount cap : Nat) (first : Bool) (start : Nat) (w2 w3 : World) (n : Nat)
          (s3 : TrainerPartyScratch),
          CreateTrainerPartyInternal env fuel heldItems t party monCount cap first start w2
            = some (n, s3, w3) →
          n ≤ party.length → n ≤ 255 → start ≤ party.length → start ≤ 255 →
          (env.gRogueTrainers t).teamGenerator.subsets ≠ [] →
          s3.fallbackCount < 10 →
          (∀ a b, a < b → start ≤ b → b < n →
              GetSimilarCheckSpecies env (s3.party.getD a {}).species
                ≠ GetSimilarCheckSpecies env (s3.party.getD b {}).species)
            ∧ (w2.gRogueRun.rivalTrainerNum = t →
                ∀ b, start ≤ b → b < n →
                  ∀ r ∈ w2.gRogueRun.rivalSpecies.take ROGUE_RIVAL_TOTAL_MON_COUNT,
                    r ≠ SPECIES_NONE →
                    GetSimilarCheckSpecies env r
                      ≠ GetSimilarCheckSpecies env (s3.party.getD b {}).species)) := by
  refine ⟨?_, ?_⟩
  · intro s s1 w w1 species hdraw hspecies hfc
    obtain ⟨-, -, hsim⟩ := SampleNextSpeciesInternal_spec env fuel s s1 w w1 species hdraw
    have hfalse := hsim hspecies hfc
    obtain ⟨c1, c2⟩ := PartyContainsSimilarSpecies_false env w s species hfalse
    exact ⟨hfalse, c1, c2⟩
  · intro heldItems t party monCount cap first start w2 w3 n s3 hgen hn hn255 hstart hstart255
      hsubsets hlow
    obtain ⟨-, -, -, -, -, -, hpair⟩ :=
      CreateTrainerPartyInternal_facts env fuel heldItems t party monCount cap first start w2 w3 n
        s3 hgen hn hn255 hstart hstart255
    exact hpair hsubsets hlow

set_option maxRecDepth 100000 in
/-- C5 on the rival of `envRival`: the five generated slots are pairwise
non-similar, and a further draw on the filled party skips the candidate 70,
which the party already holds, and returns 30. On `envNoSubsets`, a trainer
without subsets, the first draw (at depth 1) is covered as well. -/
theorem no_similar_species_below_fallback_ten_witness :
    SampleNextSpeciesInternal envRival 5 scratchRivalParty worldRivalParty
        = some (30, scratchRivalParty, worldRivalDraw)
      ∧ 30 ≠ SPECIES_NONE
      ∧ scratchRivalParty.fallbackCount < 10
      ∧ CreateTrainerPartyInternal envRival 5 {} 0 worldNew.gEnemyParty 5 5 false 0 worldNew
          = some (5, scratchRivalParty, worldRivalParty)
      ∧ (envRival.gRogueTrainers 0).teamGenerator.subsets ≠ []
      ∧ PartyContainsSimilarSpecies envRival worldRivalParty scratchRivalParty 30 = false
      ∧ (∀ a b, a < b → 0 ≤ b → b < 5 →
          GetSimilarCheckSpecies envRival (scratchRivalParty.party.getD a {}).species
            ≠ GetSimilarCheckSpecies envRival (scratchRivalParty.party.getD b {}).species)
      ∧ PartyContainsSimilarSpecies envNoSubsets { monQuery := [10, 20] }
          { fallbackCount := 1 } 10 = false :=
  ⟨by decide, by decide, by decide, by decide, by decide,
    ((no_similar_species_below_fallback_ten envRival 5).1 scratchRivalParty scratchRivalParty
      worldRivalParty worldRivalDraw 30 (by decide) (by decide) (by decide)).1,
    ((no_similar_species_below_fallback_ten envRival 5).2 {} 0 worldNew.gEnemyParty 5 5 false 0
      worldNew worldRivalParty 5 scratchRivalParty (by decide) (by decide) (by decide)
      (by decide) (by decide) (by decide) (by decide)).1,
    ((no_similar_species_below_fallback_ten envNoSubsets 5).1 { fallbackCount := 1 }
      { fallbackCount := 1 } { monQuery := [10, 20] } { monQuery := [10, 20] } 10
      (by decide) (by decide) (by decide)).1⟩

/-! ## Scenarios and the boss level formula -/

/-- C11. Scenario generic / tier 0 / slider easy. For every trainer that is
neither boss nor rival, at difficulty tier 0 on the easy slider, with
`RogueRandomRange(n, ·)` below `n` for positive `n` and the automation override
absent: `CalculatePartyMonCount` returns a size in {1, 2} for every capacity of
at least 1 and every mon level, `CalculateMonFixedIV` returns 0, and
`UseCompetitiveMoveset` returns false for every slot index and party size. -/
theorem scenario_generic_tier0_easy (env : Env) (w : World) (trainerNum : Nat)
    (scratch : TrainerPartyScratch) (monCapacity monLevel monIdx totalMonCount : Nat)
    (hgeneric : Rogue_IsKeyTrainer env trainerNum = false)
    (htier : Rogue_GetCurrentDifficulty w = 0)
    (hslider : env.configRangeTrainer = DIFFICULTY_LEVEL_EASY)
    (hcap : 1 ≤ monCapacity)
    (hrange : ∀ n flag rng, 0 < n → (env.RogueRandomRange n flag rng).1 < n)
    (hauto : (env.ROGUE_FEATURE_AUTOMATION && env.AUTO_FLAG_TRAINER_FORCE_COMP_MOVESETS) = false)
    (hscratch : scratch.trainerNum = trainerNum) :
    (∃ n w', CalculatePartyMonCount env w trainerNum monCapacity monLevel = some (n, w')
        ∧ (n = 1 ∨ n = 2))
      ∧ CalculateMonFixedIV env w trainerNum = some 0
      ∧ UseCompetitiveMoveset env w scratch monIdx totalMonCount = false := by
  refine ⟨?_, ?_, ?_⟩
  · unfold CalculatePartyMonCount
    simp only [hgeneric, htier, Bool.false_eq_true, if_false, Nat.zero_le, if_true]
    by_cases h1 : monLevel = 1
    · rw [if_pos h1]
      exact ⟨_, _, rfl, Or.inl rfl⟩
    · rw [if_neg h1]
      have hr := hrange (2 - 1) env.FLAG_SET_SEED_TRAINERS w.rng (by decide)
      have h0 : (env.RogueRandomRange (2 - 1) env.FLAG_SET_SEED_TRAINERS w.rng).1 = 0 := by omega
      refine ⟨_, _, rfl, Or.inl ?_⟩
      rw [h0]
      simp only [toU8]
      omega
  · unfold CalculateMonFixedIV
    simp only [hslider, if_true]
  · unfold UseCompetitiveMoveset
    have hboss : Rogue_IsAnyBossTrainer env scratch.trainerNum = false := by
      rw [hscratch]; exact hgeneric
    simp only [hauto, hboss, hslider, Bool.false_eq_true, if_false, if_true, ite_self]

/-- C11, evaluated on `envEasy`: trainer 0 at tier 0 with six free slots. -/
theorem scenario_generic_tier0_easy_witness :
    Rogue_IsKeyTrainer envEasy 0 = false
      ∧ Rogue_GetCurrentDifficulty worldNew = 0
      ∧ envEasy.configRangeTrainer = DIFFICULTY_LEVEL_EASY
      ∧ (∃ n w', CalculatePartyMonCount envEasy worldNew 0 6 10 = some (n, w') ∧ (n = 1 ∨ n = 2))
      ∧ CalculateMonFixedIV envEasy worldNew 0 = some 0
      ∧ UseCompetitiveMoveset envEasy worldNew {} 0 1 = false :=
  ⟨by decide, by decide, by decide,
    scenario_generic_tier0_easy envEasy worldNew 0 {} 6 10 0 1 (by decide) (by decide)
      (by decide) (by decide) (fun _ _ _ h => h) (by decide) (by decide)⟩

/-- C12. Scenario boss / maximum tier / slider brutal / gauntlet off. For every
boss trainer at tier 13 on the brutal slider with gauntlet mode off and a
capacity of at least 6: the level `GetTrainerLevel` gives the boss is 100, and
for that level (for every level other than the EXP trainer's level 1)
`CalculatePartyMonCount` returns 6 and leaves the world alone,
`UseCompetitiveMoveset` returns true for every slot index and party size,
`CalculateMonFixedIV` returns 31, and `ConfigurePartyScratchSettings` leaves the
scratch legendary-eligible (it sets `allowStrongLegends`). -/
theorem scenario_boss_max_tier_brutal (env : Env) (w : World) (trainerNum : Nat)
    (scratch : TrainerPartyScratch) (monCapacity monLevel monIdx totalMonCount : Nat)
    (hboss : Rogue_IsBossTrainer env trainerNum = true)
    (htier : Rogue_GetCurrentDifficulty w = ROGUE_FINAL_CHAMP_DIFFICULTY)
    (hslider : env.configRangeTrainer = DIFFICULTY_LEVEL_BRUTAL)
    (hgauntlet : env.FLAG_ROGUE_GAUNTLET_MODE = false)
    (hcap : 6 ≤ monCapacity)
    (hlevel : monLevel ≠ 1) :
    GetTrainerLevel env w trainerNum = 100
      ∧ CalculatePartyMonCount env w trainerNum monCapacity (GetTrainerLevel env w trainerNum)
          = some (6, w)
      ∧ CalculatePartyMonCount env w trainerNum monCapacity monLevel = some (6, w)
      ∧ UseCompetitiveMoveset env w scratch monIdx totalMonCount = true
      ∧ CalculateMonFixedIV env w trainerNum = some 31
      ∧ ((ConfigurePartyScratchSettings env w scratch).allowWeakLegends = true
          ∨ (ConfigurePartyScratchSettings env w scratch).allowStrongLegends = true) := by
  have hkey : Rogue_IsKeyTrainer env trainerNum = true := by
    unfold Rogue_IsKeyTrainer; rw [hboss]; rfl
  have hlvl : GetTrainerLevel env w trainerNum = 100 := by
    unfold GetTrainerLevel Rogue_CalculateBossMonLvl CalculateLvlFor
    rw [if_pos hboss, htier]
    simp only [hgauntlet, Bool.false_eq_true, if_false]
    decide
  have hcount : ∀ lvl, lvl ≠ 1 →
      CalculatePartyMonCount env w trainerNum monCapacity lvl = some (6, w) := by
    intro lvl hl
    unfold CalculatePartyMonCount
    simp only [hkey, htier, hslider, hgauntlet, if_neg hl, if_true, Bool.false_eq_true, if_false]
    have e : min 6 monCapacity = 6 := Nat.min_eq_left hcap
    simp [DIFFICULTY_LEVEL_BRUTAL, DIFFICULTY_LEVEL_EASY, DIFFICULTY_LEVEL_MEDIUM,
      DIFFICULTY_LEVEL_HARD, ROGUE_FINAL_CHAMP_DIFFICULTY, e]
  refine ⟨hlvl, ?_, hcount monLevel hlevel, ?_, ?_, ?_⟩
  · rw [hlvl]; exact hcount 100 (by decide)
  · unfold UseCompetitiveMoveset
    simp only [hslider, hgauntlet, Bool.false_eq_true, if_false]
    simp [DIFFICULTY_LEVEL_BRUTAL, DIFFICULTY_LEVEL_EASY, DIFFICULTY_LEVEL_MEDIUM,
      DIFFICULTY_LEVEL_HARD]
  · unfold CalculateMonFixedIV
    simp only [hslider, hkey, htier, if_true]
    simp [DIFFICULTY_LEVEL_BRUTAL, DIFFICULTY_LEVEL_EASY, DIFFICULTY_LEVEL_MEDIUM,
      DIFFICULTY_LEVEL_HARD, ROGUE_FINAL_CHAMP_DIFFICULTY, ROGUE_GYM_MID_DIFFICULTY]
  · right
    unfold ConfigurePartyScratchSettings
    simp only [hslider, htier]
    simp [DIFFICULTY_LEVEL_BRUTAL, DIFFICULTY_LEVEL_EASY, DIFFICULTY_LEVEL_MEDIUM,
      DIFFICULTY_LEVEL_HARD, ROGUE_FINAL_CHAMP_DIFFICULTY]

/-- C12, evaluated on `envBrutalBoss`: trainer 0 at tier 13, six free slots. -/
theorem scenario_boss_max_tier_brutal_witness :
    Rogue_IsBossTrainer envBrutalBoss 0 = true
      ∧ Rogue_GetCurrentDifficulty worldFinal = ROGUE_FINAL_CHAMP_DIFFICULTY
      ∧ envBrutalBoss.configRangeTrainer = DIFFICULTY_LEVEL_BRUTAL
      ∧ envBrutalBoss.FLAG_ROGUE_GAUNTLET_MODE = false
      ∧ GetTrainerLevel envBrutalBoss worldFinal 0 = 100
      ∧ CalculatePartyMonCount envBrutalBoss worldFinal 0 6
            (GetTrainerLevel envBrutalBoss worldFinal 0) = some (6, worldFinal)
      ∧ CalculatePartyMonCount envBrutalBoss worldFinal 0 6 100 = some (6, worldFinal)
      ∧ UseCompetitiveMoveset envBrutalBoss worldFinal {} 2 6 = true
      ∧ CalculateMonFixedIV envBrutalBoss worldFinal 0 = some 31
      ∧ ((ConfigurePartyScratchSettings envBrutalBoss worldFinal {}).allowWeakLegends = true
          ∨ (ConfigurePartyScratchSettings envBrutalBoss worldFinal {}).allowStrongLegends
              = true) :=
  ⟨by decide, by decide, by decide, by decide,
    scenario_boss_max_tier_brutal envBrutalBoss worldFinal 0 {} 6 100 2 6 (by decide) (by decide)
      (by decide) (by decide) (by decide) (by decide)⟩

/-- C14. Boss level follows the tiered formula. With gauntlet mode off,
`CalculateLvlFor d` is `10 * (d + 1)` for `d < 8`, `80 + 4 * (d - 7)` for
`8 ≤ d < 12` and `MAX_LEVEL` = 100 for `d ≥ 12`; it does not decrease when `d`
grows, lies in 10..100 (so the 8-bit return value never wraps), and
`Rogue_CalculateBossMonLvl` is this value at the current tier. With gauntlet
mode on it is 100 for every `d`. -/
theorem CalculateLvlFor_tiered (env : Env) (w : World) (d d' : Nat) :
    (env.FLAG_ROGUE_GAUNTLET_MODE = false →
        (d < ROGUE_ELITE_START_DIFFICULTY → CalculateLvlFor env d = 10 * (d + 1))
          ∧ (ROGUE_ELITE_START_DIFFICULTY ≤ d → d < ROGUE_CHAMP_START_DIFFICULTY →
              CalculateLvlFor env d = 80 + 4 * (d - 7))
          ∧ (ROGUE_CHAMP_START_DIFFICULTY ≤ d → CalculateLvlFor env d = MAX_LEVEL)
          ∧ (d ≤ d' → CalculateLvlFor env d ≤ CalculateLvlFor env d')
          ∧ 10 ≤ CalculateLvlFor env d ∧ CalculateLvlFor env d ≤ 100)
      ∧ (env.FLAG_ROGUE_GAUNTLET_MODE = true → CalculateLvlFor env d = 100)
      ∧ Rogue_CalculateBossMonLvl env w = CalculateLvlFor env (Rogue_GetCurrentDifficulty w)
      ∧ MAX_LEVEL = 100 := by
  have key : ∀ x, env.FLAG_ROGUE_GAUNTLET_MODE = false →
      CalculateLvlFor env x
        = if x < 8 then 10 * (x + 1) else if x < 12 then 80 + 4 * (x - 7) else 100 := by
    intro x hg
    unfold CalculateLvlFor
    simp only [hg, Bool.false_eq_true, if_false, ROGUE_ELITE_START_DIFFICULTY,
      ROGUE_CHAMP_START_DIFFICULTY, MAX_LEVEL, toU8]
    split_ifs <;> omega
  refine ⟨fun hg => ?_, fun hg => ?_, rfl, rfl⟩
  · simp only [key _ hg, ROGUE_ELITE_START_DIFFICULTY, ROGUE_CHAMP_START_DIFFICULTY, MAX_LEVEL]
    refine ⟨?_, ?_, ?_, ?_, ?_, ?_⟩ <;> intros <;> split_ifs <;> omega
  · unfold CalculateLvlFor
    simp only [hg, if_true, MAX_LEVEL]

/-! ## Boss party size: bounds and monotonicity -/

/-- The party size of a boss or rival in closed form: slider `s`, tier `d`,
`r` telling whether the trainer is a rival. -/
theorem CalculatePartyMonCount_key (env : Env) (w : World) (t cap lvl s d : Nat)
    (hkey : Rogue_IsKeyTrainer env t = true) (hg : env.FLAG_ROGUE_GAUNTLET_MODE = false)
    (hl : lvl ≠ 1) (hcap : 6 ≤ cap) (hs : s ≤ DIFFICULTY_LEVEL_BRUTAL) :
    CalculatePartyMonCount { env with configRangeTrainer := s } { w with currentDifficulty := d }
        t cap lvl
      = some
          (if s ≤ 1 then
            (if d = 0 then (if Rogue_IsRivalTrainer env t = true then 2 else 3)
             else if d ≤ 1 then 3 else if d ≤ 4 then 4 else if d ≤ 6 then 5 else 6)
           else if s = 2 then
            (if d = 0 then (if Rogue_IsRivalTrainer env t = true then 3 else 4)
             else if d = 1 then 5 else 6)
           else (if d = 0 then (if Rogue_IsRivalTrainer env t = true then 5 else 6) else 6),
           { w with currentDifficulty := d }) := by
  have hk' : Rogue_IsKeyTrainer { env with configRangeTrainer := s } t = true := hkey
  have hg' : ({ env with configRangeTrainer := s } : Env).FLAG_ROGUE_GAUNTLET_MODE = false := hg
  have hc : ({ env with configRangeTrainer := s } : Env).configRangeTrainer = s := rfl
  have hr' : Rogue_IsRivalTrainer { env with configRangeTrainer := s } t
      = Rogue_IsRivalTrainer env t := rfl
  generalize ({ env with configRangeTrainer := s } : Env) = env' at hk' hg' hc hr' ⊢
  unfold CalculatePartyMonCount
  simp only [hk', hg', hc, hr', if_neg hl, if_true, Bool.false_eq_true,
    if_false, Rogue_GetCurrentDifficulty, DIFFICULTY_LEVEL_BRUTAL, DIFFICULTY_LEVEL_EASY,
    DIFFICULTY_LEVEL_MEDIUM, DIFFICULTY_LEVEL_HARD, ROGUE_GYM_MID_DIFFICULTY,
    RIVAL_BASE_PARTY_SIZE] at hs ⊢
  generalize Rogue_IsRivalTrainer env t = r
  have h1 : s = 0 ∨ s = 1 ∨ s = 2 ∨ s = 3 := by omega
  rcases h1 with h | h | h | h <;> subst h <;> cases r <;>
    simp only [if_true, if_false, Nat.succ_ne_zero, Nat.reduceEqDiff, OfNat.ofNat_ne_zero,
      OfNat.ofNat_ne_one, one_ne_zero, Bool.false_eq_true, ← apply_ite some, Option.map_some',
      true_or, or_true, or_false, false_or, Nat.reduceLeDiff, le_refl, Nat.zero_le,
      Option.some.injEq, Prod.mk.injEq, and_true] <;>
    split_ifs <;> omega

/-- Arithmetic of the closed form: bounds, monotonicity in slider and tier, and
the first tier at which a boss has six mons. -/
theorem bossPartySize_facts (r : Bool) (s s' d d' : Nat) (hs : s ≤ s') (hs' : s' ≤ 3)
    (hd : d ≤ d') (n n' : Nat)
    (hn : n = if s ≤ 1 then
            (if d = 0 then (if r = true then 2 else 3)
             else if d ≤ 1 then 3 else if d ≤ 4 then 4 else if d ≤ 6 then 5 else 6)
           else if s = 2 then
            (if d = 0 then (if r = true then 3 else 4) else if d = 1 then 5 else 6)
           else (if d = 0 then (if r = true then 5 else 6) else 6))
    (hn' : n' = if s' ≤ 1 then
            (if d' = 0 then (if r = true then 2 else 3)
             else if d' ≤ 1 then 3 else if d' ≤ 4 then 4 else if d' ≤ 6 then 5 else 6)
           else if s' = 2 then
            (if d' = 0 then (if r = true then 3 else 4) else if d' = 1 then 5 else 6)
           else (if d' = 0 then (if r = true then 5 else 6) else 6)) :
    2 ≤ n ∧ n ≤ n' ∧ n' ≤ 6
      ∧ (r = false → (n = 6 ↔ (if s ≤ 1 then 7 else if s = 2 then 2 else 0) ≤ d)) := by
  have b1 : 2 ≤ n := by rw [hn]; split_ifs <;> omega
  have b2 : n' ≤ 6 := by rw [hn']; split_ifs <;> omega
  have b3 : r = false → (n = 6 ↔ (if s ≤ 1 then 7 else if s = 2 then 2 else 0) ≤ d) := by
    intro hr
    subst hr
    rw [hn]
    simp only [Bool.false_eq_true, if_false]
    split_ifs <;> constructor <;> intro _ <;> omega
  refine ⟨b1, ?_, b2, b3⟩
  have h1 : s = 0 ∨ s = 1 ∨ s = 2 ∨ s = 3 := by omega
  have h2 : s' = 0 ∨ s' = 1 ∨ s' = 2 ∨ s' = 3 := by omega
  rcases h1 with h | h | h | h <;> subst h <;> rcases h2 with h | h | h | h <;> subst h <;>
    first
    | (exfalso; omega)
    | (simp only [Nat.reduceLeDiff, Nat.reduceEqDiff, le_refl, Nat.zero_le, if_true, if_false,
          OfNat.ofNat_ne_one, one_ne_zero, OfNat.ofNat_ne_zero, Nat.succ_ne_zero] at hn hn'
       rw [hn, hn']
       split_ifs <;> omega)

/-- C15. For every boss or rival trainer with gauntlet mode off, a mon level
other than 1 and a capacity of at least 6, and for sliders `s ≤ s'` among easy,
medium, hard, brutal and tiers `d ≤ d'`: `CalculatePartyMonCount` returns a
size at both settings, leaving the world alone; the size lies in 2..6 and the
size at `(s, d)` is at most the size at `(s', d')` (so it is non-decreasing in
the tier for a fixed slider and in the slider for a fixed tier). For a boss that
is not a rival the size is 6 exactly from tier 7 on easy and medium, from tier 2
on hard and from tier 0 on brutal. -/
theorem CalculatePartyMonCount_boss_monotone (env : Env) (w : World)
    (trainerNum monCapacity monLevel s s' d d' : Nat)
    (hkey : Rogue_IsKeyTrainer env trainerNum = true)
    (hgauntlet : env.FLAG_ROGUE_GAUNTLET_MODE = false)
    (hlevel : monLevel ≠ 1) (hcap : 6 ≤ monCapacity)
    (hs : s ≤ s') (hs' : s' ≤ DIFFICULTY_LEVEL_BRUTAL) (hd : d ≤ d') :
    ∃ n n',
      CalculatePartyMonCount { env with configRangeTrainer := s }
          { w with currentDifficulty := d } trainerNum monCapacity monLevel
        = some (n, { w with currentDifficulty := d })
      ∧ CalculatePartyMonCount { env with configRangeTrainer := s' }
          { w with currentDifficulty := d' } trainerNum monCapacity monLevel
        = some (n', { w with currentDifficulty := d' })
      ∧ 2 ≤ n ∧ n ≤ n' ∧ n' ≤ 6
      ∧ (Rogue_IsRivalTrainer env trainerNum = false →
          (n = 6 ↔
            (if s ≤ DIFFICULTY_LEVEL_MEDIUM then 7
             else if s = DIFFICULTY_LEVEL_HARD then 2 else 0) ≤ d)) := by
  have hs0 : s ≤ DIFFICULTY_LEVEL_BRUTAL := le_trans hs hs'
  have k1 := CalculatePartyMonCount_key env w trainerNum monCapacity monLevel s d hkey hgauntlet
    hlevel hcap hs0
  have k2 := CalculatePartyMonCount_key env w trainerNum monCapacity monLevel s' d' hkey
    hgauntlet hlevel hcap hs'
  exact ⟨_, _, k1, k2,
    bossPartySize_facts (Rogue_IsRivalTrainer env trainerNum) s s' d d' hs hs' hd _ _ rfl rfl⟩

/-- C15, evaluated on `envHardBoss`: medium slider at tier 3 against hard slider
at tier 5. -/
theorem CalculatePartyMonCount_boss_monotone_witness :
    Rogue_IsKeyTrainer envHardBoss 0 = true
      ∧ envHardBoss.FLAG_ROGUE_GAUNTLET_MODE = false
      ∧ CalculatePartyMonCount { envHardBoss with configRangeTrainer := 1 }
          { currentDifficulty := 3 } 0 6 40 = some (4, { currentDifficulty := 3 })
      ∧ CalculatePartyMonCount { envHardBoss with configRangeTrainer := 2 }
          { currentDifficulty := 5 } 0 6 40 = some (6, { currentDifficulty := 5 })
      ∧ ∃ n n',
          CalculatePartyMonCount { envHardBoss with configRangeTrainer := 1 }
              { ({} : World) with currentDifficulty := 3 } 0 6 40
            = some (n, { ({} : World) with currentDifficulty := 3 })
          ∧ CalculatePartyMonCount { envHardBoss with configRangeTrainer := 2 }
              { ({} : World) with currentDifficulty := 5 } 0 6 40
            = some (n', { ({} : World) with currentDifficulty := 5 })
          ∧ 2 ≤ n ∧ n ≤ n' ∧ n' ≤ 6
          ∧ (Rogue_IsRivalTrainer envHardBoss 0 = false →
              (n = 6 ↔
                (if 1 ≤ DIFFICULTY_LEVEL_MEDIUM then 7
                 else if 1 = DIFFICULTY_LEVEL_HARD then 2 else 0) ≤ 3)) :=
  ⟨by decide, by decide, by decide, by decide,
    CalculatePartyMonCount_boss_monotone envHardBoss {} 0 6 40 1 2 3 5 (by decide) (by decide)
      (by decide) (by decide) (by decide) (by decide) (by decide)⟩

/-! ## Legendary eligibility by tier -/

/-- The legend flags after `ConfigurePartyScratchSettings` in closed form. -/
theorem ConfigurePartyScratchSettings_legends (env : Env) (w : World)
    (scratch : TrainerPartyScratch) :
    (ConfigurePartyScratchSettings env w scratch).allowStrongLegends
        = (scratch.allowStrongLegends
            || decide ((env.configRangeTrainer = 1 ∧ 8 ≤ w.currentDifficulty)
                ∨ (env.configRangeTrainer = 2 ∧ 5 ≤ w.currentDifficulty)
                ∨ (env.configRangeTrainer = 3 ∧ 2 ≤ w.currentDifficulty)))
      ∧ (ConfigurePartyScratchSettings env w scratch).allowWeakLegends
        = (scratch.allowWeakLegends
            || decide ((env.configRangeTrainer = 0 ∧ 8 ≤ w.currentDifficulty)
                ∨ (env.configRangeTrainer = 1 ∧ w.currentDifficulty = 7)
                ∨ (env.configRangeTrainer = 2 ∧ 2 ≤ w.currentDifficulty ∧ w.currentDifficulty < 5)
                ∨ (env.configRangeTrainer = 3 ∧ w.currentDifficulty = 1))) := by
  unfold ConfigurePartyScratchSettings
  simp only [Rogue_GetCurrentDifficulty, DIFFICULTY_LEVEL_BRUTAL, DIFFICULTY_LEVEL_EASY,
    DIFFICULTY_LEVEL_MEDIUM, DIFFICULTY_LEVEL_HARD]
  constructor <;> split_ifs <;> simp_all <;> omega

/-- C16, as stated, fails on the medium slider between tiers 7 and 8: on the
scratch as the generator initialises it (no legend flag set) tier 7 sets
`allowWeakLegends` and tier 8 does not; it sets `allowStrongLegends` instead,
which selects the filter "only allowed strong legends". -/
theorem weak_legends_dropped_on_medium_at_tier_8 :
    (7 : Nat) ≤ 8
      ∧ (ConfigurePartyScratchSettings envMedium { currentDifficulty := 7 } {}).allowWeakLegends
          = true
      ∧ (ConfigurePartyScratchSettings envMedium { currentDifficulty := 8 } {}).allowWeakLegends
          = false
      ∧ (ConfigurePartyScratchSettings envMedium { currentDifficulty := 8 } {}).allowStrongLegends
          = true :=
  ⟨by decide, by decide, by decide, by decide⟩

/-- C16, as amended. Legendary eligibility never closes with tier: for every
slider level, every initial scratch and tiers `d ≤ d'`, if
`ConfigurePartyScratchSettings` permits strong legendaries at tier `d` it
permits them at tier `d'`; if it permits some legendaries (weak or strong) at
tier `d` it permits some at tier `d'`; and on the easy slider a weak-legendary
permission at tier `d` is kept at tier `d'`. On the other sliders the
weak-legendary permission is replaced by the strong one at the higher tiers:
for a scratch that comes in with both flags clear, as the generator sets it
up, the weak flag is set exactly on easy from tier 8, on medium at tier 7, on
hard at tiers 2 to 4 and on brutal at tier 1, and the strong flag exactly on
medium from tier 8, on hard from tier 5 and on brutal from tier 2; so a weak
permission at tier `d` that is gone at tier `d'` has given way to the strong
one. -/
theorem legendary_eligibility_never_closes (env : Env) (w w' : World)
    (scratch : TrainerPartyScratch)
    (hd : Rogue_GetCurrentDifficulty w ≤ Rogue_GetCurrentDifficulty w') :
    ((ConfigurePartyScratchSettings env w scratch).allowStrongLegends = true →
        (ConfigurePartyScratchSettings env w' scratch).allowStrongLegends = true)
      ∧ ((ConfigurePartyScratchSettings env w scratch).allowWeakLegends = true
            ∨ (ConfigurePartyScratchSettings env w scratch).allowStrongLegends = true →
          (ConfigurePartyScratchSettings env w' scratch).allowWeakLegends = true
            ∨ (ConfigurePartyScratchSettings env w' scratch).allowStrongLegends = true)
      ∧ (env.configRangeTrainer = DIFFICULTY_LEVEL_EASY →
          (ConfigurePartyScratchSettings env w scratch).allowWeakLegends = true →
          (ConfigurePartyScratchSettings env w' scratch).allowWeakLegends = true)
      ∧ (scratch.allowWeakLegends = false → scratch.allowStrongLegends = false →
          ((ConfigurePartyScratchSettings env w' scratch).allowWeakLegends = true ↔
              (env.configRangeTrainer = DIFFICULTY_LEVEL_EASY
                  ∧ 8 ≤ Rogue_GetCurrentDifficulty w')
                ∨ (env.configRangeTrainer = DIFFICULTY_LEVEL_MEDIUM
                    ∧ Rogue_GetCurrentDifficulty w' = 7)
                ∨ (env.configRangeTrainer = DIFFICULTY_LEVEL_HARD
                    ∧ 2 ≤ Rogue_GetCurrentDifficulty w' ∧ Rogue_GetCurrentDifficulty w' ≤ 4)
                ∨ (env.configRangeTrainer = DIFFICULTY_LEVEL_BRUTAL
                    ∧ Rogue_GetCurrentDifficulty w' = 1))
            ∧ ((ConfigurePartyScratchSettings env w' scratch).allowStrongLegends = true ↔
                (env.configRangeTrainer = DIFFICULTY_LEVEL_MEDIUM
                    ∧ 8 ≤ Rogue_GetCurrentDifficulty w')
                  ∨ (env.configRangeTrainer = DIFFICULTY_LEVEL_HARD
                      ∧ 5 ≤ Rogue_GetCurrentDifficulty w')
                  ∨ (env.configRangeTrainer = DIFFICULTY_LEVEL_BRUTAL
                      ∧ 2 ≤ Rogue_GetCurrentDifficulty w'))
            ∧ ((ConfigurePartyScratchSettings env w scratch).allowWeakLegends = true →
                (ConfigurePartyScratchSettings env w' scratch).allowWeakLegends = false →
                (env.configRangeTrainer = DIFFICULTY_LEVEL_MEDIUM
                    ∨ env.configRangeTrainer = DIFFICULTY_LEVEL_HARD
                    ∨ env.configRangeTrainer = DIFFICULTY_LEVEL_BRUTAL)
                  ∧ (ConfigurePartyScratchSettings env w' scratch).allowStrongLegends = true)) := by
  obtain ⟨a1, a2⟩ := ConfigurePartyScratchSettings_legends env w scratch
  obtain ⟨b1, b2⟩ := ConfigurePartyScratchSettings_legends env w' scratch
  rw [a1, a2, b1, b2]
  simp only [Rogue_GetCurrentDifficulty, DIFFICULTY_LEVEL_EASY, DIFFICULTY_LEVEL_MEDIUM,
    DIFFICULTY_LEVEL_HARD, DIFFICULTY_LEVEL_BRUTAL] at hd ⊢
  simp only [Bool.or_eq_true, decide_eq_true_eq]
  refine ⟨?_, ?_, ?_, ?_⟩
  · rintro (h | h)
    · exact Or.inl h
    · right; omega
  · rintro ((h | h) | (h | h))
    · exact Or.inl (Or.inl h)
    · omega
    · exact Or.inr (Or.inl h)
    · right; right; omega
  · intro he
    rintro (h | h)
    · exact Or.inl h
    · right; omega
  · intro hw hs
    simp only [hw, hs, Bool.false_eq_true, false_or, Bool.or_eq_false_iff, true_and,
      decide_eq_false_iff_not]
    refine ⟨?_, ?_⟩
    · constructor <;> intro h <;> omega
    · intro h1 h2
      omega

/-- C16 as amended, evaluated on the medium slider between tiers 7 and 8: the
weak-legendary permission of tier 7 gives way to the strong one of tier 8. -/
theorem legendary_eligibility_never_closes_witness :
    Rogue_GetCurrentDifficulty { currentDifficulty := 7 }
        ≤ Rogue_GetCurrentDifficulty { currentDifficulty := 8 }
      ∧ ((ConfigurePartyScratchSettings envMedium { currentDifficulty := 7 } {}).allowWeakLegends
            = true
          ∨ (ConfigurePartyScratchSettings envMedium { currentDifficulty := 7 } {}).allowStrongLegends
            = true)
      ∧ ((ConfigurePartyScratchSettings envMedium { currentDifficulty := 8 } {}).allowWeakLegends
            = true
          ∨ (ConfigurePartyScratchSettings envMedium { currentDifficulty := 8 } {}).allowStrongLegends
            = true)
      ∧ (ConfigurePartyScratchSettings envMedium { currentDifficulty := 8 } {}).allowStrongLegends
          = true :=
  ⟨by decide, by decide,
    (legendary_eligibility_never_closes envMedium { currentDifficulty := 7 }
      { currentDifficulty := 8 } {} (by decide)).2.1 (by decide),
    (((legendary_eligibility_never_closes envMedium { currentDifficulty := 7 }
      { currentDifficulty := 8 } {} (by decide)).2.2.2 rfl rfl).2.2 (by decide) (by decide)).2⟩

/-! ## Generic trainer level and its floor -/

/-- C14, evaluated with gauntlet mode off: tiers 0, 7, 8, 11 and 12 give the
levels 10, 80, 84, 96 and 100. -/
theorem CalculateLvlFor_tiered_witness :
    envEasy.FLAG_ROGUE_GAUNTLET_MODE = false
      ∧ CalculateLvlFor envEasy 0 = 10 ∧ CalculateLvlFor envEasy 7 = 80
      ∧ CalculateLvlFor envEasy 8 = 84 ∧ CalculateLvlFor envEasy 11 = 96
      ∧ CalculateLvlFor envEasy 12 = 100
      ∧ CalculateLvlFor envEasy 9 ≤ CalculateLvlFor envEasy 12 :=
  ⟨by decide, by decide, by decide, by decide, by decide, by decide,
    ((CalculateLvlFor_tiered envEasy {} 9 12).1 (by decide)).2.2.2.1 (by decide)⟩

theorem CalculateLvlFor_le (env : Env) (d : Nat) : CalculateLvlFor env d ≤ 100 := by
  unfold CalculateLvlFor
  simp only [ROGUE_ELITE_START_DIFFICULTY, ROGUE_CHAMP_START_DIFFICULTY, MAX_LEVEL]
  split_ifs with hg h8 h12
  · exact le_rfl
  · interval_cases d <;> decide
  · have h8' : 8 ≤ d := Nat.le_of_not_lt h8
    interval_cases d <;> decide
  · exact le_rfl

/-- C17, as stated, fails in a multiplayer session on the first map column at
tier 8 for an encounter of average toughness: the boss level is 84, the level
cap 84 - 10 = 74, the floor `CalculateLvlFor 7` = 80, and the level returned is
(80 + 74) / 2 = 77, below the floor. -/
theorem average_trainer_level_below_floor :
    envMultiplayer.Rogue_GetEncounterDifficultyModifier = ADVPATH_SUBROOM_ROUTE_AVERAGE
      ∧ Rogue_CalculateTrainerMonLvl_startLvl envMultiplayer { currentDifficulty := 8 } = 80
      ∧ CalculateLvlFor envMultiplayer (8 - 1) = 80
      ∧ Rogue_CalculateTrainerLvlCap envMultiplayer { currentDifficulty := 8 } false = 74
      ∧ Rogue_CalculateTrainerMonLvl envMultiplayer { currentDifficulty := 8 } = 77 :=
  ⟨by decide, by decide, by decide, by decide, by decide⟩

/-- C17, as amended. With `startLvl` the tier-anchored floor (5 at tier 0,
`CalculateLvlFor (tier - 1)` otherwise) and `playerLvl` the level cap as
`Rogue_CalculateTrainerMonLvl` reads it, for every 8-bit tier and every value of
the level-cap inputs: a calm encounter gets exactly `startLvl`; a tough encounter
gets a level of at least `startLvl`; an average encounter gets
`(startLvl + playerLvl) / 2`, which is at least `startLvl` whenever the level
cap is, and at least the smaller of the two always. -/
theorem Rogue_CalculateTrainerMonLvl_floor (env : Env) (w : World)
    (htier : Rogue_GetCurrentDifficulty w ≤ 255) :
    (Rogue_CalculateTrainerMonLvl_startLvl env w
        = if Rogue_GetCurrentDifficulty w = 0 then 5
          else CalculateLvlFor env (Rogue_GetCurrentDifficulty w - 1))
      ∧ (env.Rogue_GetEncounterDifficultyModifier = ADVPATH_SUBROOM_ROUTE_CALM →
          Rogue_CalculateTrainerMonLvl env w = Rogue_CalculateTrainerMonLvl_startLvl env w)
      ∧ (env.Rogue_GetEncounterDifficultyModifier = ADVPATH_SUBROOM_ROUTE_TOUGH →
          Rogue_CalculateTrainerMonLvl_startLvl env w ≤ Rogue_CalculateTrainerMonLvl env w)
      ∧ (env.Rogue_GetEncounterDifficultyModifier = ADVPATH_SUBROOM_ROUTE_AVERAGE →
          Rogue_CalculateTrainerMonLvl env w
              = (Rogue_CalculateTrainerMonLvl_startLvl env w
                  + Rogue_CalculateTrainerMonLvl_playerLvl env w) / 2
            ∧ (Rogue_CalculateTrainerMonLvl_startLvl env w
                  ≤ Rogue_CalculateTrainerMonLvl_playerLvl env w →
                Rogue_CalculateTrainerMonLvl_startLvl env w ≤ Rogue_CalculateTrainerMonLvl env w)
            ∧ min (Rogue_CalculateTrainerMonLvl_startLvl env w)
                  (Rogue_CalculateTrainerMonLvl_playerLvl env w)
                ≤ Rogue_CalculateTrainerMonLvl env w) := by
  have hstart : Rogue_CalculateTrainerMonLvl_startLvl env w
      = if Rogue_GetCurrentDifficulty w = 0 then 5
        else CalculateLvlFor env (Rogue_GetCurrentDifficulty w - 1) := by
    unfold Rogue_CalculateTrainerMonLvl_startLvl
    split_ifs with h0
    · rfl
    · congr 1
      simp only [toU8]
      omega
  have hs100 : Rogue_CalculateTrainerMonLvl_startLvl env w ≤ 100 := by
    unfold Rogue_CalculateTrainerMonLvl_startLvl
    split_ifs
    · omega
    · exact CalculateLvlFor_le env _
  have hcap : ∀ k, Rogue_CalculateTrainerLvlCap env w k < 256 := by
    intro k
    unfold Rogue_CalculateTrainerLvlCap Rogue_CalculatePlayerMonLvl
    simp only [toU8]
    split_ifs <;> omega
  have hp : Rogue_CalculateTrainerMonLvl_playerLvl env w < 256 := by
    unfold Rogue_CalculateTrainerMonLvl_playerLvl
    have := hcap false
    split_ifs
    · simp only [max_def]; split_ifs <;> omega
    · exact this
  refine ⟨hstart, ?_, ?_, ?_⟩
  · intro hm
    unfold Rogue_CalculateTrainerMonLvl
    simp only [hm, if_true]
  · intro hm
    unfold Rogue_CalculateTrainerMonLvl
    simp only [hm, ADVPATH_SUBROOM_ROUTE_TOUGH, ADVPATH_SUBROOM_ROUTE_CALM,
      ADVPATH_SUBROOM_ROUTE_AVERAGE, if_true, if_false, OfNat.ofNat_ne_zero, OfNat.ofNat_ne_one]
    exact le_max_left _ _
  · intro hm
    have hval : Rogue_CalculateTrainerMonLvl env w
        = (Rogue_CalculateTrainerMonLvl_startLvl env w
            + Rogue_CalculateTrainerMonLvl_playerLvl env w) / 2 := by
      unfold Rogue_CalculateTrainerMonLvl
      simp only [hm, ADVPATH_SUBROOM_ROUTE_CALM, ADVPATH_SUBROOM_ROUTE_AVERAGE, if_true,
        if_false, one_ne_zero, toU8]
      omega
    refine ⟨hval, ?_, ?_⟩
    · intro h; rw [hval]; omega
    · rw [hval]; simp only [min_def]; split_ifs <;> omega

/-- C17 as amended, evaluated on the multiplayer session at tier 3: the cap
40 - 10 = 30 is not below the floor 30, and the level is at least the floor. -/
theorem Rogue_CalculateTrainerMonLvl_floor_witness :
    Rogue_GetCurrentDifficulty { currentDifficulty := 3 } ≤ 255
      ∧ envMultiplayer.Rogue_GetEncounterDifficultyModifier = ADVPATH_SUBROOM_ROUTE_AVERAGE
      ∧ Rogue_CalculateTrainerMonLvl_startLvl envMultiplayer { currentDifficulty := 3 }
          ≤ Rogue_CalculateTrainerMonLvl_playerLvl envMultiplayer { currentDifficulty := 3 }
      ∧ Rogue_CalculateTrainerMonLvl_startLvl envMultiplayer { currentDifficulty := 3 }
          ≤ Rogue_CalculateTrainerMonLvl envMultiplayer { currentDifficulty := 3 } :=
  ⟨by decide, by decide, by decide,
    ((Rogue_CalculateTrainerMonLvl_floor envMultiplayer { currentDifficulty := 3 }
      (by decide)).2.2.2 (by decide)).2.1 (by decide)⟩

/-! ## SortByBst: permutation and ascending order -/

theorem perm_getD_cons_set {α : Type} (d x : α) :
    ∀ (l : List α) (j : Nat), j < l.length → (l.getD j d :: l.set j x).Perm (x :: l) := by
  intro l
  induction l with
  | nil => intro j hj; exact absurd hj (Nat.not_lt_zero _)
  | cons a t ih =>
    intro j hj
    cases j with
    | zero =>
      simp only [List.getD_cons_zero, List.set_cons_zero]
      exact List.Perm.swap x a t
    | succ k =>
      simp only [List.getD_cons_succ, List.set_cons_succ]
      have hk : k < t.length := by simpa using hj
      exact ((List.Perm.swap a (t.getD k d) (t.set k x)).trans
        ((ih k hk).cons a)).trans (List.Perm.swap x a t)

/-- Exchanging two entries of a list is a permutation. -/
theorem swap_perm {α : Type} (d : α) :
    ∀ (l : List α) (a b : Nat), a < l.length → b < l.length →
      ((l.set a (l.getD b d)).set b (l.getD a d)).Perm l := by
  intro l
  induction l with
  | nil => intro a b ha; exact absurd ha (Nat.not_lt_zero _)
  | cons x t ih =>
    intro a b ha hb
    cases a with
    | zero =>
      cases b with
      | zero => simp
      | succ k =>
        simp only [List.getD_cons_zero, List.getD_cons_succ, List.set_cons_zero,
          List.set_cons_succ]
        exact perm_getD_cons_set d x t k (by simpa using hb)
    | succ m =>
      cases b with
      | zero =>
        simp only [List.getD_cons_zero, List.getD_cons_succ, List.set_cons_zero,
          List.set_cons_succ]
        exact perm_getD_cons_set d x t m (by simpa using ha)
      | succ k =>
        simp only [List.getD_cons_succ, List.set_cons_succ]
        exact (ih m k (by simpa using ha) (by simpa using hb)).cons x

theorem SortByBst_step_perm (env : Env) (i j : Nat) (buf : List Nat) (h1 : 1 ≤ j)
    (hj : j < buf.length) : (SortByBst_step env i buf j).Perm buf := by
  unfold SortByBst_step
  split_ifs
  · exact List.Perm.refl _
  · exact swap_perm 0 buf j (j - 1) hj (by omega)
  · exact List.Perm.refl _

theorem SortByBst_perm (env : Env) (buf : List Nat) :
    (SortByBst env buf buf.length).Perm buf := by
  unfold SortByBst
  apply foldl_invariant (fun b : List Nat => b.Perm buf) _ _ _ (List.Perm.refl _)
  intro acc i _ hacc
  apply foldl_invariant (fun b : List Nat => b.Perm buf) _ _ _ hacc
  intro acc2 j hj hacc2
  have hmem := List.mem_range'_1.mp hj
  have hlen : acc2.length = buf.length := hacc2.length_eq
  exact (SortByBst_step_perm env i j acc2 hmem.1 (by omega)).trans hacc2

theorem set_getD_self {α : Type} (d : α) :
    ∀ (l : List α) (i : Nat), l.set i (l.getD i d) = l := by
  intro l
  induction l with
  | nil => intro i; rfl
  | cons a t ih =>
    intro i
    cases i with
    | zero => rfl
    | succ k =>
      simp only [List.getD_cons_succ, List.set_cons_succ]
      rw [ih k]

theorem getD_map_lt {α β : Type} (f : α → β) (l : List α) (i : Nat) (d : α) (e : β)
    (h : i < l.length) : (l.map f).getD i e = f (l.getD i d) := by
  rw [List.getD_eq_getElem _ _ (by simpa using h), List.getD_eq_getElem _ _ h,
    List.getElem_map]

theorem swap_or_keep (j : Nat) (L : List Nat) (a b : Nat) (ha : L.getD j 0 = a)
    (hb : L.getD (j - 1) 0 = b) (hab : a ≤ b) :
    (L.set j b).set (j - 1) a = if a < b then (L.set j b).set (j - 1) a else L := by
  split_ifs with h
  · rfl
  · have e : a = b := by omega
    subst e
    calc (L.set j a).set (j - 1) a
        = (L.set j (L.getD j 0)).set (j - 1) (L.getD (j - 1) 0) := by rw [ha, hb]
      _ = L := by rw [set_getD_self, set_getD_self]

/-- One comparison of the sort commutes with taking threshold patterns (1 when
the strength reaches `t`, 0 below): on the patterns the same comparison runs
with the pattern itself as strength. -/
theorem SortByBst_step_threshold (env : Env) (t i j : Nat) (buf : List Nat) (h1 : 1 ≤ j)
    (hj : j < buf.length) :
    (SortByBst_step env i buf j).map
        (fun s => if t ≤ env.RoguePokedex_GetSpeciesBST s then 1 else 0)
      = SortByBst_step envBstId i
          (buf.map (fun s => if t ≤ env.RoguePokedex_GetSpeciesBST s then 1 else 0)) j := by
  have hj1 : j - 1 < buf.length := by omega
  have e1 := getD_map_lt
    (fun s => if t ≤ env.RoguePokedex_GetSpeciesBST s then 1 else 0) buf j 0 0 hj
  have e2 := getD_map_lt
    (fun s => if t ≤ env.RoguePokedex_GetSpeciesBST s then 1 else 0) buf (j - 1) 0 0 hj1
  simp only at e1 e2
  unfold SortByBst_step
  by_cases hij : i = j
  · rw [if_pos hij, if_pos hij]
  · rw [if_neg hij, if_neg hij, e1, e2]
    simp only [envBstId]
    by_cases hswap : env.RoguePokedex_GetSpeciesBST (buf.getD j 0)
        < env.RoguePokedex_GetSpeciesBST (buf.getD (j - 1) 0)
    · rw [if_pos hswap, List.map_set, List.map_set]
      apply swap_or_keep j _ _ _ e1 e2
      split_ifs <;> omega
    · rw [if_neg hswap, if_neg]
      split_ifs <;> omega

theorem SortByBst_threshold (env : Env) (t : Nat) (buf : List Nat) :
    (SortByBst env buf buf.length).map
        (fun s => if t ≤ env.RoguePokedex_GetSpeciesBST s then 1 else 0)
      = SortByBst envBstId
          (buf.map (fun s => if t ≤ env.RoguePokedex_GetSpeciesBST s then 1 else 0))
          buf.length := by
  unfold SortByBst
  generalize List.range buf.length = outer
  suffices hgen : ∀ (acc : List Nat), acc.length = buf.length →
      (outer.foldl
          (fun b i => (List.range' 1 (buf.length - 1)).foldl (SortByBst_step env i) b) acc).map
          (fun s => if t ≤ env.RoguePokedex_GetSpeciesBST s then 1 else 0)
        = outer.foldl
            (fun b i => (List.range' 1 (buf.length - 1)).foldl (SortByBst_step envBstId i) b)
            (acc.map (fun s => if t ≤ env.RoguePokedex_GetSpeciesBST s then 1 else 0)) from
    hgen buf rfl
  induction outer with
  | nil => intro acc _; rfl
  | cons i rest ih =>
    intro acc hacc
    simp only [List.foldl_cons]
    have inner : ∀ (js : List Nat), (∀ j ∈ js, 1 ≤ j ∧ j < buf.length) →
        ∀ (acc2 : List Nat), acc2.length = buf.length →
        (js.foldl (SortByBst_step env i) acc2).length = buf.length
          ∧ (js.foldl (SortByBst_step env i) acc2).map
              (fun s => if t ≤ env.RoguePokedex_GetSpeciesBST s then 1 else 0)
            = js.foldl (SortByBst_step envBstId i)
                (acc2.map (fun s => if t ≤ env.RoguePokedex_GetSpeciesBST s then 1 else 0)) := by
      intro js
      induction js with
      | nil => intro _ acc2 h2; exact ⟨h2, rfl⟩
      | cons j js ihj =>
        intro hjs acc2 h2
        simp only [List.foldl_cons]
        obtain ⟨hj1, hj2⟩ := hjs j (List.mem_cons_self _ _)
        have hlen : (SortByBst_step env i acc2 j).length = buf.length :=
          (SortByBst_step_perm env i j acc2 hj1 (by omega)).length_eq.trans h2
        obtain ⟨r1, r2⟩ := ihj (fun k hk => hjs k (List.mem_cons_of_mem _ hk)) _ hlen
        refine ⟨r1, ?_⟩
        rw [r2, SortByBst_step_threshold env t i j acc2 hj1 (by omega)]
    obtain ⟨r1, r2⟩ := inner (List.range' 1 (buf.length - 1))
      (fun j hj => by have := List.mem_range'_1.mp hj; omega) acc hacc
    rw [ih _ r1, r2]

set_option maxRecDepth 100000 in
/-- The sort puts every buffer of zeros and ones of length at most 5 in
ascending order: checked on all 63 of them. -/
theorem SortByBst_zero_one (l : List Nat) (hl : l.length ≤ 5) (h01 : ∀ x ∈ l, x = 0 ∨ x = 1) :
    ∀ j, j < 5 → 1 ≤ j → j < (SortByBst envBstId l l.length).length →
      (SortByBst envBstId l l.length).getD (j - 1) 0
        ≤ (SortByBst envBstId l l.length).getD j 0 := by
  rcases l with _ | ⟨a, _ | ⟨b, _ | ⟨c, _ | ⟨d, _ | ⟨e, _ | ⟨f, r⟩⟩⟩⟩⟩⟩
  · decide
  · rcases h01 a (by simp) with rfl | rfl <;> decide
  · rcases h01 a (by simp) with rfl | rfl <;> rcases h01 b (by simp) with rfl | rfl <;> decide
  · rcases h01 a (by simp) with rfl | rfl <;> rcases h01 b (by simp) with rfl | rfl <;>
      rcases h01 c (by simp) with rfl | rfl <;> decide
  · rcases h01 a (by simp) with rfl | rfl <;> rcases h01 b (by simp) with rfl | rfl <;>
      rcases h01 c (by simp) with rfl | rfl <;> rcases h01 d (by simp) with rfl | rfl <;> decide
  · rcases h01 a (by simp) with rfl | rfl <;> rcases h01 b (by simp) with rfl | rfl <;>
      rcases h01 c (by simp) with rfl | rfl <;> rcases h01 d (by simp) with rfl | rfl <;>
      rcases h01 e (by simp) with rfl | rfl <;> decide
  · simp only [List.length_cons] at hl
    omega

/-- C19. `SortByBst` sorts ascending by strength. For every strength function
and every species buffer of length `n ≤ 5`, the buffer after `SortByBst` is a
permutation of the input and the strength of entry `j - 1` is at most that of
entry `j` for every `1 ≤ j < n`, although each outer pass `i` skips the
comparison at `j = i`. -/
theorem SortByBst_sorts (env : Env) (speciesBuffer : List Nat)
    (hn : speciesBuffer.length ≤ 5) :
    (SortByBst env speciesBuffer speciesBuffer.length).Perm speciesBuffer
      ∧ ∀ j, 1 ≤ j → j < speciesBuffer.length →
          env.RoguePokedex_GetSpeciesBST
              ((SortByBst env speciesBuffer speciesBuffer.length).getD (j - 1) 0)
            ≤ env.RoguePokedex_GetSpeciesBST
                ((SortByBst env speciesBuffer speciesBuffer.length).getD j 0) := by
  refine ⟨SortByBst_perm env speciesBuffer, ?_⟩
  intro j h1 hj
  have hlen := SortByBst_length env speciesBuffer.length speciesBuffer
  generalize hout : SortByBst env speciesBuffer speciesBuffer.length = out at hlen ⊢
  generalize ht : env.RoguePokedex_GetSpeciesBST (out.getD (j - 1) 0) = t
  have hthr := SortByBst_threshold env t speciesBuffer
  rw [hout] at hthr
  have hsorted := SortByBst_zero_one
    (speciesBuffer.map (fun s => if t ≤ env.RoguePokedex_GetSpeciesBST s then 1 else 0))
    (by simpa using hn)
    (by
      intro x hx
      simp only [List.mem_map] at hx
      obtain ⟨s, -, rfl⟩ := hx
      split_ifs
      · exact Or.inr rfl
      · exact Or.inl rfl)
    j (by omega) h1
  simp only [List.length_map] at hsorted
  rw [← hthr] at hsorted
  have hs := hsorted (by simpa [hlen] using hj)
  rw [getD_map_lt _ out (j - 1) 0 0 (by omega), getD_map_lt _ out j 0 0 (by omega)] at hs
  simp only [ht, le_refl, if_true] at hs
  by_contra hcon
  rw [if_neg hcon] at hs
  omega

/-- C19, evaluated: five species whose strength is their number. -/
theorem SortByBst_sorts_witness :
    [50, 20, 40, 10, 30].length ≤ 5
      ∧ SortByBst envBstId [50, 20, 40, 10, 30] 5 = [10, 20, 30, 40, 50]
      ∧ (SortByBst envBstId [50, 20, 40, 10, 30] [50, 20, 40, 10, 30].length).Perm
          [50, 20, 40, 10, 30] :=
  ⟨by decide, by decide, (SortByBst_sorts envBstId [50, 20, 40, 10, 30] (by decide)).1⟩

/-! ## The starter move, the weakest-mon pick and the trick ban -/

/-- The scan of `SelectAndMoveStarterSpecies` after `m` entries: either every
score so far is 0 and the index still is the starter index, or the index is the
first one holding the highest score so far, which is positive. -/
theorem scan_spec (env : Env) (t : Nat) (prefer : Bool) (buf : List Nat) :
    ∀ m,
      ((SelectAndMoveStarterSpecies_scan env t prefer buf m).1 = RIVAL_STARTER_INDEX
          ∧ (SelectAndMoveStarterSpecies_scan env t prefer buf m).2 = 0
          ∧ ∀ k, k < m → SelectAndMoveStarterSpecies_score env t prefer (buf.getD k 0) = 0)
        ∨ ((SelectAndMoveStarterSpecies_scan env t prefer buf m).1 < m
          ∧ (SelectAndMoveStarterSpecies_scan env t prefer buf m).2
              = SelectAndMoveStarterSpecies_score env t prefer
                  (buf.getD (SelectAndMoveStarterSpecies_scan env t prefer buf m).1 0)
          ∧ 0 < (SelectAndMoveStarterSpecies_scan env t prefer buf m).2
          ∧ (∀ k, k < m → SelectAndMoveStarterSpecies_score env t prefer (buf.getD k 0)
              ≤ (SelectAndMoveStarterSpecies_scan env t prefer buf m).2)
          ∧ ∀ k, k < (SelectAndMoveStarterSpecies_scan env t prefer buf m).1 →
              SelectAndMoveStarterSpecies_score env t prefer (buf.getD k 0)
                < (SelectAndMoveStarterSpecies_scan env t prefer buf m).2) := by
  intro m
  induction m with
  | zero =>
    left
    exact ⟨rfl, rfl, fun k hk => absurd hk (Nat.not_lt_zero _)⟩
  | succ m ih =>
    have hstep : SelectAndMoveStarterSpecies_scan env t prefer buf (m + 1)
        = if SelectAndMoveStarterSpecies_score env t prefer (buf.getD m 0)
              > (SelectAndMoveStarterSpecies_scan env t prefer buf m).2
          then (m, SelectAndMoveStarterSpecies_score env t prefer (buf.getD m 0))
          else SelectAndMoveStarterSpecies_scan env t prefer buf m := by
      unfold SelectAndMoveStarterSpecies_scan
      rw [List.range_succ, List.foldl_append]
      rfl
    rw [hstep]
    generalize SelectAndMoveStarterSpecies_scan env t prefer buf m = best at ih ⊢
    generalize hsc : (fun k => SelectAndMoveStarterSpecies_score env t prefer (buf.getD k 0))
      = score at ih ⊢
    have hs : ∀ k, SelectAndMoveStarterSpecies_score env t prefer (buf.getD k 0) = score k := by
      intro k; rw [← hsc]
    simp only [hs] at ih ⊢
    by_cases hgt : score m > best.2
    · rw [if_pos hgt]
      right
      refine ⟨Nat.lt_succ_self m, rfl, by omega, ?_, ?_⟩
      · intro k hk
        rcases Nat.lt_succ_iff_lt_or_eq.mp hk with hk' | rfl
        · rcases ih with ⟨-, h2, h3⟩ | ⟨-, -, -, h4, -⟩
          · simp only [h3 k hk']; exact Nat.zero_le _
          · exact le_trans (h4 k hk') (le_of_lt hgt)
        · exact le_rfl
      · intro k hk
        simp only at hk ⊢
        rcases ih with ⟨-, h2, h3⟩ | ⟨-, -, -, h4, -⟩
        · rw [h3 k hk]; omega
        · exact lt_of_le_of_lt (h4 k hk) hgt
    · rw [if_neg hgt]
      rcases ih with ⟨h1, h2, h3⟩ | ⟨h1, h2, h3, h4, h5⟩
      · left
        refine ⟨h1, h2, ?_⟩
        intro k hk
        rcases Nat.lt_succ_iff_lt_or_eq.mp hk with hk' | rfl
        · exact h3 k hk'
        · omega
      · right
        refine ⟨by omega, h2, h3, ?_, h5⟩
        intro k hk
        rcases Nat.lt_succ_iff_lt_or_eq.mp hk with hk' | rfl
        · exact h4 k hk'
        · omega

/-- C13. `SelectAndMoveStarterSpecies` relocates the best species to the starter
index. For every buffer of `n ≥ 2` species (`n` within the 8-bit loop index),
with `score` the 16-bit score of the code, which without overflow is
`BST + 1000 * activeEvolutionCount`, replaced by 30000 for the trainer's
signature species when the 1-in-5 preference fired: there is an index `h < n`
such that the buffer afterwards is the input with the entries at 1 and `h`
exchanged (a permutation, every other position unchanged); index 1 then holds a
species of maximal score among the `n`; when an entry is moved (`h ≠ 1`) it is
the one at the lowest index holding the maximal score; and when nothing is moved
the entry at index 0 scores strictly less than the starter, unless every score
is 0. -/
theorem SelectAndMoveStarterSpecies_moves_best (env : Env) (trainerNum : Nat)
    (speciesBuffer : List Nat) (bufferSize : Nat) (rng : RngState) (prefer : Bool)
    (hn : 2 ≤ bufferSize) (_hindex : bufferSize ≤ 255) (hlen : bufferSize ≤ speciesBuffer.length)
    (hprefer : prefer = ((env.RogueRandom rng).1 % 5 == 0))
    (hscore : ∀ k, k < bufferSize →
      env.RoguePokedex_GetSpeciesBST (speciesBuffer.getD k 0)
        + 1000 * env.Rogue_GetActiveEvolutionCount (speciesBuffer.getD k 0) < 65536) :
    (∀ k, k < bufferSize →
        SelectAndMoveStarterSpecies_score env trainerNum prefer (speciesBuffer.getD k 0)
          = if (prefer && Rogue_IsValidTrainerShinySpecies env trainerNum
                (speciesBuffer.getD k 0)) = true then 30000
            else env.RoguePokedex_GetSpeciesBST (speciesBuffer.getD k 0)
              + 1000 * env.Rogue_GetActiveEvolutionCount (speciesBuffer.getD k 0))
      ∧ ∃ h, h < bufferSize
        ∧ (SelectAndMoveStarterSpecies env trainerNum speciesBuffer bufferSize rng).1
            = (speciesBuffer.set RIVAL_STARTER_INDEX (speciesBuffer.getD h 0)).set h
                (speciesBuffer.getD RIVAL_STARTER_INDEX 0)
        ∧ (SelectAndMoveStarterSpecies env trainerNum speciesBuffer bufferSize rng).1.Perm
            speciesBuffer
        ∧ (SelectAndMoveStarterSpecies env trainerNum speciesBuffer bufferSize rng).1.getD
              RIVAL_STARTER_INDEX 0 = speciesBuffer.getD h 0
        ∧ (SelectAndMoveStarterSpecies env trainerNum speciesBuffer bufferSize rng).1.getD h 0
            = speciesBuffer.getD RIVAL_STARTER_INDEX 0
        ∧ (∀ k, k ≠ RIVAL_STARTER_INDEX → k ≠ h →
            (SelectAndMoveStarterSpecies env trainerNum speciesBuffer bufferSize rng).1.getD k 0
              = speciesBuffer.getD k 0)
        ∧ (∀ k, k < bufferSize →
            SelectAndMoveStarterSpecies_score env trainerNum prefer (speciesBuffer.getD k 0)
              ≤ SelectAndMoveStarterSpecies_score env trainerNum prefer
                  ((SelectAndMoveStarterSpecies env trainerNum speciesBuffer bufferSize rng).1.getD
                    RIVAL_STARTER_INDEX 0))
        ∧ (h ≠ RIVAL_STARTER_INDEX → ∀ k, k < h →
            SelectAndMoveStarterSpecies_score env trainerNum prefer (speciesBuffer.getD k 0)
              < SelectAndMoveStarterSpecies_score env trainerNum prefer (speciesBuffer.getD h 0))
        ∧ (h = RIVAL_STARTER_INDEX →
            SelectAndMoveStarterSpecies_score env trainerNum prefer (speciesBuffer.getD 0 0)
                < SelectAndMoveStarterSpecies_score env trainerNum prefer
                    (speciesBuffer.getD RIVAL_STARTER_INDEX 0)
              ∨ ∀ k, k < bufferSize →
                SelectAndMoveStarterSpecies_score env trainerNum prefer
                  (speciesBuffer.getD k 0) = 0) := by
  have h1n : RIVAL_STARTER_INDEX < bufferSize := by unfold RIVAL_STARTER_INDEX; omega
  have h1len : RIVAL_STARTER_INDEX < speciesBuffer.length := by omega
  refine ⟨?_, ?_⟩
  · intro k hk
    unfold SelectAndMoveStarterSpecies_score
    split_ifs with hp
    · rfl
    · exact Nat.mod_eq_of_lt (hscore k hk)
  have hspec := scan_spec env trainerNum prefer speciesBuffer bufferSize
  have hlt := scan_index_lt env trainerNum prefer speciesBuffer bufferSize h1n
  have hout : (SelectAndMoveStarterSpecies env trainerNum speciesBuffer bufferSize rng).1
      = (speciesBuffer.set RIVAL_STARTER_INDEX
            (speciesBuffer.getD
              (SelectAndMoveStarterSpecies_scan env trainerNum prefer speciesBuffer
                bufferSize).1 0)).set
          (SelectAndMoveStarterSpecies_scan env trainerNum prefer speciesBuffer bufferSize).1
          (speciesBuffer.getD RIVAL_STARTER_INDEX 0) := by
    unfold SelectAndMoveStarterSpecies
    simp only [← hprefer]
    split_ifs with hh
    · rfl
    · have e : (SelectAndMoveStarterSpecies_scan env trainerNum prefer speciesBuffer
          bufferSize).1 = RIVAL_STARTER_INDEX := not_not.mp hh
      rw [e, set_getD_self, set_getD_self]
  generalize (SelectAndMoveStarterSpecies_scan env trainerNum prefer speciesBuffer bufferSize)
    = best at hspec hlt hout
  generalize (SelectAndMoveStarterSpecies env trainerNum speciesBuffer bufferSize rng).1
    = out at hout
  have hh_len : best.1 < speciesBuffer.length := by omega
  have g1 : out.getD RIVAL_STARTER_INDEX 0 = speciesBuffer.getD best.1 0 := by
    rw [hout]
    by_cases e : best.1 = RIVAL_STARTER_INDEX
    · rw [e, set_getD_self, getD_set_self _ _ _ _ h1len]
    · rw [getD_set_ne _ _ _ _ _ e, getD_set_self _ _ _ _ h1len]
  have g2 : out.getD best.1 0 = speciesBuffer.getD RIVAL_STARTER_INDEX 0 := by
    rw [hout]
    exact getD_set_self _ _ _ _ (by simpa using hh_len)
  refine ⟨best.1, hlt, hout, ?_, g1, g2, ?_, ?_, ?_, ?_⟩
  · rw [hout]
    exact swap_perm 0 speciesBuffer RIVAL_STARTER_INDEX best.1 h1len hh_len
  · intro k hk1 hkh
    rw [hout, getD_set_ne _ _ _ _ _ (Ne.symm hkh), getD_set_ne _ _ _ _ _ (Ne.symm hk1)]
  · intro k hk
    rw [g1]
    rcases hspec with ⟨-, -, h3⟩ | ⟨-, h2, -, h4, -⟩
    · rw [h3 k hk]; exact Nat.zero_le _
    · rw [← h2]; exact h4 k hk
  · intro hne k hk
    rcases hspec with ⟨h1, -, -⟩ | ⟨-, h2, -, -, h5⟩
    · exact absurd h1 hne
    · rw [← h2]; exact h5 k hk
  · intro he
    rcases hspec with ⟨-, -, h3⟩ | ⟨-, h2, -, -, h5⟩
    · exact Or.inr h3
    · left
      rw [← he, ← h2]
      exact h5 0 (by rw [he]; decide)

set_option maxRecDepth 100000 in
/-- C13, evaluated on the rival of `envRival` with the caller's stream at 1 (the
preference does not fire): the strongest species 80 moves from index 4 to the
starter index. -/
theorem SelectAndMoveStarterSpecies_moves_best_witness :
    (2 : Nat) ≤ 5 ∧ (5 : Nat) ≤ 255 ∧ 5 ≤ [20, 40, 50, 60, 80].length
      ∧ false = ((envRival.RogueRandom { gRngRogueValue := 1 }).1 % 5 == 0)
      ∧ (SelectAndMoveStarterSpecies envRival 0 [20, 40, 50, 60, 80] 5
            { gRngRogueValue := 1 }).1 = [20, 80, 50, 60, 40]
      ∧ ∀ k, k < 5 →
          SelectAndMoveStarterSpecies_score envRival 0 false ([20, 40, 50, 60, 80].getD k 0)
            = if (false && Rogue_IsValidTrainerShinySpecies envRival 0
                  ([20, 40, 50, 60, 80].getD k 0)) = true then 30000
              else envRival.RoguePokedex_GetSpeciesBST ([20, 40, 50, 60, 80].getD k 0)
                + 1000 * envRival.Rogue_GetActiveEvolutionCount
                    ([20, 40, 50, 60, 80].getD k 0) :=
  ⟨by decide, by decide, by decide, by decide, by decide,
    (SelectAndMoveStarterSpecies_moves_best envRival 0 [20, 40, 50, 60, 80] 5
      { gRngRogueValue := 1 } false (by decide) (by decide) (by decide) (by decide)
      (by decide)).1⟩

set_option maxRecDepth 100000 in
/-- C18, at the failing input: the roster `worldBase` holds after the base pass,
with its first entry already removed, strengths equal to the species numbers.
`SelectRivalWeakestMon` returns index 2 (strength 50) although index 4 holds the
non-starter species of lowest strength (40): the loop compares `currBst` with
`lowestBstIdx`, the index found so far, and `lowestBst` is never written, so the
first non-empty entry off the starter index is returned. On the full roster it
returns index 0 for the same reason. -/
theorem SelectRivalWeakestMon_returns_first_entry :
    worldBase.gRogueRun.rivalSpecies.take 5 = [20, 80, 50, 60, 40]
      ∧ SelectRivalWeakestMon envRival [20, 80, 50, 60, 40] 5 = 0
      ∧ SelectRivalWeakestMon envRival [0, 80, 50, 60, 40] 5 = 2
      ∧ [0, 80, 50, 60, 40].getD 4 0 ≠ SPECIES_NONE
      ∧ 4 ≠ RIVAL_STARTER_INDEX
      ∧ envRival.RoguePokedex_GetSpeciesBST ([0, 80, 50, 60, 40].getD 4 0)
          < envRival.RoguePokedex_GetSpeciesBST ([0, 80, 50, 60, 40].getD 2 0) :=
  ⟨by decide, by decide, by decide, by decide, by decide, by decide⟩

/-- C20, at the failing input: a vanilla build and a preset holding leftovers
with `MOVE_TRICK` in its first slot. The loop body of `MonPresetReplaceMove` is
the comparison `preset->moves[i] == toMove`, so no slot is written and
`MOVE_TRICK` is still there after `ModifyTrainerMonPreset`; the function has no
`return`, and `allowMissingMoves` ends up as whatever value the caller reads
back, set for one value and clear for the other. -/
theorem ModifyTrainerMonPreset_keeps_trick :
    (envVanilla false).ROGUE_EXPANSION = false
      ∧ (envVanilla false).MOVE_TRICK ∈ presetTrick.moves
      ∧ (ModifyTrainerMonPreset (envVanilla false) {} 0 presetTrick {}).1.moves
          = [271, 33, 0, 0]
      ∧ (ModifyTrainerMonPreset (envVanilla true) {} 0 presetTrick {}).1.moves
          = [271, 33, 0, 0]
      ∧ (ModifyTrainerMonPreset (envVanilla false) {} 0 presetTrick {}).2.allowMissingMoves
          = false
      ∧ (ModifyTrainerMonPreset (envVanilla true) {} 0 presetTrick {}).2.allowMissingMoves
          = true :=
  ⟨by decide, by decide, by decide, by decide, by decide, by decide⟩

/-! ## Item evolutions, generic party size, and the fallback counter per draw -/

/-- C28. For a scratch whose `allowItemEvos` is still `FALSE` (as both callers
set it), `ConfigurePartyScratchSettings` sets it exactly for tier 8 and above on
easy, tier 4 and above on medium, tiers 2 to 4 on hard and tier 1 on brutal. So
item evolutions are off on hard from tier 5, on brutal from tier 2 and at tier
0, while medium has them on at every tier from 4. -/
theorem allowItemEvos_window (env : Env) (w : World) (scratch : TrainerPartyScratch)
    (hinit : scratch.allowItemEvos = false) :
    ((ConfigurePartyScratchSettings env w scratch).allowItemEvos = true ↔
        (env.configRangeTrainer = DIFFICULTY_LEVEL_EASY ∧ 8 ≤ Rogue_GetCurrentDifficulty w)
          ∨ (env.configRangeTrainer = DIFFICULTY_LEVEL_MEDIUM ∧ 4 ≤ Rogue_GetCurrentDifficulty w)
          ∨ (env.configRangeTrainer = DIFFICULTY_LEVEL_HARD
              ∧ 2 ≤ Rogue_GetCurrentDifficulty w ∧ Rogue_GetCurrentDifficulty w ≤ 4)
          ∨ (env.configRangeTrainer = DIFFICULTY_LEVEL_BRUTAL ∧ Rogue_GetCurrentDifficulty w = 1))
      ∧ (env.configRangeTrainer = DIFFICULTY_LEVEL_HARD → 5 ≤ Rogue_GetCurrentDifficulty w →
          (ConfigurePartyScratchSettings env w scratch).allowItemEvos = false)
      ∧ (env.configRangeTrainer = DIFFICULTY_LEVEL_BRUTAL →
          (2 ≤ Rogue_GetCurrentDifficulty w ∨ Rogue_GetCurrentDifficulty w = 0) →
          (ConfigurePartyScratchSettings env w scratch).allowItemEvos = false)
      ∧ (env.configRangeTrainer = DIFFICULTY_LEVEL_MEDIUM → 4 ≤ Rogue_GetCurrentDifficulty w →
          (ConfigurePartyScratchSettings env w scratch).allowItemEvos = true) := by
  unfold ConfigurePartyScratchSettings DIFFICULTY_LEVEL_EASY DIFFICULTY_LEVEL_MEDIUM
    DIFFICULTY_LEVEL_HARD DIFFICULTY_LEVEL_BRUTAL
  simp only []
  generalize Rogue_GetCurrentDifficulty w = d
  refine ⟨?_, ?_, ?_, ?_⟩
  · split_ifs <;> simp_all <;> omega
  · intro h1 h2
    split_ifs <;> simp_all
  · intro h1 h2
    split_ifs <;> simp_all
  · intro h1 h2
    split_ifs <;> simp_all

/-- On hard at tier 5 the scratch set up by `CreateTrainerPartyInternal` has item
evolutions off. -/
theorem allowItemEvos_window_witness :
    (ConfigurePartyScratchSettings envHardBoss { currentDifficulty := 5 } {}).allowItemEvos
      = false :=
  (allowItemEvos_window envHardBoss { currentDifficulty := 5 } {} rfl).2.1 rfl (by decide)

/-- C30. For a generic trainer at a level other than 1, with room for four mons
and a random source that stays below its bound, `CalculatePartyMonCount` returns
a size from the low end of the band up to one below its top: exactly 1 at tiers
0 and 1, 1 or 2 at tier 2, 2 or 3 at tiers 3 to 11, exactly 3 from tier 12. -/
theorem CalculatePartyMonCount_generic_below_top (env : Env) (w : World)
    (trainerNum monCapacity monLevel : Nat)
    (hgen : Rogue_IsKeyTrainer env trainerNum = false) (hlvl : monLevel ≠ 1)
    (hcap : 4 ≤ monCapacity)
    (hrange : ∀ n flag rng, 0 < n → (env.RogueRandomRange n flag rng).1 < n) :
    ∃ n w', CalculatePartyMonCount env w trainerNum monCapacity monLevel = some (n, w')
      ∧ (Rogue_GetCurrentDifficulty w ≤ 1 → n = 1)
      ∧ (Rogue_GetCurrentDifficulty w = 2 → 1 ≤ n ∧ n ≤ 2)
      ∧ (3 ≤ Rogue_GetCurrentDifficulty w → Rogue_GetCurrentDifficulty w ≤ 11 → 2 ≤ n ∧ n ≤ 3)
      ∧ (12 ≤ Rogue_GetCurrentDifficulty w → n = 3) := by
  have r1 := hrange 1 env.FLAG_SET_SEED_TRAINERS w.rng (by decide)
  have r2 := hrange 2 env.FLAG_SET_SEED_TRAINERS w.rng (by decide)
  unfold CalculatePartyMonCount ROGUE_CHAMP_START_DIFFICULTY
  simp only [if_neg hlvl, hgen, Bool.false_eq_true, if_false]
  generalize Rogue_GetCurrentDifficulty w = d
  refine ⟨_, _, rfl, ?_, ?_, ?_, ?_⟩
  · intro hd
    simp only [if_pos hd] at r1 ⊢
    simp only [Nat.add_one_sub_one] at r1 ⊢
    have e : (env.RogueRandomRange 1 env.FLAG_SET_SEED_TRAINERS w.rng).1 = 0 := by omega
    rw [e]
    simp only [toU8]
    omega
  · intro hd
    subst hd
    simp only [show ¬ (2 ≤ 1) by decide, if_false, le_refl, if_true]
    simp only [show 3 - 1 = 2 by rfl]
    generalize (env.RogueRandomRange 2 env.FLAG_SET_SEED_TRAINERS w.rng).1 = r at r2 ⊢
    interval_cases r <;> simp [toU8] <;> omega
  · intro h3 h11
    simp only [show ¬ (d ≤ 1) by omega, show ¬ (d ≤ 2) by omega, show d ≤ 12 - 1 by omega,
      if_false, if_true]
    simp only [show 4 - 2 = 2 by rfl]
    generalize (env.RogueRandomRange 2 env.FLAG_SET_SEED_TRAINERS w.rng).1 = r at r2 ⊢
    interval_cases r <;> simp [toU8] <;> omega
  · intro h12
    simp only [show ¬ (d ≤ 1) by omega, show ¬ (d ≤ 2) by omega, show ¬ (d ≤ 12 - 1) by omega,
      if_false]
    simp only [show 4 - 3 = 1 by rfl]
    have e : (env.RogueRandomRange 1 env.FLAG_SET_SEED_TRAINERS w.rng).1 = 0 := by omega
    rw [e]
    simp only [toU8]
    omega

/-- C30, evaluated on `envTopRoll`, whose random source returns the largest
value it may: at tier 5 the size is 3, one below the top of the band. -/
theorem CalculatePartyMonCount_generic_below_top_witness :
    Rogue_IsKeyTrainer envTopRoll 0 = false
      ∧ CalculatePartyMonCount envTopRoll { currentDifficulty := 5 } 0 6 40
          = some (3, { currentDifficulty := 5 })
      ∧ ∃ n w', CalculatePartyMonCount envTopRoll { currentDifficulty := 5 } 0 6 40 = some (n, w')
          ∧ (Rogue_GetCurrentDifficulty { currentDifficulty := 5 } ≤ 1 → n = 1)
          ∧ (Rogue_GetCurrentDifficulty { currentDifficulty := 5 } = 2 → 1 ≤ n ∧ n ≤ 2)
          ∧ (3 ≤ Rogue_GetCurrentDifficulty { currentDifficulty := 5 } →
              Rogue_GetCurrentDifficulty { currentDifficulty := 5 } ≤ 11 → 2 ≤ n ∧ n ≤ 3)
          ∧ (12 ≤ Rogue_GetCurrentDifficulty { currentDifficulty := 5 } → n = 3) :=
  ⟨by decide, by decide,
    CalculatePartyMonCount_generic_below_top envTopRoll { currentDifficulty := 5 } 0 6 40
      (by decide) (by decide) (by decide) (fun _ _ _ h => Nat.sub_lt h (by decide))⟩

/-- C25, as stated, fails for a successful draw: in fallback mode at depth 3 (no
subsets, one candidate in the query) the pass returns species 25 and leaves the
counter at 4. -/
theorem fallbackCount_grows_on_successful_draw :
    (envEasy.gRogueTrainers 0).teamGenerator.subsetCount = 0
      ∧ SampleNextSpecies_iter envEasy 1 { fallbackCount := 3 } { monQuery := [25] }
          = some (some 25, { fallbackCount := 4, shouldRegenerateQuery := true },
              { monQuery := [25] }) := by
  decide

/-- C25 (amended). In fallback mode (the cursor past the last subset, the
counter between 1 and 254) every pass through the loop body, whether its draw
fails or yields a species, raises `fallbackCount` by exactly 1 and requests a
query rebuild; the pass returns a species exactly when the draw yields one. -/
theorem fallbackCount_grows_on_every_draw (env : Env) (fuel : Nat)
    (s s' : TrainerPartyScratch) (w w' : World) (r : Option Nat)
    (hidx : (env.gRogueTrainers s.trainerNum).teamGenerator.subsetCount ≤ s.subsetIndex)
    (h0 : 0 < s.fallbackCount) (h255 : s.fallbackCount < 255)
    (h : SampleNextSpecies_iter env fuel s w = some (r, s', w')) :
    s'.fallbackCount = s.fallbackCount + 1 ∧ s'.shouldRegenerateQuery = true
      ∧ ∃ species s1,
          SampleNextSpeciesInternal env fuel (SampleNextSpecies_forceLegends env w s) w
            = some (species, s1, w')
          ∧ r = if species = SPECIES_NONE then none else some species := by
  unfold SampleNextSpecies_iter at h
  split at h
  · exact absurd h (by simp)
  · rename_i sp s1 w1 hint
    simp only [Option.some.injEq, Prod.mk.injEq] at h
    obtain ⟨hr, hs', hw'⟩ := h
    subst hw'
    obtain ⟨hs1, -, -⟩ := SampleNextSpeciesInternal_spec env fuel _ _ _ _ _ hint
    obtain ⟨f1, f2, f3, f4, f5, f6, f7⟩ := forceLegends_fields env w s
    have e1 : s1.trainerNum = s.trainerNum := by rw [hs1]; exact f3
    have e2 : s1.subsetIndex = s.subsetIndex := by rw [hs1]; exact f5
    have e3 : s1.fallbackCount = s.fallbackCount := by rw [hs1]; exact f7
    have hn : ¬ (s1.subsetIndex < (env.gRogueTrainers s1.trainerNum).teamGenerator.subsetCount) := by
      rw [e1, e2]; omega
    have hn255 : ¬ (s1.fallbackCount = 255) := by omega
    have hn0 : s1.fallbackCount ≠ 0 := by omega
    have key : SampleNextSpecies_afterDraw env sp s1
        = (if sp = SPECIES_NONE then none else some sp,
            { (if sp = SPECIES_NONE then { s1 with subsetSampleCount := 128 } else s1) with
              fallbackCount := (s1.fallbackCount + 1) % 256
              shouldRegenerateQuery := true }) := by
      unfold SampleNextSpecies_afterDraw
      by_cases hsp : sp = SPECIES_NONE
      · simp only [hsp, if_true, if_neg hn, if_neg hn255, if_pos hn0]
      · simp only [hsp, if_false, if_neg hn, if_neg hn255, if_pos hn0]
    rw [key] at hr hs'
    simp only at hr hs'
    subst hs'
    refine ⟨?_, rfl, sp, s1, hint, hr.symm⟩
    simp only
    omega

/-- C25 (amended), evaluated on `envEasy`: the successful draw at depth 3. -/
theorem fallbackCount_grows_on_every_draw_witness :
    SampleNextSpecies_iter envEasy 1 { fallbackCount := 3 } { monQuery := [25] }
        = some (some 25, { fallbackCount := 4, shouldRegenerateQuery := true },
            { monQuery := [25] })
      ∧ ({ fallbackCount := 4, shouldRegenerateQuery := true } : TrainerPartyScratch).fallbackCount
          = ({ fallbackCount := 3 } : TrainerPartyScratch).fallbackCount + 1
      ∧ ({ fallbackCount := 4, shouldRegenerateQuery := true } :
            TrainerPartyScratch).shouldRegenerateQuery = true :=
  ⟨by decide,
    (fallbackCount_grows_on_every_draw envEasy 1 { fallbackCount := 3 }
      { fallbackCount := 4, shouldRegenerateQuery := true } { monQuery := [25] }
      { monQuery := [25] } (some 25) (by decide) (by decide) (by decide) (by decide)).1,
    (fallbackCount_grows_on_every_draw envEasy 1 { fallbackCount := 3 }
      { fallbackCount := 4, shouldRegenerateQuery := true } { monQuery := [25] }
      { monQuery := [25] } (some 25) (by decide) (by decide) (by decide) (by decide)).2.1⟩

/-! ## The forced-legendary override -/

theorem afterDraw_forceLegends (env : Env) (sp : Nat) (s : TrainerPartyScratch) :
    (SampleNextSpecies_afterDraw env sp s).2.forceLegends = s.forceLegends
      ∧ (SampleNextSpecies_afterDraw env sp s).2.partyCount = s.partyCount := by
  unfold SampleNextSpecies_afterDraw SampleNextSpecies_advanceSubset
  simp only
  split_ifs <;> simp

set_option maxRecDepth 100000 in
/-- C24, as stated, fails on `envFinalBoss` at tier 13: after the first five slots
(the fifth, `partyCount` 4, forced to a legendary) the scratch has `partyCount`
5, a subset left and `forceLegends` set; the loop body leaves the flag set, the
query still holds legendaries only, and the sixth slot draws the legendary 145. -/
theorem forceLegends_still_set_for_last_slot :
    Rogue_IsBossTrainer envFinalBoss 0 = true
      ∧ Rogue_GetCurrentDifficulty worldFinal = ROGUE_MAX_BOSS_COUNT - 1
      ∧ (CreateTrainerPartyInternal_fill envFinalBoss 4 0 100 0 6 5 0
            (CreateTrainerPartyInternal_scratch envFinalBoss worldFinal {} 0
              (List.replicate 6 {}) 6 0 100) worldFinal).map
          (fun r => (r.1.party.map (fun mon => mon.species), r.1.partyCount, r.1.subsetIndex,
            (SampleNextSpecies_forceLegends envFinalBoss r.2 r.1).forceLegends, r.2.monQuery))
          = some ([10, 20, 30, 40, 144, 0], 5, 0, true, [144, 145, 146])
      ∧ ((CreateTrainerPartyInternal_fill envFinalBoss 4 0 100 0 6 5 0
            (CreateTrainerPartyInternal_scratch envFinalBoss worldFinal {} 0
              (List.replicate 6 {}) 6 0 100) worldFinal).bind
          (fun r => SampleNextSpecies envFinalBoss 4 4 r.1 r.2)).map
          (fun r => (r.1, r.2.1.forceLegends))
          = some (145, true) := by
  decide

/-- C24 (amended). For a boss or rival at the maximum tier whose subsets are not
exhausted, the loop body of `SampleNextSpecies` sets `forceLegends` and requests
a query rebuild when `partyCount` is 4, and the pass ends with the flag still
set; at any other `partyCount`, 5 included, the body leaves the scratch as it
is, so the last slot is sampled with the flag the fifth slot left set. -/
theorem forceLegends_kept_at_max_tier (env : Env) (fuel : Nat) (w : World)
    (s : TrainerPartyScratch)
    (hboss : Rogue_IsBossTrainer env s.trainerNum = true
      ∨ Rogue_IsRivalTrainer env s.trainerNum = true)
    (htier : Rogue_GetCurrentDifficulty w = ROGUE_MAX_BOSS_COUNT - 1)
    (hidx : s.subsetIndex < (env.gRogueTrainers s.trainerNum).teamGenerator.subsetCount) :
    (s.partyCount = 4 →
        SampleNextSpecies_forceLegends env w s
            = { s with forceLegends := true, shouldRegenerateQuery := true }
          ∧ ∀ r s' w', SampleNextSpecies_iter env fuel s w = some (r, s', w') →
              s'.forceLegends = true ∧ s'.partyCount = 4)
      ∧ (s.partyCount ≠ 4 → SampleNextSpecies_forceLegends env w s = s) := by
  have hb : Rogue_IsBossTrainer env s.trainerNum = true
      ∨ Rogue_IsRivalTrainer env s.trainerNum = true := hboss
  have e4 : s.partyCount = 4 →
      SampleNextSpecies_forceLegends env w s
        = { s with forceLegends := true, shouldRegenerateQuery := true } := by
    intro h4
    unfold SampleNextSpecies_forceLegends
    simp only [if_pos (And.intro hidx hb), if_pos (And.intro htier h4)]
  refine ⟨fun h4 => ⟨e4 h4, ?_⟩, ?_⟩
  · intro r s' w' h
    unfold SampleNextSpecies_iter at h
    split at h
    · exact absurd h (by simp)
    · rename_i sp s1 w1 hint
      simp only [Option.some.injEq, Prod.mk.injEq] at h
      obtain ⟨-, hs', -⟩ := h
      obtain ⟨hs1, -, -⟩ := SampleNextSpeciesInternal_spec env fuel _ _ _ _ _ hint
      obtain ⟨a1, a2⟩ := afterDraw_forceLegends env sp s1
      rw [← hs', a1, a2, hs1, e4 h4]
      exact ⟨rfl, h4⟩
  · intro h4
    have h12 : ¬ (Rogue_GetCurrentDifficulty w = ROGUE_MAX_BOSS_COUNT - 2 ∧ s.partyCount = 5) := by
      rw [htier]; intro h; exact absurd h.1 (by decide)
    unfold SampleNextSpecies_forceLegends
    simp only [if_pos (And.intro hidx hb), h4, and_false, if_false, if_neg h12]

/-- C24 (amended), evaluated on `envFinalBoss` at tier 13 for a scratch at
`partyCount` 5 with `forceLegends` set: the loop body leaves it set. -/
theorem forceLegends_kept_at_max_tier_witness :
    SampleNextSpecies_forceLegends envFinalBoss worldFinal { partyCount := 5, forceLegends := true }
      = { partyCount := 5, forceLegends := true } :=
  (forceLegends_kept_at_max_tier envFinalBoss 4 worldFinal { partyCount := 5, forceLegends := true }
    (Or.inl (by decide)) (by decide) (by decide)).2 (by decide)

/-! ## A trainer without subsets: the fallback depth of every slot -/

/-- The candidates left in the query by the draw: filtered for similar species
below fallback depth 10, untouched from depth 10 on. -/
theorem draw_query (env : Env) (s : TrainerPartyScratch) (w : World) :
    (SampleNextSpeciesInternal_draw env s w).2.2.monQuery
      = if s.fallbackCount < 10 then
          w.monQuery.filter (fun elem => FilterOutDuplicateMons env w s elem)
        else w.monQuery := by
  unfold SampleNextSpeciesInternal_draw
  simp only
  split_ifs <;> rfl

/-- A call of `SampleNextSpecies` for a trainer without subsets whose first draw
yields a species: the draw is made one step deeper than the scratch came in,
and the scratch leaves two steps deeper. -/
theorem SampleNextSpecies_no_subsets (env : Env) (fuel n : Nat) (s : TrainerPartyScratch)
    (w : World) (sp : Nat) (s1 : TrainerPartyScratch) (w1 : World)
    (hsub : (env.gRogueTrainers s.trainerNum).teamGenerator.subsetCount = 0)
    (hfc : s.fallbackCount ≤ 252)
    (hdraw : SampleNextSpeciesInternal env fuel
        (SampleNextSpecies_forceLegends env w (SampleNextSpecies_enter env s)) w = some (sp, s1, w1))
    (hsp : sp ≠ SPECIES_NONE) :
    (SampleNextSpecies_forceLegends env w (SampleNextSpecies_enter env s)).fallbackCount
        = s.fallbackCount + 1
      ∧ ∃ s', SampleNextSpecies env fuel (n + 1) s w = some (sp, s', w1)
          ∧ s'.fallbackCount = s.fallbackCount + 2 ∧ s'.trainerNum = s.trainerNum := by
  obtain ⟨f1, f2, f3, f4, f5, f6, f7⟩ := forceLegends_fields env w (SampleNextSpecies_enter env s)
  have hent : SampleNextSpecies_enter env s
      = { s with fallbackCount := (s.fallbackCount + 1) % 256 } := by
    unfold SampleNextSpecies_enter
    simp only [hsub, if_true]
  have g1 : (SampleNextSpecies_forceLegends env w (SampleNextSpecies_enter env s)).fallbackCount
      = s.fallbackCount + 1 := by
    rw [f7, hent]
    simp only
    omega
  have g2 : (SampleNextSpecies_forceLegends env w (SampleNextSpecies_enter env s)).trainerNum
      = s.trainerNum := by rw [f3, hent]
  obtain ⟨hs1, -, -⟩ := SampleNextSpeciesInternal_spec env fuel _ _ _ _ _ hdraw
  have e1 : s1.trainerNum = s.trainerNum := by rw [hs1]; exact g2
  have e3 : s1.fallbackCount = s.fallbackCount + 1 := by rw [hs1]; exact g1
  have hn : ¬ (s1.subsetIndex < (env.gRogueTrainers s1.trainerNum).teamGenerator.subsetCount) := by
    rw [e1, hsub]; omega
  have hn255 : ¬ (s1.fallbackCount = 255) := by omega
  have hn0 : s1.fallbackCount ≠ 0 := by omega
  have key : SampleNextSpecies_afterDraw env sp s1
      = (some sp, { s1 with fallbackCount := (s1.fallbackCount + 1) % 256
                            shouldRegenerateQuery := true }) := by
    unfold SampleNextSpecies_afterDraw
    simp only [hsp, if_false, if_neg hn, if_neg hn255, if_pos hn0]
  refine ⟨g1, { s1 with fallbackCount := (s1.fallbackCount + 1) % 256
                        shouldRegenerateQuery := true }, ?_, ?_, ?_⟩
  · unfold SampleNextSpecies SampleNextSpecies_loop SampleNextSpecies_iter
    simp only [hdraw, key]
  · simp only
    omega
  · exact e1

theorem shiny_fallback (env : Env) (t species i : Nat) (s : TrainerPartyScratch) (w : World) :
    (CreateTrainerPartyInternal_shiny env t species i s w).1.fallbackCount = s.fallbackCount
      ∧ (CreateTrainerPartyInternal_shiny env t species i s w).1.trainerNum = s.trainerNum := by
  unfold CreateTrainerPartyInternal_shiny
  split
  · simp only
    split <;> exact ⟨rfl, rfl⟩
  · exact ⟨rfl, rfl⟩

theorem preset_fallback (env : Env) (t level species monCount i : Nat)
    (s s' : TrainerPartyScratch) (w w' : World)
    (h : CreateTrainerPartyInternal_preset env t level species monCount i s w = some (s', w')) :
    s'.fallbackCount = s.fallbackCount ∧ s'.trainerNum = s.trainerNum := by
  unfold CreateTrainerPartyInternal_preset at h
  split at h
  · split at h
    · exact absurd h (by simp)
    · rename_i s1 w1 hsel
      simp only [Option.some.injEq, Prod.mk.injEq] at h
      obtain ⟨h1, -⟩ := h
      subst h1
      obtain ⟨⟨hi, hs1⟩, -⟩ := SelectNextPreset_facts env s s1 species i w w1 none hsel
      subst hs1
      exact ⟨rfl, rfl⟩
    · rename_i preset s1 w1 hsel
      simp only [Option.some.injEq, Prod.mk.injEq] at h
      obtain ⟨h1, -⟩ := h
      subst h1
      obtain ⟨⟨hi, hs1⟩, -⟩ := SelectNextPreset_facts env s s1 species i w w1 _ hsel
      subst hs1
      exact ⟨rfl, rfl⟩
  · simp only [Option.some.injEq, Prod.mk.injEq] at h
    obtain ⟨h1, -⟩ := h
    subst h1
    exact ⟨rfl, rfl⟩

/-- The part of a slot after the sampling leaves the fallback counter alone. -/
theorem slot_fallback (env : Env) (fuel t level iv monCount i : Nat)
    (s s' : TrainerPartyScratch) (w w' : World)
    (h : CreateTrainerPartyInternal_slot env fuel t level iv monCount i s w = some (s', w')) :
    ∃ sp s0 w0, SampleNextSpecies env fuel fuel s w = some (sp, s0, w0)
      ∧ s'.fallbackCount = s0.fallbackCount ∧ s'.trainerNum = s0.trainerNum := by
  unfold CreateTrainerPartyInternal_slot at h
  split at h
  · exact absurd h (by simp)
  · rename_i sp s0 w0 hsam
    refine ⟨sp, s0, w0, hsam, ?_⟩
    simp only at h
    split at h
    · exact absurd h (by simp)
    · rename_i s2 w2 hpre
      simp only [Option.some.injEq, Prod.mk.injEq] at h
      obtain ⟨h1, -⟩ := h
      subst h1
      obtain ⟨p1, p2⟩ := preset_fallback env t level sp monCount i _ _ _ _ hpre
      obtain ⟨q1, q2⟩ := shiny_fallback env t sp i
        { s0 with
          party :=
            s0.party.set i (CreateMon sp (if env.DEBUG_TOGGLE_TRAINER_LVL_5 then 5 else level) iv) }
        { w0 with rng := env.CreateMon_rng w0.rng }
      simp only at q1 q2 ⊢
      exact ⟨p1.trans q1, p2.trans q2⟩

theorem fill_no_subsets (env : Env) (fuel t level iv monCount : Nat) :
    ∀ (k i : Nat) (s sk : TrainerPartyScratch) (w wk : World),
      (env.gRogueTrainers s.trainerNum).teamGenerator.subsetCount = 0 →
      s.fallbackCount + 2 * k ≤ 254 →
      CreateTrainerPartyInternal_fill env fuel t level iv monCount k i s w = some (sk, wk) →
      CreateTrainerPartyInternal_firstDrawsSucceed env fuel t level iv monCount k i s w = true →
      sk.fallbackCount = s.fallbackCount + 2 * k ∧ sk.trainerNum = s.trainerNum := by
  intro k
  induction k with
  | zero =>
    intro i s sk w wk _ _ h _
    simp only [CreateTrainerPartyInternal_fill, Option.some.injEq, Prod.mk.injEq] at h
    rw [← h.1]
    exact ⟨rfl, rfl⟩
  | succ k ih =>
    intro i s sk w wk hsub hfc h hd
    unfold CreateTrainerPartyInternal_fill at h
    unfold CreateTrainerPartyInternal_firstDrawsSucceed at hd
    split at h
    · exact absurd h (by simp)
    · rename_i s1 w1 hslot
      split at hd
      · exact absurd hd (by simp)
      · rename_i sp sd wd hdraw
        simp only [hslot, Bool.and_eq_true, bne_iff_ne, ne_eq] at hd
        obtain ⟨hsp, hrest⟩ := hd
        obtain ⟨sp0, s0, w0, hsam, e1, e2⟩ := slot_fallback env fuel t level iv monCount i _ _ _ _ hslot
        have hfuel : fuel ≠ 0 := by
          intro h0
          rw [h0] at hsam
          simp [SampleNextSpecies, SampleNextSpecies_loop] at hsam
        obtain ⟨n, hn⟩ := Nat.exists_eq_succ_of_ne_zero hfuel
        obtain ⟨-, s0', hsam', g1, g2⟩ :=
          SampleNextSpecies_no_subsets env fuel n s w sp sd wd hsub (by omega) hdraw hsp
        rw [hn] at hsam
        rw [← Nat.succ_eq_add_one, ← hn] at hsam'
        rw [← hn] at hsam
        rw [hsam'] at hsam
        simp only [Option.some.injEq, Prod.mk.injEq] at hsam
        obtain ⟨-, hs0, -⟩ := hsam
        subst hs0
        have t1 : s1.trainerNum = s.trainerNum := e2.trans g2
        have f1 : s1.fallbackCount = s.fallbackCount + 2 := e1.trans g1
        obtain ⟨r1, r2⟩ := ih (i + 1) s1 sk w1 wk (by rw [t1]; exact hsub) (by omega) h hrest
        exact ⟨by omega, r2.trans t1⟩

/-- C29. For a trainer without subsets, a scratch that starts with
`fallbackCount` 0 and a run of the slot loop in which the first draw of every
slot yields a species: the scratch reaches slot `k` with `fallbackCount` `2k`
and the draw of slot `k` is made at `fallbackCount` `2k + 1`. A draw at that
depth applies the similar-species filter for `k` up to 4 and leaves the query
unfiltered from `k = 5` (depth 11) on. -/
theorem no_subsets_slot_depth (env : Env) (fuel t level iv monCount : Nat) (k i : Nat)
    (s sk : TrainerPartyScratch) (w wk : World)
    (hsub : (env.gRogueTrainers s.trainerNum).teamGenerator.subsetCount = 0)
    (hfresh : s.fallbackCount = 0) (hk : k ≤ 126)
    (hrun : CreateTrainerPartyInternal_fill env fuel t level iv monCount k i s w = some (sk, wk))
    (hdraws :
      CreateTrainerPartyInternal_firstDrawsSucceed env fuel t level iv monCount k i s w = true) :
    sk.fallbackCount = 2 * k
      ∧ (SampleNextSpecies_forceLegends env wk (SampleNextSpecies_enter env sk)).fallbackCount
          = 2 * k + 1
      ∧ ∀ x wx, x.fallbackCount = 2 * k + 1 →
          (SampleNextSpeciesInternal_draw env x wx).2.2.monQuery
            = if k ≤ 4 then wx.monQuery.filter (fun elem => FilterOutDuplicateMons env wx x elem)
              else wx.monQuery := by
  obtain ⟨r1, r2⟩ :=
    fill_no_subsets env fuel t level iv monCount k i s sk w wk hsub (by omega) hrun hdraws
  have e : sk.fallbackCount = 2 * k := by omega
  obtain ⟨f1, f2, f3, f4, f5, f6, f7⟩ := forceLegends_fields env wk (SampleNextSpecies_enter env sk)
  have hent : SampleNextSpecies_enter env sk
      = { sk with fallbackCount := (sk.fallbackCount + 1) % 256 } := by
    unfold SampleNextSpecies_enter
    rw [r2]
    simp only [hsub, if_true]
  refine ⟨e, ?_, ?_⟩
  · rw [f7, hent]
    simp only
    omega
  · intro x wx hx
    rw [draw_query, hx]
    by_cases h4 : k ≤ 4
    · rw [if_pos h4, if_pos (by omega)]
    · rw [if_neg h4, if_neg (by omega)]

set_option maxRecDepth 100000 in
/-- C29, evaluated on `envNoSubsets` (no subsets, a pool of five species): after
five slots the counter is 10, the sixth draw is made at depth 11, and the party
of six ends with the species of slot 0 again. -/
theorem no_subsets_slot_depth_witness :
    (CreateTrainerPartyInternal envNoSubsets 4 {} 0 (List.replicate 6 {}) 6 6 false 0 worldNew).map
        (fun r => r.2.1.party.map (fun mon => mon.species)) = some [10, 20, 30, 40, 50, 10]
      ∧ ∃ sk wk,
          CreateTrainerPartyInternal_fill envNoSubsets 4 0 5 0 6 5 0
              (CreateTrainerPartyInternal_scratch envNoSubsets worldNew {} 0
                (List.replicate 6 {}) 6 0 5) worldNew = some (sk, wk)
            ∧ sk.fallbackCount = 2 * 5
            ∧ (SampleNextSpecies_forceLegends envNoSubsets wk
                (SampleNextSpecies_enter envNoSubsets sk)).fallbackCount = 2 * 5 + 1 := by
  refine ⟨by decide, ?_⟩
  have hsome : (CreateTrainerPartyInternal_fill envNoSubsets 4 0 5 0 6 5 0
      (CreateTrainerPartyInternal_scratch envNoSubsets worldNew {} 0
        (List.replicate 6 {}) 6 0 5) worldNew).isSome = true := by decide
  obtain ⟨⟨sk, wk⟩, hrun⟩ := Option.isSome_iff_exists.mp hsome
  have h := no_subsets_slot_depth envNoSubsets 4 0 5 0 6 5 0 _ sk _ wk (by decide) (by decide)
    (by decide) hrun (by decide)
  exact ⟨sk, wk, hrun, h.1, h.2.1⟩

/-! ## Fallback types: the chain and its relaxation -/

theorem SelectFallbackTypeFor_cases (env : Env) (ty c : Nat) :
    SelectFallbackTypeFor env ty c ∈
      [env.TYPE_FIGHTING, env.TYPE_PSYCHIC, env.TYPE_GHOST, env.TYPE_DARK, env.TYPE_GROUND,
        env.TYPE_DRAGON, env.TYPE_ROCK, env.TYPE_NORMAL, env.TYPE_POISON, env.TYPE_BUG,
        env.TYPE_FIRE, env.TYPE_WATER, env.TYPE_ELECTRIC, env.TYPE_NONE] := by
  unfold SelectFallbackTypeFor
  dsimp only
  by_cases h0 : ty = env.TYPE_DARK
  · rw [if_pos h0]
    split <;> simp
  rw [if_neg h0]
  by_cases h1 : ty = env.TYPE_PSYCHIC
  · rw [if_pos h1]
    split <;> simp
  rw [if_neg h1]
  by_cases h2 : ty = env.TYPE_STEEL
  · rw [if_pos h2]
    split <;> simp
  rw [if_neg h2]
  by_cases h3 : ty = env.TYPE_FIGHTING
  · rw [if_pos h3]
    split <;> simp
  rw [if_neg h3]
  by_cases h4 : ty = env.TYPE_GHOST
  · rw [if_pos h4]
    split <;> simp
  rw [if_neg h4]
  by_cases h5 : ty = env.TYPE_DRAGON
  · rw [if_pos h5]
    split <;> simp
  rw [if_neg h5]
  by_cases h6 : ty = env.TYPE_FIRE
  · rw [if_pos h6]
    split <;> simp
  rw [if_neg h6]
  by_cases h7 : ty = env.TYPE_FLYING
  · rw [if_pos h7]
    split <;> simp
  rw [if_neg h7]
  by_cases h8 : ty = env.TYPE_ICE
  · rw [if_pos h8]
    split <;> simp
  rw [if_neg h8]
  by_cases h9 : ty = env.TYPE_NORMAL
  · rw [if_pos h9]
    split <;> simp
  rw [if_neg h9]
  simp

theorem SelectFallbackTypeFor_valid (env : Env) (hv : env.typesValid) (ty c : Nat) :
    SelectFallbackTypeFor env ty c < env.NUMBER_OF_MON_TYPES
      ∨ SelectFallbackTypeFor env ty c = env.TYPE_NONE := by
  obtain ⟨-, -, -, h1, h2, h3, h4, h5, h6, h7, h8, h9, h10, h11, h12, h13, h14, h15, h16⟩ := hv
  have hm := SelectFallbackTypeFor_cases env ty c
  simp only [List.mem_cons, List.mem_singleton, List.not_mem_nil, or_false] at hm
  rcases hm with h | h | h | h | h | h | h | h | h | h | h | h | h | h <;> rw [h]
  · exact Or.inl h2
  · exact Or.inl h13
  · exact Or.inl h8
  · exact Or.inl h16
  · exact Or.inl h5
  · exact Or.inl h15
  · exact Or.inl h6
  · exact Or.inl h1
  · exact Or.inl h4
  · exact Or.inl h7
  · exact Or.inl h10
  · exact Or.inl h11
  · exact Or.inl h12
  · exact Or.inr rfl

theorem SelectFallbackTypeFor_none (env : Env) (hv : env.typesValid) (c : Nat) :
    SelectFallbackTypeFor env env.TYPE_NONE c = env.TYPE_NONE := by
  obtain ⟨-, -, hn, h1, h2, h3, h4, h5, h6, h7, h8, h9, h10, h11, h12, h13, h14, h15, h16⟩ := hv
  unfold SelectFallbackTypeFor
  simp only
  repeat rw [if_neg (by omega)]

theorem SelectFallbackTypeFor_parity (env : Env) (ty c : Nat) :
    SelectFallbackTypeFor env ty c = SelectFallbackTypeFor env ty (c % 2) := by
  have e : c % 256 % 2 = c % 2 % 256 % 2 := by omega
  unfold SelectFallbackTypeFor
  simp only [e]

theorem walk_eq_foldl (env : Env) (t : Nat) :
    ∀ (n i c : Nat), CalculateFallbackTypeFlags_walk env t n i c
      = (List.range' i n).foldl (fun ty j => SelectFallbackTypeFor env ty (t + j)) c := by
  intro n
  induction n with
  | zero => intro i c; rfl
  | succ n ih =>
    intro i c
    simp only [CalculateFallbackTypeFlags_walk, List.range'_succ, List.foldl_cons]
    exact ih (i + 1) _

theorem walk_eq_chain (env : Env) (t n c : Nat) :
    CalculateFallbackTypeFlags_walk env t n 0 c = fallbackChain env t c n := by
  rw [walk_eq_foldl, fallbackChain, List.range_eq_range']

theorem fallbackChain_succ (env : Env) (t c n : Nat) :
    fallbackChain env t c (n + 1) = SelectFallbackTypeFor env (fallbackChain env t c n) (t + n) := by
  simp only [fallbackChain, List.range_succ, List.foldl_append, List.foldl_cons, List.foldl_nil]

theorem fallbackChain_valid (env : Env) (hv : env.typesValid) (t c : Nat)
    (hc : c < env.NUMBER_OF_MON_TYPES ∨ c = env.TYPE_NONE) (n : Nat) :
    fallbackChain env t c n < env.NUMBER_OF_MON_TYPES ∨ fallbackChain env t c n = env.TYPE_NONE := by
  cases n with
  | zero => exact hc
  | succ n =>
    rw [fallbackChain_succ]
    exact SelectFallbackTypeFor_valid env hv _ _

theorem fallbackChain_none (env : Env) (hv : env.typesValid) (t c : Nat) (n m : Nat) (h : n ≤ m)
    (hn : fallbackChain env t c n = env.TYPE_NONE) : fallbackChain env t c m = env.TYPE_NONE := by
  induction m with
  | zero =>
    have : n = 0 := by omega
    subst this
    exact hn
  | succ m ih =>
    by_cases hnm : n = m + 1
    · subst hnm; exact hn
    · rw [fallbackChain_succ, ih (by omega)]
      exact SelectFallbackTypeFor_none env hv _

theorem one_bit_ne_all (N ty : Nat) (hN : 2 ≤ N) : 2 ^ ty ≠ 2 ^ N - 1 := by
  obtain ⟨m, rfl⟩ : ∃ m, N = m + 2 := ⟨N - 2, by omega⟩
  have hm : 0 < 2 ^ m := Nat.two_pow_pos m
  have e : 2 ^ (m + 2) = 4 * 2 ^ m := by rw [pow_add]; omega
  cases ty with
  | zero =>
    rw [e]
    simp only [pow_zero]
    omega
  | succ j =>
    have e2 : 2 ^ (j + 1) = 2 * 2 ^ j := by rw [pow_succ]; omega
    rw [e, e2]
    omega

theorem flags_of_lt (ty : Nat) (h : ty < 32) : MON_TYPE_VAL_TO_FLAGS ty = 2 ^ ty := by
  unfold MON_TYPE_VAL_TO_FLAGS
  exact Nat.mod_eq_of_lt (Nat.pow_lt_pow_right (by decide) h)

/-- The value of `CalculateFallbackTypeFlags` for a trainer that is not of the
mystery type, in terms of the chain. -/
theorem CalculateFallbackTypeFlags_value (env : Env) (hv : env.typesValid) (fuel : Nat)
    (scratch : TrainerPartyScratch) (rng : RngState)
    (hm : (env.gRogueTrainers scratch.trainerNum).typeAssignment ≠ env.TYPE_MYSTERY) :
    CalculateFallbackTypeFlags env fuel scratch rng
      = some (
          if scratch.fallbackCount < 20
              ∧ fallbackChain env scratch.trainerNum
                  (env.gRogueTrainers scratch.trainerNum).typeAssignment scratch.fallbackCount
                ≠ env.TYPE_NONE then
            MON_TYPE_VAL_TO_FLAGS (fallbackChain env scratch.trainerNum
              (env.gRogueTrainers scratch.trainerNum).typeAssignment scratch.fallbackCount)
          else 2 ^ env.NUMBER_OF_MON_TYPES - 1, rng) := by
  have hN := flags_of_lt env.NUMBER_OF_MON_TYPES hv.2.1
  unfold CalculateFallbackTypeFlags
  simp only [if_neg hm, walk_eq_chain, hN]
  by_cases h20 : scratch.fallbackCount < 20
  · simp only [h20, if_true, true_and]
    by_cases hc : fallbackChain env scratch.trainerNum
        (env.gRogueTrainers scratch.trainerNum).typeAssignment scratch.fallbackCount = env.TYPE_NONE
    · simp only [hc, if_true, ne_eq, not_true_eq_false, if_false]
    · simp only [hc, if_false, ne_eq, not_false_eq_true, if_true]
  · simp only [h20, if_false, false_and, if_true]

/-- C26. For a trainer whose assigned type is a type or `TYPE_NONE` and not
`TYPE_MYSTERY`, `CalculateFallbackTypeFlags` returns, without touching the random
state, either the all-types mask `2 ^ NUMBER_OF_MON_TYPES - 1` or the single bit
of a type. Below depth 20 it is the bit of the type the chain reaches after
`fallbackCount` steps of `SelectFallbackTypeFor` (step `i` with the counter
`trainerNum + i`, of which only the parity matters), and all-types once the
chain has reached `TYPE_NONE`; from depth 20 on it is all-types; and all-types
at one depth means all-types at every greater depth. -/
theorem CalculateFallbackTypeFlags_relaxation (env : Env) (hv : env.typesValid) (fuel : Nat)
    (scratch : TrainerPartyScratch) (rng : RngState)
    (hm : (env.gRogueTrainers scratch.trainerNum).typeAssignment ≠ env.TYPE_MYSTERY)
    (hty : (env.gRogueTrainers scratch.trainerNum).typeAssignment < env.NUMBER_OF_MON_TYPES
      ∨ (env.gRogueTrainers scratch.trainerNum).typeAssignment = env.TYPE_NONE) :
    ∃ flags, CalculateFallbackTypeFlags env fuel scratch rng = some (flags, rng)
      ∧ (flags = 2 ^ env.NUMBER_OF_MON_TYPES - 1
          ∨ ∃ ty, ty < env.NUMBER_OF_MON_TYPES ∧ flags = 2 ^ ty)
      ∧ (scratch.fallbackCount < 20 →
          fallbackChain env scratch.trainerNum
              (env.gRogueTrainers scratch.trainerNum).typeAssignment scratch.fallbackCount
            ≠ env.TYPE_NONE →
          fallbackChain env scratch.trainerNum
              (env.gRogueTrainers scratch.trainerNum).typeAssignment scratch.fallbackCount
            < env.NUMBER_OF_MON_TYPES
          ∧ flags = 2 ^ fallbackChain env scratch.trainerNum
              (env.gRogueTrainers scratch.trainerNum).typeAssignment scratch.fallbackCount)
      ∧ ((∃ j, j ≤ scratch.fallbackCount
            ∧ fallbackChain env scratch.trainerNum
                (env.gRogueTrainers scratch.trainerNum).typeAssignment j = env.TYPE_NONE) →
          flags = 2 ^ env.NUMBER_OF_MON_TYPES - 1)
      ∧ (20 ≤ scratch.fallbackCount → flags = 2 ^ env.NUMBER_OF_MON_TYPES - 1)
      ∧ (flags = 2 ^ env.NUMBER_OF_MON_TYPES - 1 →
          ∀ (fuel' : Nat) (scratch' : TrainerPartyScratch) (rng' : RngState),
            scratch'.trainerNum = scratch.trainerNum →
            scratch.fallbackCount ≤ scratch'.fallbackCount →
            CalculateFallbackTypeFlags env fuel' scratch' rng'
              = some (2 ^ env.NUMBER_OF_MON_TYPES - 1, rng'))
      ∧ ∀ ty c, SelectFallbackTypeFor env ty c = SelectFallbackTypeFor env ty (c % 2) := by
  have hval := CalculateFallbackTypeFlags_value env hv fuel scratch rng hm
  have hch := fallbackChain_valid env hv scratch.trainerNum _ hty scratch.fallbackCount
  have hN32 := hv.2.1
  have hN2 := hv.1
  refine ⟨_, hval, ?_, ?_, ?_, ?_, ?_, ?_⟩
  · split_ifs with hc
    · right
      rcases hch with h | h
      · exact ⟨_, h, flags_of_lt _ (by omega)⟩
      · exact absurd h hc.2
    · left; rfl
  · intro h20 hne
    rcases hch with h | h
    · refine ⟨h, ?_⟩
      rw [if_pos ⟨h20, hne⟩]
      exact flags_of_lt _ (by omega)
    · exact absurd h hne
  · rintro ⟨j, hj, hnone⟩
    have := fallbackChain_none env hv scratch.trainerNum _ j scratch.fallbackCount hj hnone
    rw [if_neg (fun hc => hc.2 this)]
  · intro h20
    rw [if_neg (fun hc => by omega)]
  · intro hall fuel' scratch' rng' htn hle
    have hval' := CalculateFallbackTypeFlags_value env hv fuel' scratch' rng' (by rw [htn]; exact hm)
    rw [hval']
    have hnone : ¬ (scratch'.fallbackCount < 20
        ∧ fallbackChain env scratch'.trainerNum
            (env.gRogueTrainers scratch'.trainerNum).typeAssignment scratch'.fallbackCount
          ≠ env.TYPE_NONE) := by
      rintro ⟨h20', hne'⟩
      rw [htn] at hne'
      by_cases hc : scratch.fallbackCount < 20
          ∧ fallbackChain env scratch.trainerNum
              (env.gRogueTrainers scratch.trainerNum).typeAssignment scratch.fallbackCount
            ≠ env.TYPE_NONE
      · rw [if_pos hc] at hall
        rcases hch with h | h
        · rw [flags_of_lt _ (by omega)] at hall
          exact one_bit_ne_all _ _ hN2 hall
        · exact hc.2 h
      · have hnone : fallbackChain env scratch.trainerNum
            (env.gRogueTrainers scratch.trainerNum).typeAssignment scratch.fallbackCount
              = env.TYPE_NONE := by
          by_contra hx
          exact hc ⟨by omega, hx⟩
        exact hne' (fallbackChain_none env hv _ _ _ _ hle hnone)
    rw [if_neg hnone]
  · exact fun ty c => SelectFallbackTypeFor_parity env ty c

/-- C26, evaluated on `envDark`, trainer 0 of type dark: at depth 3 the chain
dark, fighting, normal, fighting gives the bit of fighting; at depth 20 the
mask is all 18 types. -/
theorem CalculateFallbackTypeFlags_relaxation_witness :
    fallbackChain envDark 0 17 3 = 1
      ∧ CalculateFallbackTypeFlags envDark 0 { fallbackCount := 3 } {} = some (2, {})
      ∧ CalculateFallbackTypeFlags envDark 0 { fallbackCount := 20 } {} = some (262143, {})
      ∧ ∃ flags, CalculateFallbackTypeFlags envDark 0 { fallbackCount := 3 } {} = some (flags, {})
          ∧ (flags = 2 ^ envDark.NUMBER_OF_MON_TYPES - 1
            ∨ ∃ ty, ty < envDark.NUMBER_OF_MON_TYPES ∧ flags = 2 ^ ty) :=
  ⟨by decide, by decide, by decide,
    (CalculateFallbackTypeFlags_relaxation envDark (by decide) 0 { fallbackCount := 3 } {}
      (by decide) (Or.inl (by decide))).imp fun _ h => ⟨h.1, h.2.1⟩⟩

/-! ## Preset selection: a selected preset always holds an item -/

/-- The scoring loop ends with a preset of the table once it has run at least
one iteration. -/
theorem SelectNextPreset_best_some (env : Env) (heldItems : TrainerHeldItemScratch)
    (sets : List RoguePokemonCompetitiveSet) (randOffset : Nat) (hne : sets ≠ []) :
    ∀ (n i : Nat) (best : Nat × Option RoguePokemonCompetitiveSet) (rng : RngState),
      (∀ q, best.2 = some q → q ∈ sets) → (n ≠ 0 ∨ best.2 ≠ none) →
      ∃ p ∈ sets, (SelectNextPreset_best env heldItems sets randOffset n i best rng).1.2 = some p := by
  have hlen : 0 < sets.length := List.length_pos.mpr hne
  intro n
  induction n with
  | zero =>
    intro i best rng hin h
    rcases h with h | h
    · exact absurd rfl h
    · cases hb : best.2 with
      | none => exact absurd hb h
      | some q => exact ⟨q, hin q hb, hb⟩
  | succ n ih =>
    intro i best rng hin _
    unfold SelectNextPreset_best
    simp only
    have hmem : sets.getD ((randOffset + i) % sets.length) {} ∈ sets := by
      rw [List.getD_eq_getElem _ _ (Nat.mod_lt _ hlen)]
      exact List.getElem_mem _
    apply ih
    · intro q hq
      cases hb : best.2 with
      | none =>
        rw [hb] at hq
        simp only [Option.some.injEq] at hq
        rw [← hq]; exact hmem
      | some q0 =>
        rw [hb] at hq
        simp only at hq
        split_ifs at hq
        · simp only [Option.some.injEq] at hq
          rw [← hq]; exact hmem
        · exact hin q hq
    · right
      cases hb : best.2 with
      | none => simp
      | some q0 =>
        simp only
        split_ifs
        · simp
        · rw [hb]; simp

theorem berries_ne_none (env : Env) (hd : env.itemsDistinct) :
    env.ITEM_LUM_BERRY ≠ ITEM_NONE ∧ env.ITEM_SITRUS_BERRY ≠ ITEM_NONE := by
  unfold Env.itemsDistinct at hd
  simp only [List.nodup_cons, List.mem_cons, not_or] at hd
  obtain ⟨h0, -⟩ := hd
  obtain ⟨-, -, -, -, -, -, -, -, h9, h10, -⟩ := h0
  exact ⟨Ne.symm h9, Ne.symm h10⟩

/-- The held item after the block "Give an item if we're missing one". -/
theorem giveItem_item (env : Env) (h : TrainerHeldItemScratch) (item : Nat) (rng : RngState) :
    (SelectNextPreset_giveItem env h item rng).1
      = if item = ITEM_NONE then
          (if (env.RogueRandomRange 2 env.FLAG_SET_SEED_TRAINERS rng).1 = 0 then env.ITEM_LUM_BERRY
            else env.ITEM_SITRUS_BERRY)
        else item := by
  unfold SelectNextPreset_giveItem
  simp only
  split_ifs <;> rfl

/-- A selected preset is never left itemless where the preset count fits the
8-bit loop counter. With pairwise different item ids and at most 255 presets:
for a species with at least one preset `SelectNextPreset` returns
`TRUE` with a preset of the table whose held item is replaced by an item other
than `ITEM_NONE`: the item the swap block leaves, or `ITEM_LUM_BERRY` or
`ITEM_SITRUS_BERRY` when that block leaves none. In the swap block leftovers
that collide become a shell bell, and a shell bell that collides (the preset's
own or the demoted leftovers) becomes none. For a species without presets the
function returns `FALSE` and leaves the scratch and the globals as they are. -/
theorem SelectNextPreset_never_itemless (env : Env) (hd : env.itemsDistinct)
    (scratch : TrainerPartyScratch) (species monIdx : Nat) (w : World)
    (hcount : (env.competitiveSets species).length ≤ 255) :
    (env.competitiveSets species ≠ [] →
        ∃ best ∈ env.competitiveSets species, ∃ item s' w',
          SelectNextPreset env scratch species monIdx w
              = some (some { best with heldItem := item }, s', w')
            ∧ item ≠ ITEM_NONE
            ∧ (SelectNextPreset_swapItem env scratch.heldItems best.heldItem = ITEM_NONE →
                item = env.ITEM_LUM_BERRY ∨ item = env.ITEM_SITRUS_BERRY)
            ∧ (SelectNextPreset_swapItem env scratch.heldItems best.heldItem ≠ ITEM_NONE →
                item = SelectNextPreset_swapItem env scratch.heldItems best.heldItem))
      ∧ (env.competitiveSets species = [] →
          SelectNextPreset env scratch species monIdx w = some (none, scratch, w))
      ∧ (scratch.heldItems.hasLeftovers = true →
          SelectNextPreset_swapLimited env scratch.heldItems env.ITEM_LEFTOVERS
            = if scratch.heldItems.hasShellbell then ITEM_NONE else env.ITEM_SHELL_BELL)
      ∧ (scratch.heldItems.hasShellbell = true →
          SelectNextPreset_swapLimited env scratch.heldItems env.ITEM_SHELL_BELL = ITEM_NONE) := by
  obtain ⟨f1, f2, f3, f4, f5, f6, f7, f8, f9, f10, f11, f12, f13, f14, f15, f16, f17, f18, f19,
    f20, f21, f22, f23, f24⟩ := itemsDistinct_facts env hd
  obtain ⟨b1, b2⟩ := berries_ne_none env hd
  have f7' : IsChoiceItem env ITEM_NONE = false := f7
  refine ⟨?_, ?_, ?_, ?_⟩
  · intro hne
    have hlen : (env.competitiveSets species).length ≠ 0 := by
      intro h0; exact hne (List.length_eq_zero.mp h0)
    have h255 : ¬ ((env.competitiveSets species).length > 255) := by omega
    obtain ⟨best, hmem, hbest⟩ := SelectNextPreset_best_some env scratch.heldItems
      (env.competitiveSets species)
      (toU8 (if (env.competitiveSets species).length = 1 then (0, w.rng)
        else env.RogueRandomRange (env.competitiveSets species).length
          env.FLAG_SET_SEED_TRAINERS w.rng).1) hne (env.competitiveSets species).length 0 (0, none)
      (if (env.competitiveSets species).length = 1 then (0, w.rng)
        else env.RogueRandomRange (env.competitiveSets species).length
          env.FLAG_SET_SEED_TRAINERS w.rng).2
      (fun q hq => by simp at hq) (Or.inl hlen)
    have hsel : ∃ rng1, SelectNextPreset env scratch species monIdx w
        = some (some { best with
                  heldItem := (SelectNextPreset_giveItem env scratch.heldItems
                    (SelectNextPreset_swapItem env scratch.heldItems best.heldItem) rng1).1 },
            { scratch with
              heldItems := (SelectNextPreset_giveItem env scratch.heldItems
                (SelectNextPreset_swapItem env scratch.heldItems best.heldItem) rng1).2.1 },
            { w with
              rng := (SelectNextPreset_giveItem env scratch.heldItems
                (SelectNextPreset_swapItem env scratch.heldItems best.heldItem) rng1).2.2 }) := by
      unfold SelectNextPreset
      simp only [ne_eq, hlen, not_false_eq_true, if_true, if_neg h255]
      rw [hbest]
      exact ⟨_, rfl⟩
    obtain ⟨rng1, hsel⟩ := hsel
    refine ⟨best, hmem, _, _, _, hsel, ?_, ?_, ?_⟩
    · rw [giveItem_item]
      split_ifs <;> assumption
    · intro h0
      rw [giveItem_item, if_pos h0]
      split_ifs
      · exact Or.inl rfl
      · exact Or.inr rfl
    · intro h0
      rw [giveItem_item, if_neg h0]
  · intro hnil
    unfold SelectNextPreset
    simp only [hnil, List.length_nil, ne_eq, not_true_eq_false, if_false]
  · intro hL
    unfold SelectNextPreset_swapLimited
    simp only [hL, and_self, if_true]
    by_cases hS : scratch.heldItems.hasShellbell = true
    · simp only [hS, and_self, if_true, f7', Bool.false_eq_true, false_and, if_false]
    · simp only [hS, and_false, if_false, f9, Bool.false_eq_true, false_and]
  · intro hS
    unfold SelectNextPreset_swapLimited
    have e : (if env.ITEM_SHELL_BELL = env.ITEM_LEFTOVERS ∧ scratch.heldItems.hasLeftovers = true
        then env.ITEM_SHELL_BELL else env.ITEM_SHELL_BELL) = env.ITEM_SHELL_BELL := by
      split_ifs <;> rfl
    simp only [e, hS, and_self, if_true, f7', Bool.false_eq_true, false_and, if_false]

/-- The theorem `SelectNextPreset_never_itemless`, evaluated on `envPresets`:
species 1 (leftovers) with leftovers and shell bell both handed out gets a Lum
Berry; species 4 has no preset. -/
theorem SelectNextPreset_never_itemless_witness :
    SelectNextPreset envPresets { heldItems := { hasLeftovers := true, hasShellbell := true } }
        1 0 {}
        = some (some { heldItem := 141, moves := [1, 0, 0, 0] },
            { heldItems := { hasLeftovers := true, hasShellbell := true } }, {})
      ∧ SelectNextPreset envPresets { heldItems := { hasLeftovers := true, hasShellbell := true } }
          4 0 {}
          = some (none, { heldItems := { hasLeftovers := true, hasShellbell := true } }, {})
      ∧ SelectNextPreset_swapLimited envPresets { hasLeftovers := true, hasShellbell := true }
          envPresets.ITEM_SHELL_BELL = ITEM_NONE :=
  ⟨by decide,
    (SelectNextPreset_never_itemless envPresets (by decide)
      { heldItems := { hasLeftovers := true, hasShellbell := true } } 4 0 {} (by decide)).2.1 rfl,
    (SelectNextPreset_never_itemless envPresets (by decide)
      { heldItems := { hasLeftovers := true, hasShellbell := true } } 4 0 {} (by decide)).2.2.2 rfl⟩

/-- A preset count above 255 is out of reach of the 8-bit loop counter: the
scoring loop does not end and the call does not return. -/
theorem SelectNextPreset_none_above_255 (env : Env) (scratch : TrainerPartyScratch)
    (species monIdx : Nat) (w : World) (h : 255 < (env.competitiveSets species).length) :
    SelectNextPreset env scratch species monIdx w = none := by
  unfold SelectNextPreset
  simp only
  rw [if_pos (by omega), if_pos h]

theorem SelectRivalWeakestMon_succ (env : Env) (buf : List Nat) (n : Nat) :
    SelectRivalWeakestMon env buf (n + 1)
      = if n = RIVAL_STARTER_INDEX then SelectRivalWeakestMon env buf n
        else if buf.getD n 0 ≠ SPECIES_NONE then
          (if SelectRivalWeakestMon env buf n = 255
              ∨ env.RoguePokedex_GetSpeciesBST (buf.getD n 0) < SelectRivalWeakestMon env buf n
            then n else SelectRivalWeakestMon env buf n)
        else SelectRivalWeakestMon env buf n := by
  unfold SelectRivalWeakestMon
  rw [List.range_succ, List.foldl_append]
  rfl

/-- The index `SelectRivalWeakestMon` returns: 255 when no entry other than the
starter is set, otherwise the index of a set entry other than the starter. -/
theorem SelectRivalWeakestMon_index (env : Env) (buf : List Nat) :
    ∀ n, n ≤ 255 →
      (SelectRivalWeakestMon env buf n = 255
          ∧ ∀ i, i < n → i ≠ RIVAL_STARTER_INDEX → buf.getD i 0 = SPECIES_NONE)
        ∨ (SelectRivalWeakestMon env buf n < n
            ∧ SelectRivalWeakestMon env buf n ≠ RIVAL_STARTER_INDEX
            ∧ buf.getD (SelectRivalWeakestMon env buf n) 0 ≠ SPECIES_NONE) := by
  intro n
  induction n with
  | zero =>
    intro _
    left
    exact ⟨rfl, fun i hi => absurd hi (by omega)⟩
  | succ n ih =>
    intro hn
    have ih' := ih (by omega)
    rw [SelectRivalWeakestMon_succ]
    generalize SelectRivalWeakestMon env buf n = j at ih' ⊢
    by_cases h1 : n = RIVAL_STARTER_INDEX
    · rw [if_pos h1]
      rcases ih' with ⟨a, b⟩ | ⟨a, b, c⟩
      · left
        refine ⟨a, fun i hi hne => ?_⟩
        have : i < n := by omega
        exact b i this hne
      · right
        exact ⟨by omega, b, c⟩
    · rw [if_neg h1]
      by_cases h0 : buf.getD n 0 ≠ SPECIES_NONE
      · rw [if_pos h0]
        split_ifs with hc
        · right
          exact ⟨by omega, h1, h0⟩
        · rcases ih' with ⟨a, b⟩ | ⟨a, b, c⟩
          · exact absurd (Or.inl a) hc
          · right
            exact ⟨by omega, b, c⟩
      · rw [if_neg h0]
        rcases ih' with ⟨a, b⟩ | ⟨a, b, c⟩
        · left
          refine ⟨a, fun i hi hne => ?_⟩
          by_cases hin : i = n
          · rw [hin]
            exact not_not.mp h0
          · exact b i (by omega) hne
        · right
          exact ⟨by omega, b, c⟩

theorem removeWeakest_succ (env : Env) :
    ∀ (k : Nat) (buf : List Nat),
      removeWeakest env (k + 1) buf
        = (removeWeakest env k buf).set
            (SelectRivalWeakestMon env (removeWeakest env k buf) RIVAL_BASE_PARTY_SIZE) SPECIES_NONE := by
  intro k
  induction k with
  | zero => intro buf; rfl
  | succ k ih =>
    intro buf
    rw [removeWeakest, ih]
    rfl

/-- The number of blanked entries among the four a removal may hit. -/
theorem removeWeakest_state (env : Env) (b0 b1 b2 b3 b4 b5 : Nat)
    (h0 : b0 ≠ 0) (h2 : b2 ≠ 0) (h3 : b3 ≠ 0) (h4 : b4 ≠ 0) :
    ∀ k, k ≤ 4 →
      ∃ c0 c2 c3 c4, removeWeakest env k [b0, b1, b2, b3, b4, b5] = [c0, b1, c2, c3, c4, b5]
        ∧ (c0 = b0 ∨ c0 = 0) ∧ (c2 = b2 ∨ c2 = 0) ∧ (c3 = b3 ∨ c3 = 0) ∧ (c4 = b4 ∨ c4 = 0)
        ∧ (if c0 = 0 then 1 else 0) + (if c2 = 0 then 1 else 0) + (if c3 = 0 then 1 else 0)
            + (if c4 = 0 then 1 else 0) = k := by
  intro k
  induction k with
  | zero =>
    intro _
    refine ⟨b0, b2, b3, b4, rfl, Or.inl rfl, Or.inl rfl, Or.inl rfl, Or.inl rfl, ?_⟩
    simp only [h0, h2, h3, h4, if_false]
  | succ k ih =>
    intro hk
    obtain ⟨c0, c2, c3, c4, hB, e0, e2, e3, e4, hz⟩ := ih (by omega)
    rw [removeWeakest_succ, hB]
    have hidx := SelectRivalWeakestMon_index env [c0, b1, c2, c3, c4, b5] RIVAL_BASE_PARTY_SIZE
      (by decide)
    generalize SelectRivalWeakestMon env [c0, b1, c2, c3, c4, b5] RIVAL_BASE_PARTY_SIZE = j at hidx ⊢
    unfold RIVAL_BASE_PARTY_SIZE RIVAL_STARTER_INDEX SPECIES_NONE at hidx
    rcases hidx with ⟨-, hall⟩ | ⟨hj5, hj1, hset⟩
    · exfalso
      have a0 := hall 0 (by decide) (by decide)
      have a2 := hall 2 (by decide) (by decide)
      have a3 := hall 3 (by decide) (by decide)
      have a4 := hall 4 (by decide) (by decide)
      simp only [List.getD_cons_zero, List.getD_cons_succ] at a0 a2 a3 a4
      simp only [a0, a2, a3, a4, if_true] at hz
      omega
    · unfold SPECIES_NONE
      interval_cases j
      · simp only [List.getD_cons_zero] at hset
        refine ⟨0, c2, c3, c4, rfl, Or.inr rfl, e2, e3, e4, ?_⟩
        simp only [hset, if_false, if_true] at hz ⊢
        omega
      · exact absurd rfl hj1
      · simp only [List.getD_cons_zero, List.getD_cons_succ] at hset
        refine ⟨c0, 0, c3, c4, rfl, e0, Or.inr rfl, e3, e4, ?_⟩
        simp only [hset, if_false, if_true] at hz ⊢
        omega
      · simp only [List.getD_cons_zero, List.getD_cons_succ] at hset
        refine ⟨c0, c2, 0, c4, rfl, e0, e2, Or.inr rfl, e4, ?_⟩
        simp only [hset, if_false, if_true] at hz ⊢
        omega
      · simp only [List.getD_cons_zero, List.getD_cons_succ] at hset
        refine ⟨c0, c2, c3, 0, rfl, e0, e2, e3, Or.inr rfl, ?_⟩
        simp only [hset, if_false, if_true] at hz ⊢
        omega

/-- The state of the refill loop after the first `m` slots: the buffer and the
counter `j`. -/
theorem replace_invariant (r B : List Nat) :
    ∀ m, m ≤ B.length → m ≤ 255 →
      ((List.range m).foldl
          (fun (st : List Nat × Nat) i =>
            if st.1.getD i 0 = SPECIES_NONE then
              (st.1.set i (r.getD (PARTY_SIZE + st.2) 0), (st.2 + 1) % 256)
            else st) (B, 0)).1.length = B.length
        ∧ (∀ i, m ≤ i →
            ((List.range m).foldl
              (fun (st : List Nat × Nat) i =>
                if st.1.getD i 0 = SPECIES_NONE then
                  (st.1.set i (r.getD (PARTY_SIZE + st.2) 0), (st.2 + 1) % 256)
                else st) (B, 0)).1.getD i 0 = B.getD i 0)
        ∧ (∀ i, i < m → B.getD i 0 ≠ 0 →
            ((List.range m).foldl
              (fun (st : List Nat × Nat) i =>
                if st.1.getD i 0 = SPECIES_NONE then
                  (st.1.set i (r.getD (PARTY_SIZE + st.2) 0), (st.2 + 1) % 256)
                else st) (B, 0)).1.getD i 0 = B.getD i 0)
        ∧ (∀ i, i < m → B.getD i 0 = 0 →
            ((List.range m).foldl
              (fun (st : List Nat × Nat) i =>
                if st.1.getD i 0 = SPECIES_NONE then
                  (st.1.set i (r.getD (PARTY_SIZE + st.2) 0), (st.2 + 1) % 256)
                else st) (B, 0)).1.getD i 0
              = r.getD (PARTY_SIZE + ((List.range i).filter (fun k => B.getD k 0 == 0)).length) 0)
        ∧ ((List.range m).foldl
            (fun (st : List Nat × Nat) i =>
              if st.1.getD i 0 = SPECIES_NONE then
                (st.1.set i (r.getD (PARTY_SIZE + st.2) 0), (st.2 + 1) % 256)
              else st) (B, 0)).2
            = ((List.range m).filter (fun i => B.getD i 0 == 0)).length := by
  intro m
  induction m with
  | zero =>
    intro _ _
    refine ⟨rfl, fun i _ => rfl, fun i hi => absurd hi (by omega),
      fun i hi => absurd hi (by omega), rfl⟩
  | succ m ih =>
    intro hm hm255
    obtain ⟨ia, ib, ic, id, ie⟩ := ih (by omega) (by omega)
    have hzle : ((List.range m).filter (fun i => B.getD i 0 == 0)).length ≤ m := by
      have := List.length_filter_le (fun i => B.getD i 0 == 0) (List.range m)
      rw [List.length_range] at this
      exact this
    rw [List.range_succ, List.foldl_append, List.filter_append]
    simp only [List.foldl_cons, List.foldl_nil, List.length_append]
    generalize (List.range m).foldl
          (fun (st : List Nat × Nat) i =>
            if st.1.getD i 0 = SPECIES_NONE then
              (st.1.set i (r.getD (PARTY_SIZE + st.2) 0), (st.2 + 1) % 256)
            else st) (B, 0) = st at ia ib ic id ie ⊢
    generalize hzdef : ((List.range m).filter (fun i => B.getD i 0 == 0)).length = z
      at ie hzle ⊢
    have hbm := ib m (le_refl m)
    unfold SPECIES_NONE
    by_cases h0 : B.getD m 0 = 0
    · have hf : List.filter (fun i => B.getD i 0 == 0) [m] = [m] := by
        simp only [List.filter_cons, List.filter_nil, beq_iff_eq, h0, if_true]
      rw [hf, if_pos (by rw [hbm]; exact h0)]
      simp only [List.length_singleton]
      refine ⟨?_, ?_, ?_, ?_, ?_⟩
      · rw [List.length_set]; exact ia
      · intro i hi
        rw [getD_set_ne _ _ _ _ _ (by omega)]
        exact ib i (by omega)
      · intro i hi hne
        have hne' : i ≠ m := by intro h; rw [h] at hne; exact hne h0
        rw [getD_set_ne _ _ _ _ _ (Ne.symm hne')]
        exact ic i (by omega) hne
      · intro i hi hz
        by_cases him : i = m
        · rw [him, getD_set_self _ _ _ _ (by omega), ie, hzdef]
        · rw [getD_set_ne _ _ _ _ _ (Ne.symm him)]
          exact id i (by omega) hz
      · rw [ie]
        omega
    · have hf : List.filter (fun i => B.getD i 0 == 0) [m] = [] := by
        simp only [List.filter_cons, List.filter_nil, beq_iff_eq, h0, if_false]
      rw [hf, if_neg (by rw [hbm]; exact h0)]
      simp only [List.length_nil, Nat.add_zero]
      refine ⟨ia, fun i hi => ib i (by omega), ?_, ?_, ie⟩
      · intro i hi hne
        by_cases him : i = m
        · rw [him]; exact hbm
        · exact ic i (by omega) hne
      · intro i hi hz
        by_cases him : i = m
        · rw [him] at hz; exact absurd hz h0
        · exact id i (by omega) hz

theorem filter_range_lt (p : Nat → Bool) (i : Nat) (hp : p i = true) :
    ∀ m, i < m → ((List.range i).filter p).length < ((List.range m).filter p).length := by
  intro m
  induction m with
  | zero => intro h; exact absurd h (Nat.not_lt_zero _)
  | succ m ih =>
    intro him
    rw [List.range_succ, List.filter_append, List.length_append]
    by_cases h : i = m
    · subst h
      simp only [List.filter_cons, List.filter_nil, hp, if_true, List.length_singleton]
      omega
    · have := ih (by omega)
      omega

/-- A roster of `ROGUE_RIVAL_TOTAL_MON_COUNT` entries, entry by entry. -/
theorem roster_entries (roster : List Nat)
    (hlen : roster.length = ROGUE_RIVAL_TOTAL_MON_COUNT) :
    ∃ s0 s1 s2 s3 s4 s5 s6 s7 s8, roster = [s0, s1, s2, s3, s4, s5, s6, s7, s8] := by
  unfold ROGUE_RIVAL_TOTAL_MON_COUNT at hlen
  rcases roster with _ | ⟨s0, _ | ⟨s1, _ | ⟨s2, _ | ⟨s3, _ | ⟨s4, _ | ⟨s5, _ | ⟨s6, _ | ⟨s7,
    _ | ⟨s8, _ | ⟨s9, rest⟩⟩⟩⟩⟩⟩⟩⟩⟩⟩
  all_goals first
    | exact ⟨_, _, _, _, _, _, _, _, _, rfl⟩
    | (simp only [List.length_cons, List.length_nil] at hlen; omega)

theorem swapAmount_le (w : World) (monCount : Nat) :
    CreateRivalPartyInternal_swapAmount w monCount ≤ 3 := by
  unfold CreateRivalPartyInternal_swapAmount
  split_ifs <;> omega

theorem zeros_in_range (c0 b1 c2 c3 c4 b5 : Nat) (h1 : b1 ≠ 0) (h5 : b5 ≠ 0) :
    ((List.range 6).filter (fun i => [c0, b1, c2, c3, c4, b5].getD i 0 == 0)).length
      = (if c0 = 0 then 1 else 0) + (if c2 = 0 then 1 else 0) + (if c3 = 0 then 1 else 0)
          + (if c4 = 0 then 1 else 0) := by
  have hr : List.range 6 = [0, 1, 2, 3, 4, 5] := by decide
  rw [hr]
  simp only [List.filter_cons, List.filter_nil, List.getD_cons_zero, List.getD_cons_succ,
    beq_iff_eq, h1, h5, if_false]
  by_cases e0 : c0 = 0 <;> by_cases e2 : c2 = 0 <;> by_cases e3 : c3 = 0 <;>
    by_cases e4 : c4 = 0 <;>
    simp only [e0, e2, e3, e4, if_true, if_false, List.length_cons, List.length_nil]

/-- C27. For a roster of nine set entries, whatever the party size and the tier:
the swap amount is at most 3 (0 unless the party size is 6; then 3 from tier 13,
2 from tier 7, 1 from tier 6); every one of the successive
`SelectRivalWeakestMon` calls returns the index, below 5 and neither the starter
index 1 nor 255, of an entry that is still set, so that exactly `swapAmount`
slots are emptied; the assembled buffer has six entries, none of them
`SPECIES_NONE`: a slot that was not emptied holds the roster entry of its slot,
an emptied slot holds `rivalSpecies[6 + e]` with `e` the number of emptied slots
before it, which is one of `rivalSpecies[6..8]`; and `rivalSpecies[1]` is still
at index 1. -/
theorem rival_starter_never_removed (env : Env) (w : World) (monCount : Nat)
    (hlen : w.gRogueRun.rivalSpecies.length = ROGUE_RIVAL_TOTAL_MON_COUNT)
    (hfull : ∀ s ∈ w.gRogueRun.rivalSpecies, s ≠ SPECIES_NONE) :
    CreateRivalPartyInternal_swapAmount w monCount ≤ 3
      ∧ (monCount ≠ PARTY_SIZE → CreateRivalPartyInternal_swapAmount w monCount = 0)
      ∧ (monCount = PARTY_SIZE →
          CreateRivalPartyInternal_swapAmount w monCount
            = if 13 ≤ Rogue_GetCurrentDifficulty w then 3
              else if 7 ≤ Rogue_GetCurrentDifficulty w then 2
              else if 6 ≤ Rogue_GetCurrentDifficulty w then 1 else 0)
      ∧ (∀ k, k < CreateRivalPartyInternal_swapAmount w monCount →
          SelectRivalWeakestMon env
              (removeWeakest env k (w.gRogueRun.rivalSpecies.take PARTY_SIZE))
              RIVAL_BASE_PARTY_SIZE < RIVAL_BASE_PARTY_SIZE
            ∧ SelectRivalWeakestMon env
              (removeWeakest env k (w.gRogueRun.rivalSpecies.take PARTY_SIZE))
              RIVAL_BASE_PARTY_SIZE ≠ RIVAL_STARTER_INDEX
            ∧ SelectRivalWeakestMon env
              (removeWeakest env k (w.gRogueRun.rivalSpecies.take PARTY_SIZE))
              RIVAL_BASE_PARTY_SIZE ≠ 255
            ∧ (removeWeakest env k (w.gRogueRun.rivalSpecies.take PARTY_SIZE)).getD
                (SelectRivalWeakestMon env
                  (removeWeakest env k (w.gRogueRun.rivalSpecies.take PARTY_SIZE))
                  RIVAL_BASE_PARTY_SIZE) 0 ≠ SPECIES_NONE)
      ∧ emptyBefore
            (removeWeakest env (CreateRivalPartyInternal_swapAmount w monCount)
              (w.gRogueRun.rivalSpecies.take PARTY_SIZE)) PARTY_SIZE
          = CreateRivalPartyInternal_swapAmount w monCount
      ∧ (CreateRivalPartyInternal_speciesBuffer env w monCount).length = PARTY_SIZE
      ∧ (∀ i, i < PARTY_SIZE →
          (CreateRivalPartyInternal_speciesBuffer env w monCount).getD i 0 ≠ SPECIES_NONE
            ∧ ((removeWeakest env (CreateRivalPartyInternal_swapAmount w monCount)
                  (w.gRogueRun.rivalSpecies.take PARTY_SIZE)).getD i 0 ≠ SPECIES_NONE →
                (removeWeakest env (CreateRivalPartyInternal_swapAmount w monCount)
                    (w.gRogueRun.rivalSpecies.take PARTY_SIZE)).getD i 0
                  = w.gRogueRun.rivalSpecies.getD i 0
                ∧ (CreateRivalPartyInternal_speciesBuffer env w monCount).getD i 0
                  = w.gRogueRun.rivalSpecies.getD i 0)
            ∧ ((removeWeakest env (CreateRivalPartyInternal_swapAmount w monCount)
                  (w.gRogueRun.rivalSpecies.take PARTY_SIZE)).getD i 0 = SPECIES_NONE →
                i ≠ RIVAL_STARTER_INDEX
                ∧ PARTY_SIZE
                    + emptyBefore
                        (removeWeakest env (CreateRivalPartyInternal_swapAmount w monCount)
                          (w.gRogueRun.rivalSpecies.take PARTY_SIZE)) i
                  < ROGUE_RIVAL_TOTAL_MON_COUNT
                ∧ (CreateRivalPartyInternal_speciesBuffer env w monCount).getD i 0
                  = w.gRogueRun.rivalSpecies.getD
                      (PARTY_SIZE
                        + emptyBefore
                            (removeWeakest env (CreateRivalPartyInternal_swapAmount w monCount)
                              (w.gRogueRun.rivalSpecies.take PARTY_SIZE)) i) 0))
      ∧ (CreateRivalPartyInternal_speciesBuffer env w monCount).getD RIVAL_STARTER_INDEX 0
          = w.gRogueRun.rivalSpecies.getD RIVAL_STARTER_INDEX 0 := by
  have hswap := swapAmount_le w monCount
  have hs2 : monCount ≠ PARTY_SIZE → CreateRivalPartyInternal_swapAmount w monCount = 0 := by
    intro h
    unfold CreateRivalPartyInternal_swapAmount
    rw [if_neg h]
  have hs3 : monCount = PARTY_SIZE →
      CreateRivalPartyInternal_swapAmount w monCount
        = if 13 ≤ Rogue_GetCurrentDifficulty w then 3
          else if 7 ≤ Rogue_GetCurrentDifficulty w then 2
          else if 6 ≤ Rogue_GetCurrentDifficulty w then 1 else 0 := by
    intro h
    unfold CreateRivalPartyInternal_swapAmount
    rw [if_pos h]
    rfl
  refine ⟨hswap, hs2, hs3, ?_⟩
  clear hs2 hs3
  obtain ⟨r0, r1, r2, r3, r4, r5, r6, r7, r8, hr⟩ := roster_entries _ hlen
  unfold CreateRivalPartyInternal_speciesBuffer
  simp only
  generalize CreateRivalPartyInternal_swapAmount w monCount = n at hswap ⊢
  rw [hr] at hfull ⊢
  unfold SPECIES_NONE at hfull
  have n0 : r0 ≠ 0 := hfull r0 (by simp)
  have n1 : r1 ≠ 0 := hfull r1 (by simp)
  have n2 : r2 ≠ 0 := hfull r2 (by simp)
  have n3 : r3 ≠ 0 := hfull r3 (by simp)
  have n4 : r4 ≠ 0 := hfull r4 (by simp)
  have n5 : r5 ≠ 0 := hfull r5 (by simp)
  have n6 : r6 ≠ 0 := hfull r6 (by simp)
  have n7 : r7 ≠ 0 := hfull r7 (by simp)
  have n8 : r8 ≠ 0 := hfull r8 (by simp)
  have htake : List.take PARTY_SIZE [r0, r1, r2, r3, r4, r5, r6, r7, r8]
      = [r0, r1, r2, r3, r4, r5] := rfl
  rw [htake]
  have hstate := removeWeakest_state env r0 r1 r2 r3 r4 r5 n0 n2 n3 n4
  refine ⟨?_, ?_⟩
  · intro k hk
    obtain ⟨c0, c2, c3, c4, hB, -, -, -, -, hz⟩ := hstate k (by omega)
    rw [hB]
    have hidx := SelectRivalWeakestMon_index env [c0, r1, c2, c3, c4, r5] RIVAL_BASE_PARTY_SIZE
      (by decide)
    rcases hidx with ⟨-, hall⟩ | ⟨hj5, hj1, hset⟩
    · exfalso
      have a0 := hall 0 (by decide) (by decide)
      have a2 := hall 2 (by decide) (by decide)
      have a3 := hall 3 (by decide) (by decide)
      have a4 := hall 4 (by decide) (by decide)
      unfold SPECIES_NONE at a0 a2 a3 a4
      simp only [List.getD_cons_zero, List.getD_cons_succ] at a0 a2 a3 a4
      simp only [a0, a2, a3, a4, if_true] at hz
      omega
    · refine ⟨hj5, hj1, ?_, hset⟩
      generalize SelectRivalWeakestMon env [c0, r1, c2, c3, c4, r5] RIVAL_BASE_PARTY_SIZE = j
        at hj5
      unfold RIVAL_BASE_PARTY_SIZE at hj5
      omega
  · obtain ⟨c0, c2, c3, c4, hB, e0, e2, e3, e4, hz⟩ := hstate n (by omega)
    rw [hB]
    obtain ⟨ia, -, ic, id, -⟩ :=
      replace_invariant [r0, r1, r2, r3, r4, r5, r6, r7, r8] [c0, r1, c2, c3, c4, r5] 6
        (Nat.le_refl 6) (by decide)
    have htotal := zeros_in_range c0 r1 c2 c3 c4 r5 n1 n5
    rw [hz] at htotal
    unfold CreateRivalPartyInternal_replace emptyBefore
    unfold PARTY_SIZE SPECIES_NONE ROGUE_RIVAL_TOTAL_MON_COUNT RIVAL_STARTER_INDEX
    unfold PARTY_SIZE SPECIES_NONE at ia ic id
    generalize (List.range 6).foldl
          (fun (st : List Nat × Nat) i =>
            if st.1.getD i 0 = 0 then (st.1.set i ([r0, r1, r2, r3, r4, r5, r6, r7, r8].getD
              (6 + st.2) 0), (st.2 + 1) % 256)
            else st) ([c0, r1, c2, c3, c4, r5], 0) = out at ia ic id ⊢
    refine ⟨htotal, ia, ?_, ?_⟩
    · intro i hi
      by_cases hzero : [c0, r1, c2, c3, c4, r5].getD i 0 = 0
      · have hv := id i hi hzero
        have hlt := filter_range_lt (fun k => [c0, r1, c2, c3, c4, r5].getD k 0 == 0) i
          (by simp only [beq_iff_eq]; exact hzero) 6 hi
        rw [htotal] at hlt
        have hi1 : i ≠ 1 := by
          intro h1
          rw [h1] at hzero
          exact n1 hzero
        generalize ((List.range i).filter
          (fun k => [c0, r1, c2, c3, c4, r5].getD k 0 == 0)).length = t at hv hlt ⊢
        have ht3 : t < 3 := by omega
        have hnz : [r0, r1, r2, r3, r4, r5, r6, r7, r8].getD (6 + t) 0 ≠ 0 := by
          interval_cases t
          · exact n6
          · exact n7
          · exact n8
        refine ⟨by rw [hv]; exact hnz, fun hne => absurd hzero hne, fun _ => ⟨hi1, by omega, hv⟩⟩
      · have hv := ic i hi hzero
        have hroster : [c0, r1, c2, c3, c4, r5].getD i 0
            = [r0, r1, r2, r3, r4, r5, r6, r7, r8].getD i 0 := by
          interval_cases i
          · simp only [List.getD_cons_zero] at hzero ⊢
            rcases e0 with h | h
            · exact h
            · exact absurd h hzero
          · rfl
          · simp only [List.getD_cons_zero, List.getD_cons_succ] at hzero ⊢
            rcases e2 with h | h
            · exact h
            · exact absurd h hzero
          · simp only [List.getD_cons_zero, List.getD_cons_succ] at hzero ⊢
            rcases e3 with h | h
            · exact h
            · exact absurd h hzero
          · simp only [List.getD_cons_zero, List.getD_cons_succ] at hzero ⊢
            rcases e4 with h | h
            · exact h
            · exact absurd h hzero
          · rfl
        refine ⟨by rw [hv]; exact hzero, fun _ => ⟨hroster, hv.trans hroster⟩,
          fun h0 => absurd h0 hzero⟩
    · exact ic 1 (by decide) n1

/-- C27, evaluated on `envBstId` (the BST of a species is its id) for the roster
11 to 19 at the final tier with a party of six: the slots 0, 2 and 3 are
emptied and refilled with the entries 17, 18 and 19, the starter 12 stays at
index 1. -/
theorem rival_starter_never_removed_witness :
    CreateRivalPartyInternal_swapAmount worldRivalFull 6 = 3
      ∧ removeWeakest envBstId 3 (worldRivalFull.gRogueRun.rivalSpecies.take PARTY_SIZE)
          = [0, 12, 0, 0, 15, 16]
      ∧ CreateRivalPartyInternal_speciesBuffer envBstId worldRivalFull 6
          = [17, 12, 18, 19, 15, 16]
      ∧ emptyBefore
            (removeWeakest envBstId (CreateRivalPartyInternal_swapAmount worldRivalFull 6)
              (worldRivalFull.gRogueRun.rivalSpecies.take PARTY_SIZE)) PARTY_SIZE
          = CreateRivalPartyInternal_swapAmount worldRivalFull 6
      ∧ (CreateRivalPartyInternal_speciesBuffer envBstId worldRivalFull 6).getD
            RIVAL_STARTER_INDEX 0
          = worldRivalFull.gRogueRun.rivalSpecies.getD RIVAL_STARTER_INDEX 0 :=
  ⟨by decide, by decide, by decide,
    (rival_starter_never_removed envBstId worldRivalFull 6 (by decide) (by decide)).2.2.2.2.1,
    (rival_starter_never_removed envBstId worldRivalFull 6 (by decide)
      (by decide)).2.2.2.2.2.2.2⟩

/-! ## Party order: the stable sort and the lead-score clamp -/

/-- C23, as stated, fails at slider hard: for the boss of `envHardBoss` at tier 0
with gauntlet mode off the scores are not clamped, and a party of a plain mon
(score 0) followed by one that knows Fake Out (score 1) comes back reversed. -/
theorem lead_score_not_clamped_at_hard :
    Rogue_IsAnyBossTrainer envHardBoss 0 = true
      ∧ envHardBoss.configRangeTrainer = DIFFICULTY_LEVEL_HARD
      ∧ envHardBoss.FLAG_ROGUE_GAUNTLET_MODE = false
      ∧ Rogue_GetCurrentDifficulty worldNew = 0
      ∧ CalulcateMonSortScore envHardBoss monPlain = 0
      ∧ CalulcateMonSortScore envHardBoss monFakeOut = 1
      ∧ ReorderPartyMons_clampLeadScore envHardBoss worldNew 0 = false
      ∧ ReorderPartyMons envHardBoss worldNew 0 [monPlain, monFakeOut] 2
          = [monFakeOut, monPlain] := by
  decide

theorem SwapMons_adjacent (i : Nat) (party : List Pokemon) :
    SwapMons i (i + 1) party
      = (party.set i (party.getD (i + 1) {})).set (i + 1) (party.getD i {}) := by
  unfold SwapMons
  rw [if_pos (by omega)]

theorem compare_perm (score : Pokemon → Int) (st : List Pokemon × Bool) (i : Nat)
    (h : i + 1 < st.1.length) : (ReorderPartyMons_compare score st i).1.Perm st.1 := by
  unfold ReorderPartyMons_compare
  simp only
  split_ifs
  · rw [SwapMons_adjacent]
    exact swap_perm {} st.1 i (i + 1) (by omega) h
  · exact List.Perm.refl _

theorem pass_perm (score : Pokemon → Int) (n : Nat) (party : List Pokemon)
    (hn : n ≤ party.length) : (ReorderPartyMons_pass score n party).1.Perm party := by
  unfold ReorderPartyMons_pass
  apply foldl_invariant (fun st : List Pokemon × Bool => st.1.Perm party) _ _ _
    (List.Perm.refl _)
  intro acc i hi hacc
  have hi' := List.mem_range.mp hi
  have hlen : acc.1.length = party.length := hacc.length_eq
  exact (compare_perm score acc i (by omega)).trans hacc

/-- Exchanging two neighbours of which at most one passes a filter leaves the
filtered list as it is. -/
theorem filter_swap_adjacent {α : Type} (p : α → Bool) (d : α) :
    ∀ (l : List α) (i : Nat), i + 1 < l.length →
      ¬ (p (l.getD i d) = true ∧ p (l.getD (i + 1) d) = true) →
      ((l.set i (l.getD (i + 1) d)).set (i + 1) (l.getD i d)).filter p = l.filter p := by
  intro l
  induction l with
  | nil => intro i h; exact absurd h (Nat.not_lt_zero _)
  | cons x t ih =>
    intro i h hp
    cases i with
    | zero =>
      cases t with
      | nil => simp at h
      | cons y t' =>
        simp only [List.getD_cons_zero, List.getD_cons_succ, List.set_cons_zero,
          List.set_cons_succ] at hp ⊢
        cases hx : p x <;> cases hy : p y <;> simp_all [List.filter_cons]
    | succ k =>
      simp only [List.getD_cons_succ, List.set_cons_succ] at hp ⊢
      have hk : k + 1 < t.length := by simpa using h
      rw [List.filter_cons, List.filter_cons, ih k hk hp]

theorem compare_filter (score : Pokemon → Int) (st : List Pokemon × Bool) (i : Nat) (v : Int)
    (h : i + 1 < st.1.length) :
    (ReorderPartyMons_compare score st i).1.filter (fun m => score m == v)
      = st.1.filter (fun m => score m == v) := by
  unfold ReorderPartyMons_compare
  simp only
  split_ifs with hs
  · rw [SwapMons_adjacent]
    apply filter_swap_adjacent (fun m => score m == v) {} st.1 i h
    rintro ⟨ha, hb⟩
    simp only [beq_iff_eq] at ha hb
    rw [ha, hb] at hs
    exact absurd hs (lt_irrefl v)
  · rfl

theorem pass_filter (score : Pokemon → Int) (n : Nat) (party : List Pokemon) (v : Int)
    (hn : n ≤ party.length) :
    (ReorderPartyMons_pass score n party).1.filter (fun m => score m == v)
      = party.filter (fun m => score m == v) := by
  unfold ReorderPartyMons_pass
  have key := foldl_invariant
    (fun st : List Pokemon × Bool =>
      st.1.length = party.length
        ∧ st.1.filter (fun m => score m == v) = party.filter (fun m => score m == v))
    (ReorderPartyMons_compare score) (List.range (n - 1)) (party, false) ⟨rfl, rfl⟩
    (by
      intro acc i hi hacc
      have hi' := List.mem_range.mp hi
      obtain ⟨h1, h2⟩ := hacc
      refine ⟨(compare_perm score acc i (by omega)).length_eq.trans h1, ?_⟩
      rw [compare_filter score acc i v (by omega)]
      exact h2)
  exact key.2

/-- A pass that reports no swap has left the party as it was. -/
theorem pass_fixed (score : Pokemon → Int) (n : Nat) (party : List Pokemon)
    (h : (ReorderPartyMons_pass score n party).2 = false) :
    (ReorderPartyMons_pass score n party).1 = party := by
  unfold ReorderPartyMons_pass at h ⊢
  have key := foldl_invariant
    (fun st : List Pokemon × Bool => st.2 = false → st.1 = party)
    (ReorderPartyMons_compare score) (List.range (n - 1)) (party, false) (fun _ => rfl)
    (by
      intro acc i _ hacc
      unfold ReorderPartyMons_compare
      simp only
      split_ifs
      · intro hx; exact absurd hx (by simp)
      · exact hacc)
  exact key h

/-- The loop of `ReorderPartyMons` is `sortLength` passes: a pass without a swap
is the identity, and so is every pass after it. -/
theorem loop_eq_iterate (score : Pokemon → Int) (n : Nat) :
    ∀ (k : Nat) (party : List Pokemon),
      ReorderPartyMons_loop score n k party
        = (fun p => (ReorderPartyMons_pass score n p).1)^[k] party := by
  intro k
  induction k with
  | zero => intro party; rfl
  | succ k ih =>
    intro party
    unfold ReorderPartyMons_loop
    split_ifs with h
    · rw [ih, Function.iterate_succ_apply]
    · have hf := pass_fixed score n party (by simpa using h)
      rw [hf]
      exact (Function.iterate_fixed hf (k + 1)).symm

theorem thresholdMon_score (score : Pokemon → Int) (t : Int) (mon : Pokemon) :
    scoreBySpecies (thresholdMon score t mon) = if t ≤ score mon then 1 else 0 := by
  unfold scoreBySpecies thresholdMon
  split_ifs <;> rfl

/-- Writing back two equal neighbours in exchanged order changes nothing. -/
theorem swap_equal (L : List Pokemon) (i : Nat) (h : L.getD (i + 1) {} = L.getD i {}) :
    (L.set i (L.getD (i + 1) {})).set (i + 1) (L.getD i {}) = L := by
  rw [h, set_getD_self]
  rw [← h, set_getD_self]

/-- One comparison of the sort commutes with taking threshold patterns: on the
patterns the same comparison runs with the species number as score. -/
theorem compare_threshold (score : Pokemon → Int) (t : Int) (st : List Pokemon × Bool)
    (b : Bool) (i : Nat) (h : i + 1 < st.1.length) :
    (ReorderPartyMons_compare score st i).1.map (thresholdMon score t)
      = (ReorderPartyMons_compare scoreBySpecies (st.1.map (thresholdMon score t), b) i).1 := by
  have e1 := getD_map_lt (thresholdMon score t) st.1 i {} {} (by omega)
  have e2 := getD_map_lt (thresholdMon score t) st.1 (i + 1) {} {} h
  unfold ReorderPartyMons_compare
  simp only
  rw [e1, e2, thresholdMon_score, thresholdMon_score]
  by_cases hswap : score (st.1.getD (i + 1) {}) > score (st.1.getD i {})
  · rw [if_pos hswap, SwapMons_adjacent, List.map_set, List.map_set]
    by_cases hp : (if t ≤ score (st.1.getD (i + 1) {}) then (1 : Int) else 0)
        > (if t ≤ score (st.1.getD i {}) then (1 : Int) else 0)
    · rw [if_pos hp, SwapMons_adjacent, e1, e2]
    · rw [if_neg hp]
      simp only
      have heq : thresholdMon score t (st.1.getD (i + 1) {})
          = thresholdMon score t (st.1.getD i {}) := by
        unfold thresholdMon
        split_ifs at hp ⊢ <;> first | rfl | omega
      have := swap_equal (st.1.map (thresholdMon score t)) i (by rw [e1, e2, heq])
      rw [e1, e2] at this
      exact this
  · rw [if_neg hswap, if_neg]
    split_ifs <;> omega

theorem compare_length (score : Pokemon → Int) (st : List Pokemon × Bool) (i : Nat)
    (h : i + 1 < st.1.length) : (ReorderPartyMons_compare score st i).1.length = st.1.length :=
  (compare_perm score st i h).length_eq

theorem pass_threshold (score : Pokemon → Int) (t : Int) (n : Nat) (party : List Pokemon)
    (hn : n ≤ party.length) :
    (ReorderPartyMons_pass score n party).1.map (thresholdMon score t)
      = (ReorderPartyMons_pass scoreBySpecies n (party.map (thresholdMon score t))).1 := by
  unfold ReorderPartyMons_pass
  have gen : ∀ (js : List Nat), (∀ j ∈ js, j + 1 < n) →
      ∀ (st st' : List Pokemon × Bool), st.1.length = party.length →
        st'.1 = st.1.map (thresholdMon score t) →
        (js.foldl (ReorderPartyMons_compare score) st).1.map (thresholdMon score t)
          = (js.foldl (ReorderPartyMons_compare scoreBySpecies) st').1 := by
    intro js
    induction js with
    | nil => intro _ st st' _ h; exact h.symm
    | cons j js ih =>
      intro hjs st st' hlen h
      simp only [List.foldl_cons]
      have hj := hjs j (List.mem_cons_self _ _)
      apply ih (fun k hk => hjs k (List.mem_cons_of_mem _ hk))
      · rw [compare_length score st j (by omega)]
        exact hlen
      · have := compare_threshold score t st st'.2 j (by omega)
        rw [this, ← h]
  exact gen (List.range (n - 1))
    (fun j hj => by have := List.mem_range.mp hj; omega) (party, false) _ rfl rfl

theorem iterate_threshold (score : Pokemon → Int) (t : Int) (n : Nat) :
    ∀ (k : Nat) (party : List Pokemon), n ≤ party.length →
      ((fun p => (ReorderPartyMons_pass score n p).1)^[k] party).map (thresholdMon score t)
        = (fun p => (ReorderPartyMons_pass scoreBySpecies n p).1)^[k]
            (party.map (thresholdMon score t)) := by
  intro k
  induction k with
  | zero => intro party _; rfl
  | succ k ih =>
    intro party hn
    rw [Function.iterate_succ_apply, Function.iterate_succ_apply,
      ih _ (by rw [(pass_perm score n party hn).length_eq]; exact hn),
      pass_threshold score t n party hn]

set_option maxRecDepth 100000 in
/-- The loop puts every party of at most six mons of species 0 or 1 in
non-increasing order of the species number within `monCount - 1` passes:
checked on all 127 of them. -/
theorem ReorderPartyMons_zero_one (l : List Pokemon) (hl : l.length ≤ 6)
    (h01 : ∀ m ∈ l, m = { species := 0 } ∨ m = { species := 1 }) :
    ∀ j, j < 6 → j + 1 < l.length →
      scoreBySpecies
          ((ReorderPartyMons_loop scoreBySpecies l.length (l.length - 1) l).getD (j + 1) {})
        ≤ scoreBySpecies
            ((ReorderPartyMons_loop scoreBySpecies l.length (l.length - 1) l).getD j {}) := by
  rcases l with _ | ⟨a, _ | ⟨b, _ | ⟨c, _ | ⟨d, _ | ⟨e, _ | ⟨f, _ | ⟨g, r⟩⟩⟩⟩⟩⟩⟩
  · decide
  · rcases h01 a (by simp) with rfl | rfl <;> decide
  · rcases h01 a (by simp) with rfl | rfl <;> rcases h01 b (by simp) with rfl | rfl <;> decide
  · rcases h01 a (by simp) with rfl | rfl <;> rcases h01 b (by simp) with rfl | rfl <;>
      rcases h01 c (by simp) with rfl | rfl <;> decide
  · rcases h01 a (by simp) with rfl | rfl <;> rcases h01 b (by simp) with rfl | rfl <;>
      rcases h01 c (by simp) with rfl | rfl <;> rcases h01 d (by simp) with rfl | rfl <;> decide
  · rcases h01 a (by simp) with rfl | rfl <;> rcases h01 b (by simp) with rfl | rfl <;>
      rcases h01 c (by simp) with rfl | rfl <;> rcases h01 d (by simp) with rfl | rfl <;>
      rcases h01 e (by simp) with rfl | rfl <;> decide
  · rcases h01 a (by simp) with rfl | rfl <;> rcases h01 b (by simp) with rfl | rfl <;>
      rcases h01 c (by simp) with rfl | rfl <;> rcases h01 d (by simp) with rfl | rfl <;>
      rcases h01 e (by simp) with rfl | rfl <;> rcases h01 f (by simp) with rfl | rfl <;> decide
  · simp only [List.length_cons] at hl
    omega

theorem iterate_perm (score : Pokemon → Int) (n : Nat) :
    ∀ (k : Nat) (party : List Pokemon), n ≤ party.length →
      ((fun p => (ReorderPartyMons_pass score n p).1)^[k] party).Perm party := by
  intro k
  induction k with
  | zero => intro party _; exact List.Perm.refl _
  | succ k ih =>
    intro party hn
    rw [Function.iterate_succ_apply]
    have hp := pass_perm score n party hn
    exact (ih _ (by rw [hp.length_eq]; exact hn)).trans hp

theorem iterate_filter (score : Pokemon → Int) (n : Nat) (v : Int) :
    ∀ (k : Nat) (party : List Pokemon), n ≤ party.length →
      ((fun p => (ReorderPartyMons_pass score n p).1)^[k] party).filter (fun m => score m == v)
        = party.filter (fun m => score m == v) := by
  intro k
  induction k with
  | zero => intro party _; rfl
  | succ k ih =>
    intro party hn
    rw [Function.iterate_succ_apply]
    have hp := pass_perm score n party hn
    rw [ih _ (by rw [hp.length_eq]; exact hn), pass_filter score n party v hn]

/-- For a boss or rival and a party of at most six mons the result of
`ReorderPartyMons` is that of `monCount - 1` passes. -/
theorem ReorderPartyMons_boss (env : Env) (w : World) (trainerNum : Nat) (party : List Pokemon)
    (hboss : Rogue_IsAnyBossTrainer env trainerNum = true) (hn : party.length ≤ 6) :
    ReorderPartyMons env w trainerNum party party.length
      = (fun p =>
          (ReorderPartyMons_pass
            (ReorderPartyMons_score env (ReorderPartyMons_clampLeadScore env w trainerNum))
            party.length p).1)^[party.length - 1] party := by
  unfold ReorderPartyMons
  simp only [hboss, if_true]
  rw [loop_eq_iterate]
  cases party with
  | nil =>
    simp only [List.length_nil]
    exact Function.iterate_fixed rfl _
  | cons a t =>
    simp only [List.length_cons] at hn ⊢
    have e : ((((t.length + 1 : Nat) : Int) - 1) % 65536).toNat = t.length + 1 - 1 := by omega
    rw [e]

/-- A pass over a party whose neighbours are all in order makes no swap. -/
theorem pass_no_swap (score : Pokemon → Int) (n : Nat) (party : List Pokemon)
    (h : ∀ i, i + 1 < n → ¬ (score (party.getD (i + 1) {}) > score (party.getD i {}))) :
    ReorderPartyMons_pass score n party = (party, false) := by
  unfold ReorderPartyMons_pass
  apply foldl_invariant (fun st : List Pokemon × Bool => st = (party, false)) _ _ _ rfl
  intro acc i hi hacc
  have hi' := List.mem_range.mp hi
  rw [hacc]
  unfold ReorderPartyMons_compare
  simp only
  rw [if_neg (h i (by omega))]

theorem loop_no_swap (score : Pokemon → Int) (n : Nat) (party : List Pokemon)
    (h : ∀ i, i + 1 < n → ¬ (score (party.getD (i + 1) {}) > score (party.getD i {}))) (k : Nat) :
    ReorderPartyMons_loop score n k party = party := by
  cases k with
  | zero => rfl
  | succ k =>
    unfold ReorderPartyMons_loop
    rw [pass_no_swap score n party h]
    simp

/-- C21. For a boss or rival and a party of at most six mons, the party after
`ReorderPartyMons` is the stable sort of the party in non-increasing order of
the compared score (`CalulcateMonSortScore`, or `min(score, 0)` when
`clampLeadScore` is set): it is a permutation of the party, the score does not
go up from one slot to the next, the mons of any one score stand in the order
they had, and it is what `monCount - 1` passes give. For any other trainer the
party comes back as it went in. -/
theorem ReorderPartyMons_stable_sort (env : Env) (w : World) (trainerNum : Nat)
    (party : List Pokemon) (hn : party.length ≤ 6) :
    (Rogue_IsAnyBossTrainer env trainerNum = true →
        (ReorderPartyMons env w trainerNum party party.length).Perm party
          ∧ (∀ j, j + 1 < party.length →
              ReorderPartyMons_score env (ReorderPartyMons_clampLeadScore env w trainerNum)
                  ((ReorderPartyMons env w trainerNum party party.length).getD (j + 1) {})
                ≤ ReorderPartyMons_score env (ReorderPartyMons_clampLeadScore env w trainerNum)
                    ((ReorderPartyMons env w trainerNum party party.length).getD j {}))
          ∧ (∀ v : Int,
              (ReorderPartyMons env w trainerNum party party.length).filter
                  (fun m =>
                    ReorderPartyMons_score env (ReorderPartyMons_clampLeadScore env w trainerNum) m
                      == v)
                = party.filter
                    (fun m =>
                      ReorderPartyMons_score env
                        (ReorderPartyMons_clampLeadScore env w trainerNum) m == v))
          ∧ ReorderPartyMons env w trainerNum party party.length
              = (fun p =>
                  (ReorderPartyMons_pass
                    (ReorderPartyMons_score env (ReorderPartyMons_clampLeadScore env w trainerNum))
                    party.length p).1)^[party.length - 1] party)
      ∧ (Rogue_IsAnyBossTrainer env trainerNum = false →
          ∀ monCount, ReorderPartyMons env w trainerNum party monCount = party) := by
  refine ⟨?_, ?_⟩
  · intro hboss
    have hout := ReorderPartyMons_boss env w trainerNum party hboss hn
    generalize ReorderPartyMons_score env (ReorderPartyMons_clampLeadScore env w trainerNum) = K
      at hout ⊢
    refine ⟨?_, ?_, ?_, hout⟩
    · rw [hout]
      exact iterate_perm K party.length _ party (le_refl _)
    · intro j hj
      have hperm : (ReorderPartyMons env w trainerNum party party.length).Perm party := by
        rw [hout]
        exact iterate_perm K party.length _ party (le_refl _)
      have hlen := hperm.length_eq
      generalize ReorderPartyMons env w trainerNum party party.length = out at hout hlen ⊢
      generalize ht : K (out.getD (j + 1) {}) = t
      have hthr := iterate_threshold K t party.length (party.length - 1) party (le_refl _)
      rw [← hout] at hthr
      have hz := ReorderPartyMons_zero_one (party.map (thresholdMon K t))
        (by simpa using hn)
        (by
          intro m hm
          simp only [List.mem_map] at hm
          obtain ⟨x, -, rfl⟩ := hm
          unfold thresholdMon
          split_ifs
          · exact Or.inr rfl
          · exact Or.inl rfl)
        j (by omega) (by simpa using hj)
      simp only [List.length_map] at hz
      rw [loop_eq_iterate, ← hthr] at hz
      rw [getD_map_lt (thresholdMon K t) out (j + 1) {} {} (by omega),
        getD_map_lt (thresholdMon K t) out j {} {} (by omega),
        thresholdMon_score, thresholdMon_score, ht] at hz
      simp only [le_refl, if_true] at hz
      by_contra hcon
      rw [if_neg hcon] at hz
      omega
    · intro v
      rw [hout]
      exact iterate_filter K party.length v _ party (le_refl _)
  · intro hgen monCount
    unfold ReorderPartyMons
    simp only [hgen, Bool.false_eq_true, if_false]

set_option maxRecDepth 100000 in
/-- C21, evaluated on `envHardBoss`: a party of a plain mon, a mon that knows
Fake Out, a second plain mon and a second Fake Out mon comes back with the two
Fake Out mons in front, each pair in its old order. -/
theorem ReorderPartyMons_stable_sort_witness :
    ReorderPartyMons envHardBoss worldNew 0
        [monPlain, monFakeOut, { monPlain with level := 7 }, { monFakeOut with level := 9 }] 4
        = [monFakeOut, { monFakeOut with level := 9 }, monPlain, { monPlain with level := 7 }]
      ∧ (ReorderPartyMons envHardBoss worldNew 0
          [monPlain, monFakeOut, { monPlain with level := 7 }, { monFakeOut with level := 9 }]
          [monPlain, monFakeOut, { monPlain with level := 7 },
            { monFakeOut with level := 9 }].length).Perm
          [monPlain, monFakeOut, { monPlain with level := 7 }, { monFakeOut with level := 9 }] :=
  ⟨by decide,
    ((ReorderPartyMons_stable_sort envHardBoss worldNew 0
      [monPlain, monFakeOut, { monPlain with level := 7 }, { monFakeOut with level := 9 }]
      (by decide)).1 (by decide)).1⟩

/-- C23 (amended). For a boss or rival, `ReorderPartyMons` clamps positive scores
to zero exactly when gauntlet mode is off, the tier is below 8 and the slider
is below hard, that is at easy or medium. When the clamp is on, a party whose
mons all have a score of at least 0 comes back in its original order. -/
theorem lead_score_clamped_below_hard (env : Env) (w : World) (trainerNum : Nat)
    (hboss : Rogue_IsAnyBossTrainer env trainerNum = true) :
    (ReorderPartyMons_clampLeadScore env w trainerNum = true ↔
        env.FLAG_ROGUE_GAUNTLET_MODE = false ∧ Rogue_GetCurrentDifficulty w < 8
          ∧ (env.configRangeTrainer = DIFFICULTY_LEVEL_EASY
              ∨ env.configRangeTrainer = DIFFICULTY_LEVEL_MEDIUM))
      ∧ (ReorderPartyMons_clampLeadScore env w trainerNum = true →
          ∀ (party : List Pokemon) (monCount : Nat), monCount ≤ party.length →
            (∀ mon ∈ party, 0 ≤ CalulcateMonSortScore env mon) →
            ReorderPartyMons env w trainerNum party monCount = party) := by
  refine ⟨?_, ?_⟩
  · unfold ReorderPartyMons_clampLeadScore DIFFICULTY_LEVEL_HARD DIFFICULTY_LEVEL_EASY
      DIFFICULTY_LEVEL_MEDIUM
    simp only [hboss, if_true, Bool.and_eq_true, Bool.not_eq_true', decide_eq_true_eq]
    constructor
    · rintro ⟨⟨h1, h2⟩, h3⟩
      exact ⟨h1, h3, by omega⟩
    · rintro ⟨h1, h3, h2⟩
      exact ⟨⟨h1, by omega⟩, h3⟩
  · intro hclamp party monCount hn hpos
    unfold ReorderPartyMons
    simp only [hboss, if_true, hclamp]
    apply loop_no_swap
    intro i hi
    have key : ∀ k, k < party.length →
        ReorderPartyMons_score env true (party.getD k {}) = 0 := by
      intro k hk
      have hmem : party.getD k {} ∈ party := by
        rw [List.getD_eq_getElem _ _ hk]
        exact List.getElem_mem _
      have := hpos _ hmem
      unfold ReorderPartyMons_score
      simp only [if_true]
      omega
    rw [key i (by omega), key (i + 1) (by omega)]
    exact lt_irrefl 0

/-- C23 (amended), evaluated for the boss of `envHardBoss` moved to the medium
slider, at tier 0: the plain mon stays in front of the one that knows Fake
Out. -/
theorem lead_score_clamped_below_hard_witness :
    ReorderPartyMons_clampLeadScore { envHardBoss with configRangeTrainer := 1 } worldNew 0 = true
      ∧ ReorderPartyMons { envHardBoss with configRangeTrainer := 1 } worldNew 0
          [monPlain, monFakeOut] 2 = [monPlain, monFakeOut] :=
  ⟨by decide,
    (lead_score_clamped_below_hard { envHardBoss with configRangeTrainer := 1 } worldNew 0
      (by decide)).2 (by decide) [monPlain, monFakeOut] 2 (by decide) (by decide)⟩

end Rogue
